import Mathlib

/-! Verification development for `src/lib/genepred.c`.

A shallow embedding of the transcript record, the line parser
(`parse_line_core`), the coordinate locator (`parse_line_locs`), the name sets
(`init_list`, `check_list`) and the scans of the retrieval layer
(`genepred_read_line`, `genepred_retrieve_gene`, `genepred_retrieve_trans`),
followed by theorems about them.

Conventions of the embedding:

* C `int` values are `Int`; coordinates are assumed to stay in the range where
  the C arithmetic does not overflow.
* A heap array is a `List Int`; a read or write at an index outside the
  allocation (undefined behaviour in C) is the error `Error.out_of_bounds`.
* `error(...)` (fatal in the C program) is an `Except.error`.
* Loops without a syntactic bound carry a fuel argument; running out of fuel is
  the distinct error `Error.out_of_fuel`.
* A C string is a `List Char` and a nullable string an `Option (List Char)`; a
  source is the list of its lines, a line is split into tokens by a tokenizer
  that is a parameter, and a chain of records linked by `next` is a list.
* The string hash table of a name set is the list of its keys.
-/

namespace GenePred

/-- Ways in which a call can fail to return normally. -/
inductive Error where
  /-- The fatal `error("Double parsed.")` of `parse_line_locs`. -/
  | double_parsed
  /-- The fatal `error("Unknow strand type, %s", strand)` of `check_strand`. -/
  | unknown_strand
  /-- An array access outside the allocated block. -/
  | out_of_bounds
  /-- The comma scan of an exon list ran past the end of its token. -/
  | scan_overrun
  /-- The fuel of a loop of the embedding was used up. -/
  | out_of_fuel
  /-- The fatal `error("Format error. Failed to parse line, %s", temp)` of
  `parse_line`. -/
  | format_error
  /-- The fatal `error("Unknown type : ex%d %d %d", i+1, j, t)` of
  `generate_dbref_database`. -/
  | unknown_type
  /-- A null pointer was handed to a string routine (`strdup`, `strcasecmp`,
  the hash lookup), which is undefined in C. -/
  | null_pointer
  deriving DecidableEq, Repr

/-- Modelled from the spec: `genepred.h` is not among the sources, so the
width of the tag field and the four region codes it defines are kept as
parameters. -/
structure reg_consts where
  TYPEBITS : Nat
  REG_UTR5 : Int
  REG_UTR3 : Int
  REG_CODING : Int
  REG_NONCODING : Int
  deriving DecidableEq, Repr

/-- The four region codes are distinct and each fits the tag field. -/
def reg_consts.wf (rc : reg_consts) : Prop :=
  (0 ≤ rc.REG_UTR5 ∧ rc.REG_UTR5 < 2 ^ rc.TYPEBITS) ∧
  (0 ≤ rc.REG_UTR3 ∧ rc.REG_UTR3 < 2 ^ rc.TYPEBITS) ∧
  (0 ≤ rc.REG_CODING ∧ rc.REG_CODING < 2 ^ rc.TYPEBITS) ∧
  (0 ≤ rc.REG_NONCODING ∧ rc.REG_NONCODING < 2 ^ rc.TYPEBITS) ∧
  rc.REG_UTR5 ≠ rc.REG_UTR3 ∧ rc.REG_UTR5 ≠ rc.REG_CODING ∧
  rc.REG_UTR5 ≠ rc.REG_NONCODING ∧ rc.REG_UTR3 ≠ rc.REG_CODING ∧
  rc.REG_UTR3 ≠ rc.REG_NONCODING ∧ rc.REG_CODING ≠ rc.REG_NONCODING

instance (rc : reg_consts) : Decidable rc.wf := by
  unfold reg_consts.wf; infer_instance

/-- Modelled from the spec: the macro `compact_loc` of `genepred.h` is not among
the sources. The magnitude occupies the high-order bits and the tag the
low-order field of `TYPEBITS` bits. -/
def compact_loc (rc : reg_consts) (loc type : Int) : Int :=
  loc * 2 ^ rc.TYPEBITS + type

/-- The tag of a packed offset, `v & REG_MASK` in `generate_dbref_database`;
`REG_MASK` selects the low-order `TYPEBITS` bits. -/
def reg_type (rc : reg_consts) (v : Int) : Int :=
  v % 2 ^ rc.TYPEBITS

/-- The magnitude of a packed offset, `v >> TYPEBITS` in
`generate_dbref_database`. -/
def reg_loc (rc : reg_consts) (v : Int) : Int :=
  v / 2 ^ rc.TYPEBITS

/-- The record `struct genepred_line` (without the `next` link). The two rows
of `exons`, `loc` and `dna_ref_offsets` are separate fields, `_START` for row
`BLOCK_START` and `_END` for row `BLOCK_END`. -/
structure genepred_line where
  chrom : Option (List Char) := none
  name1 : Option (List Char) := none
  name2 : Option (List Char) := none
  strand : Char := Char.ofNat 0
  txstart : Int := 0
  txend : Int := 0
  cdsstart : Int := 0
  cdsend : Int := 0
  exon_count : Int := 0
  exons_START : List Int := []
  exons_END : List Int := []
  loc_parsed : Bool := false
  forward_length : Int := 0
  backward_length : Int := 0
  reference_length : Int := 0
  loc_START : List Int := []
  loc_END : List Int := []
  dna_ref_offsets_START : List Int := []
  dna_ref_offsets_END : List Int := []
  deriving DecidableEq, Repr

/-- Array read `a[i]`. -/
def rd (a : List Int) (i : Int) : Except Error Int :=
  if 0 ≤ i ∧ i < a.length then .ok (a.getD i.toNat 0) else .error .out_of_bounds

/-- Array write `a[i] = v`. -/
def wr (a : List Int) (i : Int) (v : Int) : Except Error (List Int) :=
  if 0 ≤ i ∧ i < a.length then .ok (a.set i.toNat v) else .error .out_of_bounds

/-- Local variables of the first loop of `parse_line_locs`, together with the
parts of the record that the loop updates. -/
structure first_state where
  loc : Int
  forward_length : Int
  backward_length : Int
  reference_length : Int
  loc_START : List Int
  loc_END : List Int
  deriving DecidableEq, Repr

/-- One iteration of the first loop of `parse_line_locs` (exon `i`). -/
def first_loop_body (line : genepred_line) (is_coding : Bool) (i : Int)
    (st : first_state) : Except Error first_state := do
  let exon_start ← rd line.exons_START i
  let exon_end ← rd line.exons_END i
  let exon_length := exon_end - exon_start + 1
  let loc := st.loc + 1
  let loc_START ← wr st.loc_START i loc
  let loc := loc + exon_length - 1
  let loc_END ← wr st.loc_END i loc
  let reference_length := st.reference_length + exon_length
  if is_coding = false then
    .ok { st with loc := loc, reference_length := reference_length,
                  loc_START := loc_START, loc_END := loc_END }
  else
    let forward_length :=
      if exon_end ≤ line.cdsstart then st.forward_length + exon_length
      else if line.cdsstart > exon_start then
        st.forward_length + (line.cdsstart - exon_start)
      else st.forward_length
    let backward_length :=
      if line.cdsend ≤ exon_start then st.backward_length + exon_length
      else if line.cdsend < exon_end then
        st.backward_length + (exon_end - line.cdsend)
      else st.backward_length
    .ok { loc := loc, forward_length := forward_length,
          backward_length := backward_length,
          reference_length := reference_length,
          loc_START := loc_START, loc_END := loc_END }

/-- The first loop of `parse_line_locs`: `for (i = 0; i < exon_count; ++i)`.
The first argument is the number of iterations left, `exon_count - i`. -/
def first_loop (line : genepred_line) (is_coding : Bool) :
    Nat → Int → first_state → Except Error first_state
  | 0, _, st => .ok st
  | k + 1, i, st => do
    let st1 ← first_loop_body line is_coding i st
    first_loop line is_coding k (i + 1) st1

/-- Local variables shared by the three sweeps of `parse_line_locs` that fill
`dna_ref_offsets`. -/
structure sweep_state where
  l1 : Int
  l2 : Int
  forward_offset : Int
  backward_offset : Int
  dna_ref_offsets_START : List Int
  dna_ref_offsets_END : List Int
  deriving DecidableEq, Repr

/-- The forward sweep, `for (l1 = 0; forward_length > 0;)`. The arguments
`read_length` and `backward_length` are the locals of those names, which the
sweep only reads. -/
def forward_sweep (rc : reg_consts) (line : genepred_line) (is_strand : Bool)
    (read_length backward_length : Int) :
    Nat → Int → sweep_state → Except Error sweep_state
  | 0, forward_length, st =>
    if forward_length > 0 then .error .out_of_fuel else .ok st
  | fuel + 1, forward_length, st =>
    if forward_length > 0 then do
      let l1 := st.l1
      let exon_end ← rd line.exons_END l1
      let exon_start ← rd line.exons_START l1
      let exon_length := exon_end - exon_start + 1
      let offS ← wr st.dna_ref_offsets_START l1
        (compact_loc rc forward_length (if is_strand then rc.REG_UTR5 else rc.REG_UTR3))
      if forward_length ≥ exon_length then
        let forward_length := forward_length - exon_length
        let offE ← wr st.dna_ref_offsets_END l1
          (compact_loc rc (forward_length + 1) (if is_strand then rc.REG_UTR5 else rc.REG_UTR3))
        forward_sweep rc line is_strand read_length backward_length fuel forward_length
          { st with l1 := l1 + 1, dna_ref_offsets_START := offS,
                    dna_ref_offsets_END := offE }
      else if is_strand then
        -- `forward_length = exon_length - forward_length;` is overwritten by
        -- `forward_length = 0;` below and `forward_offset` keeps its value.
        let forward_offset := st.forward_offset
        let offE ←
          if forward_offset > read_length then
            wr st.dna_ref_offsets_END l1
              (compact_loc rc (forward_offset - read_length) rc.REG_UTR3)
          else
            wr st.dna_ref_offsets_END l1 (compact_loc rc forward_offset rc.REG_CODING)
        .ok { st with l1 := l1 + 1, forward_offset := forward_offset,
                      dna_ref_offsets_START := offS, dna_ref_offsets_END := offE }
      else
        let forward_offset := read_length + forward_length - exon_length + 1
        if forward_offset < 0 then
          let forward_offset := forward_offset + backward_length
          let offE ← wr st.dna_ref_offsets_END l1
            (compact_loc rc forward_offset rc.REG_UTR5)
          .ok { st with l1 := l1 + 1, forward_offset := forward_offset,
                        dna_ref_offsets_START := offS, dna_ref_offsets_END := offE }
        else
          let offE ← wr st.dna_ref_offsets_END l1
            (compact_loc rc forward_offset rc.REG_CODING)
          .ok { st with l1 := l1 + 1, forward_offset := forward_offset,
                        dna_ref_offsets_START := offS, dna_ref_offsets_END := offE }
    else .ok st

/-- The backward sweep, `for (l2 = exon_count - 1; backward_length > 0;)`. -/
def backward_sweep (rc : reg_consts) (line : genepred_line) (is_strand : Bool)
    (read_length : Int) :
    Nat → Int → sweep_state → Except Error sweep_state
  | 0, backward_length, st =>
    if backward_length > 0 then .error .out_of_fuel else .ok st
  | fuel + 1, backward_length, st =>
    if backward_length > 0 then do
      let l2 := st.l2
      let exon_end ← rd line.exons_END l2
      let exon_start ← rd line.exons_START l2
      let exon_length := exon_end - exon_start + 1
      let offE ← wr st.dna_ref_offsets_END l2
        (compact_loc rc backward_length (if is_strand then rc.REG_UTR3 else rc.REG_UTR5))
      if backward_length ≥ exon_length then
        let backward_length := backward_length - exon_length
        let offS ← wr st.dna_ref_offsets_START l2
          (compact_loc rc (backward_length + 1) (if is_strand then rc.REG_UTR3 else rc.REG_UTR5))
        backward_sweep rc line is_strand read_length fuel backward_length
          { st with l2 := l2 - 1, dna_ref_offsets_START := offS,
                    dna_ref_offsets_END := offE }
      else if is_strand then
        let backward_offset := read_length + backward_length - exon_length
        if backward_offset < 0 then
          let backward_offset := -backward_offset
          let offS ← wr st.dna_ref_offsets_START l2
            (compact_loc rc backward_offset rc.REG_UTR5)
          .ok { st with l2 := l2 - 1, backward_offset := backward_offset,
                        dna_ref_offsets_START := offS, dna_ref_offsets_END := offE }
        else
          let offS ← wr st.dna_ref_offsets_START l2
            (compact_loc rc (backward_offset + 1) rc.REG_CODING)
          .ok { st with l2 := l2 - 1, backward_offset := backward_offset,
                        dna_ref_offsets_START := offS, dna_ref_offsets_END := offE }
      else
        let backward_offset := exon_length - backward_length
        if backward_offset > read_length then
          let backward_offset := backward_offset - read_length
          let offS ← wr st.dna_ref_offsets_START l2
            (compact_loc rc backward_offset rc.REG_UTR5)
          .ok { st with l2 := l2 - 1, backward_offset := backward_offset,
                        dna_ref_offsets_START := offS, dna_ref_offsets_END := offE }
        else
          let offS ← wr st.dna_ref_offsets_START l2
            (compact_loc rc backward_offset rc.REG_CODING)
          .ok { st with l2 := l2 - 1, backward_offset := backward_offset,
                        dna_ref_offsets_START := offS, dna_ref_offsets_END := offE }
    else .ok st

/-- The middle sweep on the plus strand, `for ( ; l1 <= l2; l1++)`. The first
argument is the number of iterations left, `l2 - l1 + 1`. -/
def middle_sweep_plus (rc : reg_consts) (line : genepred_line) (is_coding : Bool) :
    Nat → Int → sweep_state → Except Error sweep_state
  | 0, _, st => .ok st
  | k + 1, read_length, st => do
    let l1 := st.l1
    let exon_end ← rd line.exons_END l1
    let exon_start ← rd line.exons_START l1
    let exon_length := exon_end - exon_start + 1
    let offE ← wr st.dna_ref_offsets_END l1
      (compact_loc rc read_length (if is_coding then rc.REG_CODING else rc.REG_NONCODING))
    let read_length := read_length - exon_length
    let offS ← wr st.dna_ref_offsets_START l1
      (compact_loc rc (read_length + 1) (if is_coding then rc.REG_CODING else rc.REG_NONCODING))
    middle_sweep_plus rc line is_coding k read_length
      { st with l1 := l1 + 1, dna_ref_offsets_START := offS, dna_ref_offsets_END := offE }

/-- The middle sweep on the minus strand, `for ( ; l2 >= l1; l2--)`. The first
argument is the number of iterations left, `l2 - l1 + 1`. -/
def middle_sweep_minus (rc : reg_consts) (line : genepred_line) (is_coding : Bool) :
    Nat → Int → sweep_state → Except Error sweep_state
  | 0, _, st => .ok st
  | k + 1, read_length, st => do
    let l2 := st.l2
    let exon_end ← rd line.exons_END l2
    let exon_start ← rd line.exons_START l2
    let exon_length := exon_end - exon_start + 1
    let offS ← wr st.dna_ref_offsets_START l2
      (compact_loc rc read_length (if is_coding then rc.REG_CODING else rc.REG_NONCODING))
    let read_length := read_length - exon_length
    let offE ← wr st.dna_ref_offsets_END l2
      (compact_loc rc (read_length + 1) (if is_coding then rc.REG_CODING else rc.REG_NONCODING))
    middle_sweep_minus rc line is_coding k read_length
      { st with l2 := l2 - 1, dna_ref_offsets_START := offS, dna_ref_offsets_END := offE }

/-- The second half of `parse_line_locs` (from the comment "Calculate the
dna_ref_offsets[]" to the end): the forward, the backward and the middle sweep
over the zeroed rows of `dna_ref_offsets`. The arguments are the locals of the
same names as they stand after the first loop. -/
def fill_offsets (rc : reg_consts) (line : genepred_line) (is_strand is_coding : Bool)
    (forward_length backward_length read_length : Int) : Except Error sweep_state := do
  let n := line.exon_count.toNat
  let s0 : sweep_state :=
    { l1 := 0, l2 := line.exon_count - 1, forward_offset := 0, backward_offset := 0,
      dna_ref_offsets_START := List.replicate n 0,
      dna_ref_offsets_END := List.replicate n 0 }
  let s1 ← forward_sweep rc line is_strand read_length backward_length (n + 1)
    forward_length s0
  let s2 ← backward_sweep rc line is_strand read_length (n + 1) backward_length s1
  if is_strand then
    let read_length :=
      if is_coding ∧ s2.backward_offset ≠ 0 then s2.backward_offset else read_length
    middle_sweep_plus rc line is_coding (s2.l2 - s2.l1 + 1).toNat read_length s2
  else
    let read_length :=
      if is_coding ∧ s2.forward_offset ≠ 0 then s2.forward_offset - 1 else read_length
    middle_sweep_minus rc line is_coding (s2.l2 - s2.l1 + 1).toNat read_length s2

/-- The state of the locals and of the zeroed rows of `loc` before the first
loop of `parse_line_locs`. -/
def first_init (line : genepred_line) : first_state :=
  { loc := 0, forward_length := 0, backward_length := 0,
    reference_length := line.reference_length,
    loc_START := List.replicate line.exon_count.toNat 0,
    loc_END := List.replicate line.exon_count.toNat 0 }

/-- The function `parse_line_locs`. A normal return (the C function then
returns 0) yields the updated record. -/
def parse_line_locs (rc : reg_consts) (line : genepred_line) :
    Except Error genepred_line :=
  if line.loc_parsed then .error .double_parsed
  else
    let is_strand : Bool := decide (line.strand = '+')
    let is_coding : Bool := if line.cdsstart = line.cdsend then false else true
    -- calloc(line->exon_count, sizeof(int)) for both rows of both tables
    match first_loop line is_coding line.exon_count.toNat 0 (first_init line) with
    | .error e => .error e
    | .ok fs =>
      let forward_length := fs.forward_length
      let backward_length := fs.backward_length
      let reference_length := fs.reference_length
      let read_length := reference_length - forward_length - backward_length
      let line_forward_length := if is_strand then forward_length else backward_length
      let line_backward_length := if is_strand then backward_length else forward_length
      let loc_START :=
        if is_strand then fs.loc_START
        else fs.loc_START.map (fun v => reference_length - v + 1)
      let loc_END :=
        if is_strand then fs.loc_END
        else fs.loc_END.map (fun v => reference_length - v + 1)
      match fill_offsets rc line is_strand is_coding forward_length backward_length
          read_length with
      | .error e => .error e
      | .ok s3 =>
        .ok { line with
              loc_parsed := true
              reference_length := reference_length
              forward_length := line_forward_length
              backward_length := line_backward_length
              loc_START := loc_START
              loc_END := loc_END
              dna_ref_offsets_START := s3.dna_ref_offsets_START
              dna_ref_offsets_END := s3.dna_ref_offsets_END }

/-- The column layout `struct genepred_format`: the token index of each
field. -/
structure genepred_format where
  chrom : Nat
  name1 : Nat
  name2 : Nat
  strand : Nat
  txstart : Nat
  txend : Nat
  cdsstart : Nat
  cdsend : Nat
  exon_count : Nat
  exonstarts : Nat
  exonends : Nat
  deriving DecidableEq, Repr

/-- The layout `refgene_formats`. -/
def refgene_formats : genepred_format :=
  { chrom := 2, name1 := 1, name2 := 12, strand := 3, txstart := 4, txend := 5,
    cdsstart := 6, cdsend := 7, exon_count := 8, exonstarts := 9, exonends := 10 }

/-- The layout `genepred_formats`, the default one. -/
def genepred_formats : genepred_format :=
  { name1 := 0, chrom := 1, strand := 2, txstart := 3, txend := 4, cdsstart := 5,
    cdsend := 6, exon_count := 7, exonstarts := 8, exonends := 9, name2 := 10 }

/-- The layout `refflat_formats`. -/
def refflat_formats : genepred_format :=
  { name1 := 0, name2 := 1, chrom := 2, strand := 3, txstart := 4, txend := 5,
    cdsstart := 6, cdsend := 7, exon_count := 8, exonstarts := 9, exonends := 10 }

/-- The function `clear_genepred_line`: after releasing the owned blocks the
record is zeroed by `memset`. -/
def clear_genepred_line (_line : genepred_line) : genepred_line := {}

/-- The function `check_strand`: `memcmp(strand, "+", 1)` looks at the first
character of the token only. -/
def check_strand (strand : List Char) : Except Error Char :=
  match strand with
  | c :: _ => if c = '+' then .ok '+' else if c = '-' then .ok '-' else .error .unknown_strand
  | [] => .error .unknown_strand

/-- The token at column `col`, `string->s + splits[col]`. -/
def token (tokens : List (List Char)) (col : Nat) : List Char :=
  tokens.getD col []

/-- The scan `while (ss1 && *ss1 != ',') ss1++; ss1[0] = 0; ... ss = ++ss1;`:
the text before the first comma and the text after it. A token without a comma
lets the C scan leave the token, which is reported as no result. -/
def scan_comma : List Char → Option (List Char × List Char)
  | [] => none
  | c :: cs =>
    if c = ',' then some ([], cs)
    else match scan_comma cs with
      | none => none
      | some (tok, rest) => some (c :: tok, rest)

/-- The exon loop of `parse_line_core`, `for (i = 0; i < exon_count; ++i)`; the
first argument is the number of iterations left. The conversion `str2int` of
`number.h` is not among the sources and is a parameter. -/
def exon_loop (str2int : List Char → Int) :
    Nat → Int → List Char → List Char → List Int → List Int →
      Except Error (List Int × List Int)
  | 0, _, _, _, exS, exE => .ok (exS, exE)
  | k + 1, i, ss, se, exS, exE =>
    match scan_comma ss with
    | none => .error .scan_overrun
    | some (stok, ss1) =>
      match wr exS i (str2int stok + 1) with
      | .error e => .error e
      | .ok exS1 =>
        match scan_comma se with
        | none => .error .scan_overrun
        | some (etok, se1) =>
          match wr exE i (str2int etok) with
          | .error e => .error e
          | .ok exE1 => exon_loop str2int k (i + 1) ss1 se1 exS1 exE1

/-- The function `parse_line_core` on a line already split into tokens by
`ksplit`. The result pairs the returned status (0 or 1) with the record. The
conversion `str2int` of `number.h` is not among the sources and is a
parameter, as is the active layout `type`. -/
def parse_line_core (type : genepred_format) (str2int : List Char → Int)
    (tokens : List (List Char)) (line : genepred_line) :
    Except Error (Int × genepred_line) :=
  let line := clear_genepred_line line
  let nfields := tokens.length
  let line := { line with
    chrom := if type.chrom ≥ nfields then none else some (token tokens type.chrom) }
  if line.chrom = none then .ok (1, line)
  else
    let line := { line with
      name1 := if type.name1 ≥ nfields then none else some (token tokens type.name1) }
    match (if type.strand ≥ nfields then Except.ok (Char.ofNat 0)
           else check_strand (token tokens type.strand)) with
    | .error e => .error e
    | .ok strand =>
      let line := { line with strand := strand }
      let line := { line with
        txstart := (if type.txstart ≥ nfields then 0
                    else str2int (token tokens type.txstart)) + 1 }
      let line := { line with
        txend := if type.txend ≥ nfields then 0 else str2int (token tokens type.txend) }
      if type.txend = 0 then .ok (1, line)
      else
        let line := { line with
          cdsstart := (if type.cdsstart ≥ nfields then 0
                       else str2int (token tokens type.cdsstart)) + 1 }
        let line := { line with
          cdsend := if type.cdsend ≥ nfields then 0
                    else str2int (token tokens type.cdsend) }
        let line := { line with
          exon_count := if type.exon_count ≥ nfields then 0
                        else str2int (token tokens type.exon_count) }
        let line := { line with
          name2 := if type.name2 ≥ nfields then none else some (token tokens type.name2) }
        if type.exonstarts ≥ nfields then .ok (1, line)
        else if type.exonends ≥ nfields then .ok (1, line)
        else
          let ss := token tokens type.exonstarts
          let se := token tokens type.exonends
          let n := line.exon_count.toNat
          match exon_loop str2int n 0 ss se (List.replicate n 0) (List.replicate n 0) with
          | .error e => .error e
          | .ok (exS, exE) =>
            .ok (0, { line with exons_START := exS, exons_END := exE })

/-- Modelled from the spec: `number.h` with `str2int` is not among the sources.
The value of a run of decimal digits. -/
def digits_value : List Char → Nat → Nat
  | [], acc => acc
  | c :: cs, acc => digits_value cs (acc * 10 + (c.toNat - '0'.toNat))

/-- Modelled from the spec: `number.h` is not among the sources. The integer
written by a token in decimal, with an optional leading minus sign. -/
def str2int_dec (s : List Char) : Int :=
  match s with
  | '-' :: cs => - (digits_value cs 0 : Int)
  | cs => (digits_value cs 0 : Int)

/-- The prefix that `generate_dbref_database` prints for the tag of a packed
offset (the `switch` on `v & REG_MASK`); a tag that is none of the four is
`error("Unknown type ...")`. -/
def region_prefix (rc : reg_consts) (v : Int) : Option (List Char) :=
  let t := reg_type rc v
  if t = rc.REG_UTR5 then some ['-']
  else if t = rc.REG_UTR3 then some ['*']
  else if t = rc.REG_CODING then some ['c', '.']
  else if t = rc.REG_NONCODING then some ['n', '.']
  else none

/-- The line of end-to-end scenario 6 in the genepred layout, with an arbitrary
transcript name and arbitrary trailing columns. -/
def scenario6_tokens (name1 : List Char) (rest : List (List Char)) : List (List Char) :=
  [name1, "chr1".toList, "+".toList, "100".toList, "200".toList, "110".toList,
   "190".toList, "1".toList, "100,".toList, "200,".toList] ++ rest

/-- A sample assignment of the constants of `genepred.h`, used where the
functions are evaluated on concrete records. -/
def rc_sample : reg_consts :=
  { TYPEBITS := 3, REG_UTR5 := 1, REG_UTR3 := 2, REG_CODING := 3, REG_NONCODING := 4 }

/-- The length `exons[BLOCK_END][j] - exons[BLOCK_START][j] + 1` of exon `j`. -/
def exon_length (line : genepred_line) (j : Nat) : Int :=
  line.exons_END.getD j 0 - line.exons_START.getD j 0 + 1

/-- The summed length of the `k` exons from exon `a` on. -/
def len_sum (line : genepred_line) (a : Nat) : Nat → Int
  | 0 => 0
  | k + 1 => exon_length line a + len_sum line (a + 1) k

/-- Both rows of `exons` hold `exon_count` entries, as after `parse_line_core`. -/
def arrays_ok (line : genepred_line) : Prop :=
  (line.exons_START.length : Int) = line.exon_count ∧
  (line.exons_END.length : Int) = line.exon_count

instance (line : genepred_line) : Decidable (arrays_ok line) := by
  unfold arrays_ok; infer_instance

/-- Spec side: every exonic base of the record, exon by exon. -/
def spec_exonic_bases (line : genepred_line) : List Int :=
  (List.zip line.exons_START line.exons_END).flatMap
    (fun se => (List.range (se.2 - se.1 + 1).toNat).map (fun k => se.1 + (k : Int)))

/-- Spec side: the number of exonic bases that satisfy `p`. -/
def spec_count (line : genepred_line) (p : Int → Bool) : Int :=
  ((spec_exonic_bases line).filter p).length

/-- The htslib routine `kputw`, which appends the decimal representation of an
`int`. -/
def kputw (c : Int) : List Char :=
  if c < 0 then '-' :: Nat.toDigits 10 c.natAbs else Nat.toDigits 10 c.toNat

/-- The text that `generate_dbref_database` prints for a packed offset: the
prefix of its tag followed by its magnitude. -/
def render_offset (rc : reg_consts) (v : Int) : Option (List Char) :=
  match region_prefix rc v with
  | none => none
  | some pre => some (pre ++ kputw (reg_loc rc v))

/-- A plus-strand record with two exons, 1..10 and 21..30, whose coding region
10..25 starts on the last base of the first exon. -/
def boundary_cds_record : genepred_line :=
  { chrom := some "chr1".toList, name1 := some "T1".toList, name2 := some "G1".toList,
    strand := '+', txstart := 1, txend := 30, cdsstart := 10, cdsend := 25,
    exon_count := 2, exons_START := [1, 21], exons_END := [10, 30] }

/-- A minus-strand record with the single exon 101..200 and the coding region
111..190 (scenario 6 on the other strand). -/
def minus_single_exon_record : genepred_line :=
  { chrom := some "chr1".toList, name1 := some "T1".toList, name2 := some "G1".toList,
    strand := '-', txstart := 101, txend := 200, cdsstart := 111, cdsend := 190,
    exon_count := 1, exons_START := [101], exons_END := [200] }

/-- A plus-strand record with two exons, 1..10 and 21..30, and the coding region
5..25. -/
def two_exon_record : genepred_line :=
  { chrom := some "chr1".toList, name1 := some "T1".toList, name2 := some "G1".toList,
    strand := '+', txstart := 1, txend := 30, cdsstart := 5, cdsend := 25,
    exon_count := 2, exons_START := [1, 21], exons_END := [10, 30] }

/-- A minus-strand non-coding record with the single exon 1..10. -/
def minus_noncoding_record : genepred_line :=
  { chrom := some "chr1".toList, name1 := some "T1".toList, name2 := some "G1".toList,
    strand := '-', txstart := 1, txend := 10, cdsstart := 10, cdsend := 10,
    exon_count := 1, exons_START := [1], exons_END := [10] }

/-- Spec side: the text of a list of comma-terminated items followed by
`rest`. -/
def comma_terminated : List (List Char) → List Char → List Char
  | [], rest => rest
  | p :: ps, rest => p ++ ',' :: comma_terminated ps rest

/-- The line has a token at every column of the layout. -/
def has_all_columns (type : genepred_format) (tokens : List (List Char)) : Prop :=
  type.chrom < tokens.length ∧ type.name1 < tokens.length ∧
  type.name2 < tokens.length ∧ type.strand < tokens.length ∧
  type.txstart < tokens.length ∧ type.txend < tokens.length ∧
  type.cdsstart < tokens.length ∧ type.cdsend < tokens.length ∧
  type.exon_count < tokens.length ∧ type.exonstarts < tokens.length ∧
  type.exonends < tokens.length

instance (type : genepred_format) (tokens : List (List Char)) :
    Decidable (has_all_columns type tokens) := by
  unfold has_all_columns; infer_instance

/-- The test `*name == '#' || *name == '/'` on the first character of a line
(the terminating NUL of an empty line is neither). -/
def comment_start (s : List Char) : Bool :=
  match s with
  | c :: _ => c = '#' || c = '/'
  | [] => false

/-- The record `struct list`: the number of lines read, the lines, and the keys
of the string hash table `hash` in insertion order. -/
structure list where
  lines : Nat
  reads : List (List Char)
  hash : List (List Char)
  deriving DecidableEq, Repr

/-- The loop of `init_list` over `reads`: comment lines are skipped, and a line
that `kh_get` does not find is inserted by `kh_put`. -/
def init_list_loop : List (List Char) → List (List Char) → List (List Char)
  | [], hash => hash
  | name :: rest, hash =>
    if comment_start name then init_list_loop rest hash
    else if name ∈ hash then init_list_loop rest hash
    else init_list_loop rest (hash ++ [name])

/-- The function `init_list`. The file name is `none` for a null `fn`; the
htslib reader `hts_readlines` is a parameter and gives `none` when it returns
null. A null result of `init_list` is `none`. -/
def init_list {F : Type} (hts_readlines : F → Option (List (List Char)))
    (fn : Option F) : Option list :=
  match fn with
  | none => none
  | some f =>
    match hts_readlines f with
    | none => none
    | some reads =>
      if reads.length = 0 then none
      else some { lines := reads.length, reads := reads, hash := init_list_loop reads [] }

/-- The function `check_list`: 1 when the name is not found, 0 when it is. The
hash lookup of a null name is undefined in C. -/
def check_list (l : Option list) (name : Option (List Char)) : Except Error Int :=
  match l with
  | none => .ok 1
  | some lst =>
    if lst.lines = 0 then .ok 1
    else
      match name with
      | none => .error .null_pointer
      | some n => if n ∈ lst.hash then .ok 0 else .ok 1

/-- The part of `struct genepred_spec` that the scans use: the lines of the open
source `fp` (all of them in `data`, those from the read position on in `fp`),
whether `file_seek` to the start fails, and the two name filters. -/
structure genepred_spec where
  data : List (List Char) := []
  fp : List (List Char) := []
  seek_fails : Bool := false
  genes : Option list := none
  trans : Option list := none
  deriving DecidableEq, Repr

/-- The lines that `read_line` passes over: empty lines and comment lines. -/
def is_skipped (s : List Char) : Bool :=
  s.length = 0 || comment_start s

/-- The function `read_line` on the lines from the read position on: `none`
when the end of the source is reached (the C function returns 1), otherwise
the next line that is neither empty nor a comment, with the new read
position. -/
def read_line : List (List Char) → Option (List Char × List (List Char))
  | [] => none
  | s :: rest => if is_skipped s then read_line rest else some (s, rest)

/-- The function `parse_line`: a status 1 of `parse_line_core` is the fatal
"Format error". The htslib tokenizer `ksplit` is a parameter. -/
def parse_line (type : genepred_format) (str2int : List Char → Int)
    (ksplit : List Char → List (List Char)) (string : List Char)
    (line : genepred_line) : Except Error (Int × genepred_line) :=
  match parse_line_core type str2int (ksplit string) line with
  | .error e => .error e
  | .ok (ret, line1) => if ret = 1 then .error .format_error else .ok (0, line1)

/-- The guarded test `if (l) { if (check_list(l, name) == 0) return 0; }` of
`genepred_read_line`: whether it returns. -/
def filter_hit (l : Option list) (name : Option (List Char)) : Except Error Bool :=
  match l with
  | none => .ok false
  | some _ =>
    match check_list l name with
    | .error e => .error e
    | .ok r => .ok (decide (r = 0))

/-- The loop `for (;;)` of `genepred_read_line`. The result is the returned
status, the new read position and the record. -/
def genepred_read_line_loop (type : genepred_format) (str2int : List Char → Int)
    (ksplit : List Char → List (List Char)) (genes trans : Option list) :
    Nat → List (List Char) → genepred_line →
      Except Error (Int × List (List Char) × genepred_line)
  | 0, _, _ => .error .out_of_fuel
  | fuel + 1, fp, line =>
    match read_line fp with
    | none => .ok (1, [], line)
    | some (string, fp1) =>
      match parse_line type str2int ksplit string line with
      | .error e => .error e
      | .ok (_, line1) =>
        match filter_hit genes line1.name2 with
        | .error e => .error e
        | .ok true => .ok (0, fp1, line1)
        | .ok false =>
          match filter_hit trans line1.name1 with
          | .error e => .error e
          | .ok true => .ok (0, fp1, line1)
          | .ok false =>
            genepred_read_line_loop type str2int ksplit genes trans fuel fp1 line1

/-- The function `genepred_read_line`: the returned status, the handle with its
new read position, and the record. -/
def genepred_read_line (type : genepred_format) (str2int : List Char → Int)
    (ksplit : List Char → List (List Char)) (spec : genepred_spec)
    (line : genepred_line) : Except Error (Int × genepred_spec × genepred_line) :=
  match genepred_read_line_loop type str2int ksplit spec.genes spec.trans
      (spec.fp.length + 1) spec.fp line with
  | .error e => .error e
  | .ok (ret, fp1, line1) => .ok (ret, { spec with fp := fp1 }, line1)

/-- One row of `genepred_line_copy`: `calloc(exon_count, sizeof(int))` followed
by a `memcpy` of `exon_count` entries. -/
def copy_row (exon_count : Int) (src : List Int) : Except Error (List Int) :=
  if exon_count.toNat ≤ src.length then .ok (src.take exon_count.toNat)
  else .error .out_of_bounds

/-- The function `genepred_line_copy` (of a non-null record). The new record
comes zeroed from `genepred_line_create`; `strdup` of a null string is
undefined in C. -/
def genepred_line_copy (line : genepred_line) : Except Error genepred_line :=
  match line.chrom, line.name1, line.name2 with
  | some chrom, some name1, some name2 =>
    match copy_row line.exon_count line.exons_START,
          copy_row line.exon_count line.exons_END with
    | .ok exS, .ok exE =>
      let nl : genepred_line :=
        { chrom := some chrom, txstart := line.txstart, txend := line.txend,
          strand := line.strand, name1 := some name1, name2 := some name2,
          cdsstart := line.cdsstart, cdsend := line.cdsend,
          forward_length := line.forward_length,
          backward_length := line.backward_length,
          reference_length := line.reference_length,
          exon_count := line.exon_count, exons_START := exS, exons_END := exE }
      if line.loc_parsed then
        match copy_row line.exon_count line.dna_ref_offsets_START,
              copy_row line.exon_count line.dna_ref_offsets_END,
              copy_row line.exon_count line.loc_START,
              copy_row line.exon_count line.loc_END with
        | .ok oS, .ok oE, .ok lS, .ok lE =>
          .ok { nl with dna_ref_offsets_START := oS, dna_ref_offsets_END := oE,
                        loc_START := lS, loc_END := lE }
        | _, _, _, _ => .error .out_of_bounds
      else .ok nl
    | _, _ => .error .out_of_bounds
  | _, _, _ => .error .null_pointer

/-- The comparison `strcasecmp(a, b) == 0`. -/
def strcasecmp_eq (a b : List Char) : Bool :=
  a.map Char.toLower == b.map Char.toLower

/-- The comparison `strncasecmp(a, b, n) == 0`: the first `n` characters, or
the whole strings when they end earlier, agree up to case. -/
def strncasecmp_eq (a b : List Char) (n : Nat) : Bool :=
  (a.take n).map Char.toLower == (b.take n).map Char.toLower

/-- The scan loop that `genepred_retrieve_gene` and `genepred_retrieve_trans`
both contain: every line that `read_line` yields is parsed into `node`, and a
copy of `node` is appended to the chain when `test` holds. The chain, linked by
`next` from `head` with a null last link, is a list. -/
def retrieve_scan (type : genepred_format) (str2int : List Char → Int)
    (ksplit : List Char → List (List Char))
    (test : genepred_line → Except Error Bool) :
    Nat → List (List Char) → genepred_line → List genepred_line →
      Except Error (List genepred_line)
  | 0, _, _, _ => .error .out_of_fuel
  | fuel + 1, fp, node, chain =>
    match read_line fp with
    | none => .ok chain
    | some (string, fp1) =>
      match parse_line type str2int ksplit string node with
      | .error e => .error e
      | .ok (_, node1) =>
        match test node1 with
        | .error e => .error e
        | .ok false => retrieve_scan type str2int ksplit test fuel fp1 node1 chain
        | .ok true =>
          match genepred_line_copy node1 with
          | .error e => .error e
          | .ok temp1 =>
            retrieve_scan type str2int ksplit test fuel fp1 node1 (chain ++ [temp1])

/-- The test `strcasecmp(node.name2, name) == 0` of `genepred_retrieve_gene`. -/
def gene_test (name : List Char) (node : genepred_line) : Except Error Bool :=
  match node.name2 with
  | none => .error .null_pointer
  | some name2 => .ok (strcasecmp_eq name2 name)

/-- The function `genepred_retrieve_gene`: the chain of copies and the handle,
whose source has been read to its end. A failing `file_seek` gives the null
chain. -/
def genepred_retrieve_gene (type : genepred_format) (str2int : List Char → Int)
    (ksplit : List Char → List (List Char)) (spec : genepred_spec)
    (name : List Char) : Except Error (List genepred_line × genepred_spec) :=
  if spec.seek_fails then .ok ([], spec)
  else
    match retrieve_scan type str2int ksplit (gene_test name)
        (spec.data.length + 1) spec.data {} [] with
    | .error e => .error e
    | .ok chain => .ok (chain, { spec with fp := [] })

/-- The loop `for ( ; ss && *ss; ss++ )` of `genepred_retrieve_trans` that sets
`check_version` when the query holds a `.`. -/
def check_version (name : List Char) : Bool :=
  name.any (fun c => c = '.')

/-- The loop `for ( i = 0; ss; ++ss, ++i) if ( *ss == '.') break;` over
`node.name1`: the index of the first `.`. The loop does not stop at the end of
the string, so a name without a `.` gives no result. -/
def first_dot : List Char → Option Nat
  | [] => none
  | c :: cs =>
    if c = '.' then some 0
    else match first_dot cs with
      | none => none
      | some i => some (i + 1)

/-- The test of `genepred_retrieve_trans` on a parsed `node`. Without a version
in the query the first `i` characters of `node.name1` and of the query are
compared, `i` being the index of the first `.` of `node.name1` (0 for a null
`name1`, whose loop does not run); with a version the whole names are
compared. -/
def trans_test (name : List Char) (node : genepred_line) : Except Error Bool :=
  if check_version name = false then
    match node.name1 with
    | none => .ok true
    | some name1 =>
      match first_dot name1 with
      | none => .error .scan_overrun
      | some i => .ok (strncasecmp_eq name1 name i)
  else
    match node.name1 with
    | none => .error .null_pointer
    | some name1 => .ok (strcasecmp_eq name1 name)

/-- The function `genepred_retrieve_trans`: the chain of copies and the handle,
whose source has been read to its end. A failing `file_seek` gives the null
chain. -/
def genepred_retrieve_trans (type : genepred_format) (str2int : List Char → Int)
    (ksplit : List Char → List (List Char)) (spec : genepred_spec)
    (name : List Char) : Except Error (List genepred_line × genepred_spec) :=
  if spec.seek_fails then .ok ([], spec)
  else
    match retrieve_scan type str2int ksplit (trans_test name)
        (spec.data.length + 1) spec.data {} [] with
    | .error e => .error e
    | .ok chain => .ok (chain, { spec with fp := [] })

/-- The htslib routine `ksplit` with delimiter 0, one step: the characters of
the field being read are in `cur`. -/
def ksplit_aux : List Char → List Char → List (List Char)
  | [], cur => if cur = [] then [] else [cur]
  | c :: cs, cur =>
    if c = ' ' ∨ c = '\t' ∨ c = '\n' ∨ c = '\r' then
      if cur = [] then ksplit_aux cs [] else cur :: ksplit_aux cs []
    else ksplit_aux cs (cur ++ [c])

/-- The htslib routine `ksplit` with delimiter 0: the fields of a line between
runs of white space. -/
def ksplit0 (s : List Char) : List (List Char) :=
  ksplit_aux s []

/-- Spec side: the records of the lines of a source that are neither empty nor
comments, in file order; a line that does not parse contributes none. -/
def parsed_records (type : genepred_format) (str2int : List Char → Int)
    (ksplit : List Char → List (List Char)) (lines : List (List Char)) :
    List genepred_line :=
  lines.filterMap (fun s =>
    if is_skipped s then none
    else match parse_line type str2int ksplit s {} with
      | .ok (_, r) => some r
      | .error _ => none)

/-- Spec side: the name2 of a record equals the query up to case. -/
def name2_matches (name : List Char) (r : genepred_line) : Bool :=
  match r.name2 with
  | some name2 => strcasecmp_eq name2 name
  | none => false

/-- A line of a source in the genepred layout: a plus-strand transcript on chr1
with exons 1..10 and 21..30 and coding region 10..25, named `name1`, of the
gene `name2`. -/
def sample_line (name1 name2 : List Char) : List Char :=
  name1 ++ "\tchr1\t+\t0\t30\t9\t25\t2\t0,20,\t10,30,\t".toList ++ name2

/-- The record that `sample_line name1 name2` parses to. -/
def sample_record (name1 name2 : List Char) : genepred_line :=
  { chrom := some "chr1".toList, name1 := some name1, name2 := some name2,
    strand := '+', txstart := 1, txend := 30, cdsstart := 10, cdsend := 25,
    exon_count := 2, exons_START := [1, 21], exons_END := [10, 30] }

/-- The record of `parse_line_core` once the scalar columns are read and before
the exon rows are filled, for a line whose chrom column is present and whose
strand reads as `strand`. -/
def scalar_fields (type : genepred_format) (str2int : List Char → Int)
    (tokens : List (List Char)) (strand : Char) : genepred_line :=
  { chrom := some (token tokens type.chrom)
    name1 := if type.name1 ≥ tokens.length then none else some (token tokens type.name1)
    strand := strand
    txstart := (if type.txstart ≥ tokens.length then 0
                else str2int (token tokens type.txstart)) + 1
    txend := if type.txend ≥ tokens.length then 0 else str2int (token tokens type.txend)
    cdsstart := (if type.cdsstart ≥ tokens.length then 0
                 else str2int (token tokens type.cdsstart)) + 1
    cdsend := if type.cdsend ≥ tokens.length then 0
              else str2int (token tokens type.cdsend)
    exon_count := if type.exon_count ≥ tokens.length then 0
                  else str2int (token tokens type.exon_count)
    name2 := if type.name2 ≥ tokens.length then none else some (token tokens type.name2) }

/-- The strand token, when the line has one, begins with `+` or `-`. -/
def strand_valid (type : genepred_format) (tokens : List (List Char)) : Prop :=
  type.strand < tokens.length →
    ∃ c cs, token tokens type.strand = c :: cs ∧ (c = '+' ∨ c = '-')

/-- One of the three layouts of the source. -/
def known_layout (type : genepred_format) : Prop :=
  type = genepred_formats ∨ type = refgene_formats ∨ type = refflat_formats

instance (type : genepred_format) : Decidable (known_layout type) := by
  unfold known_layout; infer_instance

/-- The record `two_exon_record` as a destination that was parsed from another
line and located before. -/
def located_record : genepred_line :=
  { two_exon_record with
    loc_parsed := true, forward_length := 4, backward_length := 5,
    reference_length := 20, loc_START := [1, 11], loc_END := [10, 20],
    dna_ref_offsets_START := [33, 59], dna_ref_offsets_END := [3, 42] }

/-- A line of four tokens, too short for the txEnd column of every layout. -/
def short_tokens : List (List Char) :=
  ["NM_1".toList, "chr1".toList, "+".toList, "100".toList]

/-- The filter is present and the name is one of its keys. -/
def in_filter (l : Option list) (name : Option (List Char)) : Prop :=
  ∃ lst n, l = some lst ∧ lst.lines ≠ 0 ∧ name = some n ∧ n ∈ lst.hash

/-- The gene filter built from a file with the single line `G1`. -/
def gene_filter_G1 : Option list :=
  init_list (fun _ : Unit => some ["G1".toList]) (some ())

/-- The transcript filter built from a file with the single line `T9`. -/
def trans_filter_T9 : Option list :=
  init_list (fun _ : Unit => some ["T9".toList]) (some ())

/-- The transcript filter built from a file with the single line `NM_000546`, an
entry without a version. -/
def trans_filter_unversioned : Option list :=
  init_list (fun _ : Unit => some ["NM_000546".toList]) (some ())

/-- A handle without filters at the start of a source with one record. -/
def unfiltered_spec : genepred_spec :=
  { data := [sample_line "T1".toList "G1".toList],
    fp := [sample_line "T1".toList "G1".toList] }

/-- A handle with both filters at the start of a source with a comment line and
two records: transcript T1 of gene G1, then transcript T9 of gene G2. -/
def both_filters_spec : genepred_spec :=
  { data := ["#c".toList, sample_line "T1".toList "G1".toList,
             sample_line "T9".toList "G2".toList],
    fp := ["#c".toList, sample_line "T1".toList "G1".toList,
           sample_line "T9".toList "G2".toList],
    genes := gene_filter_G1, trans := trans_filter_T9 }

/-- The handle `both_filters_spec` after its first record was read. -/
def both_filters_spec_next : genepred_spec :=
  { both_filters_spec with fp := [sample_line "T9".toList "G2".toList] }

/-- A handle with the transcript filter `NM_000546` at the start of a source
whose only record is the transcript `NM_000546.5`. -/
def versioned_spec : genepred_spec :=
  { data := [sample_line "NM_000546.5".toList "TP53".toList],
    fp := [sample_line "NM_000546.5".toList "TP53".toList],
    trans := trans_filter_unversioned }

/-- A handle on a source with the single record of transcript `NM_001.2`. -/
def prefix_spec : genepred_spec :=
  { data := [sample_line "NM_001.2".toList "TP53".toList],
    fp := [sample_line "NM_001.2".toList "TP53".toList] }

/-- Spec side: the part of a name before its first `.`. -/
def spec_unversioned (name : List Char) : List Char :=
  name.takeWhile (fun c => c ≠ '.')

/-- A handle, with both filters loaded, on a source with a comment line and
three records: T1 of gene G1, T9 of gene G2 and T2 of gene g1. -/
def three_record_spec : genepred_spec :=
  { data := ["#c".toList, sample_line "T1".toList "G1".toList,
             sample_line "T9".toList "G2".toList, sample_line "T2".toList "g1".toList],
    fp := [],
    genes := gene_filter_G1, trans := trans_filter_T9 }

/-- One table row that `generate_dbref_database` prints, column by column:
chrom, genomic start and end, strand, gene, transcript, exon number, the two
transcript positions and the two rendered offsets. -/
structure dbref_row where
  chrom : Option (List Char)
  start : Int
  stop : Int
  strand : Char
  gene : Option (List Char)
  transcript : Option (List Char)
  exon_id : Int
  loc_start : Int
  loc_end : Int
  start_c : List Char
  end_c : List Char
  deriving DecidableEq, Repr

/-- The exon number `line->strand == '+' ? i + 1 : line->exon_count - i` of
`generate_dbref_database`. -/
def exon_id (line : genepred_line) (i : Int) : Int :=
  if line.strand = '+' then i + 1 else line.exon_count - i

/-- One iteration of the loop of `generate_dbref_database`: the row of exon
`i`. -/
def dbref_row_of (rc : reg_consts) (line : genepred_line) (i : Int) :
    Except Error dbref_row := do
  let off_start ← rd line.dna_ref_offsets_START i
  let off_end ← rd line.dna_ref_offsets_END i
  let start_c ← match render_offset rc off_start with
    | none => Except.error Error.unknown_type
    | some s => Except.ok s
  let end_c ← match render_offset rc off_end with
    | none => Except.error Error.unknown_type
    | some s => Except.ok s
  let exon_start ← rd line.exons_START i
  let exon_end ← rd line.exons_END i
  let loc_start ← rd line.loc_START i
  let loc_end ← rd line.loc_END i
  .ok { chrom := line.chrom, start := exon_start - 1, stop := exon_end,
        strand := line.strand, gene := line.name2, transcript := line.name1,
        exon_id := exon_id line i, loc_start := loc_start, loc_end := loc_end,
        start_c := start_c, end_c := end_c }

/-- The loop `for (i = 0; i < line->exon_count; ++i)` of
`generate_dbref_database`; the first argument is the number of iterations left.
The result is the rows printed so far and the fatal error that ended the loop,
if any. -/
def dbref_rows (rc : reg_consts) (line : genepred_line) :
    Nat → Int → List dbref_row → List dbref_row × Option Error
  | 0, _, out => (out, none)
  | k + 1, i, out =>
    match dbref_row_of rc line i with
    | .error e => (out, some e)
    | .ok row => dbref_rows rc line k (i + 1) (out ++ [row])

/-- The function `generate_dbref_database`: the rows it prints and the fatal
error that stopped it, if any. -/
def generate_dbref_database (rc : reg_consts) (line : genepred_line) :
    List dbref_row × Option Error :=
  dbref_rows rc line line.exon_count.toNat 0 []

/-- The state of the locals and of the zeroed rows of `dna_ref_offsets` before
the forward sweep of `parse_line_locs`, as in `fill_offsets`. -/
def sweep_init (line : genepred_line) : sweep_state :=
  { l1 := 0, l2 := line.exon_count - 1, forward_offset := 0, backward_offset := 0,
    dna_ref_offsets_START := List.replicate line.exon_count.toNat 0,
    dna_ref_offsets_END := List.replicate line.exon_count.toNat 0 }

/-- A packed offset whose tag is one of the four region codes. -/
def tagged (rc : reg_consts) (v : Int) : Prop :=
  ∃ m t, v = compact_loc rc m t ∧
    (t = rc.REG_UTR5 ∨ t = rc.REG_UTR3 ∨ t = rc.REG_CODING ∨ t = rc.REG_NONCODING)

/-- A line of a source in the genepred layout whose cdsStart and cdsEnd columns
are both 30, the file convention for a non-coding transcript, with exons 1..10
and 21..30. -/
def noncoding_tokens : List (List Char) :=
  ["NR_1".toList, "chr1".toList, "+".toList, "0".toList, "30".toList, "30".toList,
   "30".toList, "2".toList, "0,20,".toList, "10,30,".toList, "G1".toList]

/-- A line of a source in the genepred layout whose coding region is the single
base 10 (cdsStart 9, cdsEnd 10), with exons 1..10 and 21..30. -/
def one_base_cds_tokens : List (List Char) :=
  ["NM_1".toList, "chr1".toList, "+".toList, "0".toList, "30".toList, "9".toList,
   "10".toList, "2".toList, "0,20,".toList, "10,30,".toList, "G1".toList]

/-- A plus-strand record without coding region (cdsstart = cdsend) with two
exons, 1..10 and 21..30. -/
def plus_noncoding_two_exons : genepred_line :=
  { chrom := some "chr1".toList, name1 := some "T1".toList, name2 := some "G1".toList,
    strand := '+', txstart := 1, txend := 30, cdsstart := 30, cdsend := 30,
    exon_count := 2, exons_START := [1, 21], exons_END := [10, 30] }

/-- Every exon of the record holds at least one base. -/
def exons_nonempty (line : genepred_line) : Prop :=
  ∀ j, j < line.exon_count.toNat → line.exons_START.getD j 0 ≤ line.exons_END.getD j 0

instance (line : genepred_line) : Decidable (exons_nonempty line) := by
  unfold exons_nonempty; infer_instance

/-- The exons of the record are in ascending order and do not overlap: each
one ends before the next one starts. -/
def exons_sorted (line : genepred_line) : Prop :=
  ∀ j, j < line.exon_count.toNat - 1 →
    line.exons_END.getD j 0 < line.exons_START.getD (j + 1) 0

instance (line : genepred_line) : Decidable (exons_sorted line) := by
  unfold exons_sorted; infer_instance

/-- The record invariants: the rows of `exons` hold `exon_count ≥ 1` entries,
every exon is non-empty, the exons are sorted and disjoint, and
`cdsstart ≤ cdsend`. -/
def record_invariants (line : genepred_line) : Prop :=
  arrays_ok line ∧ 1 ≤ line.exon_count ∧ exons_nonempty line ∧ exons_sorted line ∧
  line.cdsstart ≤ line.cdsend

instance (line : genepred_line) : Decidable (record_invariants line) := by
  unfold record_invariants; infer_instance

/-- A minus-strand record with three exons, 1..10, 21..30 and 41..50, and the
coding region 25..45. -/
def minus_three_exon_record : genepred_line :=
  { chrom := some "chr1".toList, name1 := some "T3".toList, name2 := some "G3".toList,
    strand := '-', txstart := 1, txend := 50, cdsstart := 25, cdsend := 45,
    exon_count := 3, exons_START := [1, 21, 41], exons_END := [10, 30, 50] }

/-! ## Packing -/

theorem reg_type_compact_loc (rc : reg_consts) (loc t : Int) (h0 : 0 ≤ t)
    (h1 : t < 2 ^ rc.TYPEBITS) : reg_type rc (compact_loc rc loc t) = t := by
  unfold reg_type compact_loc
  rw [add_comm, Int.add_mul_emod_self]
  exact Int.emod_eq_of_lt h0 h1

theorem reg_loc_compact_loc (rc : reg_consts) (loc t : Int) (h0 : 0 ≤ t)
    (h1 : t < 2 ^ rc.TYPEBITS) : reg_loc rc (compact_loc rc loc t) = loc := by
  unfold reg_loc compact_loc
  have hpos : (0 : Int) < 2 ^ rc.TYPEBITS := by positivity
  rw [add_comm, Int.add_mul_ediv_right _ _ (ne_of_gt hpos), Int.ediv_eq_zero_of_lt h0 h1]
  simp

/-! ## Array access -/

theorem rd_ok (l : List Int) (a : Nat) (h : a < l.length) :
    rd l (a : Int) = .ok (l.getD a 0) := by
  unfold rd
  have h2 : (0 : Int) ≤ (a : Int) ∧ (a : Int) < (l.length : Int) :=
    ⟨Int.natCast_nonneg a, by exact_mod_cast h⟩
  rw [if_pos h2]
  simp

theorem wr_ok (l : List Int) (a : Nat) (v : Int) (h : a < l.length) :
    wr l (a : Int) v = .ok (l.set a v) := by
  unfold wr
  have h2 : (0 : Int) ≤ (a : Int) ∧ (a : Int) < (l.length : Int) :=
    ⟨Int.natCast_nonneg a, by exact_mod_cast h⟩
  rw [if_pos h2]
  simp

theorem getD_set_self (l : List Int) (a : Nat) (v : Int) (h : a < l.length) :
    (l.set a v).getD a 0 = v := by
  simp [List.getD_eq_getElem?_getD, List.getElem?_set, h]

theorem getD_set_ne (l : List Int) (a j : Nat) (v : Int) (h : j ≠ a) :
    (l.set a v).getD j 0 = l.getD j 0 := by
  simp [List.getD_eq_getElem?_getD, List.getElem?_set, Ne.symm h]

/-! ## The first loop -/

theorem first_loop_body_ok (line : genepred_line) (c : Bool) (a : Nat) (st : first_state)
    (hS : a < line.exons_START.length) (hE : a < line.exons_END.length)
    (hLS : a < st.loc_START.length) (hLE : a < st.loc_END.length) :
    ∃ st1, first_loop_body line c (a : Int) st = .ok st1 ∧
      st1.loc = st.loc + exon_length line a ∧
      st1.reference_length = st.reference_length + exon_length line a ∧
      st1.loc_START = st.loc_START.set a (st.loc + 1) ∧
      st1.loc_END = st.loc_END.set a (st.loc + exon_length line a) ∧
      (c = false → st1.forward_length = st.forward_length ∧
        st1.backward_length = st.backward_length) ∧
      (0 ≤ exon_length line a →
        (st.forward_length ≤ st1.forward_length ∧
         st1.forward_length ≤ st.forward_length + exon_length line a) ∧
        (st.backward_length ≤ st1.backward_length ∧
         st1.backward_length ≤ st.backward_length + exon_length line a)) := by
  unfold first_loop_body
  rw [rd_ok _ _ hS, rd_ok _ _ hE]
  simp only [bind, Except.bind]
  rw [wr_ok _ _ _ hLS, wr_ok _ _ _ hLE]
  simp only []
  cases c with
  | false =>
    refine ⟨_, rfl, ?_, ?_, rfl, ?_, ?_, ?_⟩
    · simp [exon_length]; ring_nf
    · simp [exon_length]
    · simp [exon_length]; ring_nf
    · simp
    · intro h; simp; exact h
  | true =>
    simp only [Bool.true_eq_false, if_false]
    refine ⟨_, rfl, ?_, ?_, rfl, ?_, ?_, ?_⟩
    · simp [exon_length]; ring_nf
    · simp [exon_length]
    · simp [exon_length]; ring_nf
    · simp
    · intro h
      simp only [exon_length] at h ⊢
      constructor
      · constructor <;> split_ifs <;> omega
      · constructor <;> split_ifs <;> omega

theorem len_sum_succ_right (line : genepred_line) (k a : Nat) :
    len_sum line a (k + 1) = len_sum line a k + exon_length line (a + k) := by
  induction k generalizing a with
  | zero => simp [len_sum]
  | succ k ih =>
    rw [len_sum, ih (a + 1), len_sum]
    have : a + 1 + k = a + (k + 1) := by omega
    rw [this]; ring

theorem len_sum_nonneg (line : genepred_line) (k a : Nat)
    (h : ∀ j, a ≤ j → j < a + k → 0 ≤ exon_length line j) : 0 ≤ len_sum line a k := by
  induction k generalizing a with
  | zero => simp [len_sum]
  | succ k ih =>
    rw [len_sum]
    have h1 := h a (le_refl a) (by omega)
    have h2 := ih (a + 1) (fun j hj1 hj2 => h j (by omega) (by omega))
    omega

/-- What the first loop of `parse_line_locs` computes when run for `k` exons
from exon `a` on. -/
theorem first_loop_spec (line : genepred_line) (c : Bool) (k : Nat) :
    ∀ (a : Nat) (st : first_state),
    a + k ≤ line.exons_START.length → a + k ≤ line.exons_END.length →
    a + k ≤ st.loc_START.length → a + k ≤ st.loc_END.length →
    ∃ st1, first_loop line c k (a : Int) st = .ok st1 ∧
      st1.loc = st.loc + len_sum line a k ∧
      st1.reference_length = st.reference_length + len_sum line a k ∧
      st1.loc_START.length = st.loc_START.length ∧
      st1.loc_END.length = st.loc_END.length ∧
      (∀ j, j < a → st1.loc_START.getD j 0 = st.loc_START.getD j 0 ∧
        st1.loc_END.getD j 0 = st.loc_END.getD j 0) ∧
      (∀ j, a ≤ j → j < a + k →
        st1.loc_START.getD j 0 = st.loc + len_sum line a (j - a) + 1 ∧
        st1.loc_END.getD j 0 = st.loc + len_sum line a (j - a + 1)) ∧
      (c = false → st1.forward_length = st.forward_length ∧
        st1.backward_length = st.backward_length) ∧
      ((∀ j, a ≤ j → j < a + k → 0 ≤ exon_length line j) →
        (st.forward_length ≤ st1.forward_length ∧
         st1.forward_length ≤ st.forward_length + len_sum line a k) ∧
        (st.backward_length ≤ st1.backward_length ∧
         st1.backward_length ≤ st.backward_length + len_sum line a k)) := by
  induction k with
  | zero =>
    intro a st _ _ _ _
    refine ⟨st, rfl, by simp [len_sum], by simp [len_sum], rfl, rfl, ?_, ?_, ?_, ?_⟩
    · intro j _; exact ⟨rfl, rfl⟩
    · intro j h1 h2; omega
    · intro _; exact ⟨rfl, rfl⟩
    · intro _; simp [len_sum]
  | succ k ih =>
    intro a st hS hE hLS hLE
    obtain ⟨st1, hb, hloc, href, hls, hle, hc, hlen⟩ :=
      first_loop_body_ok line c a st (by omega) (by omega) (by omega) (by omega)
    have hls_len : st1.loc_START.length = st.loc_START.length := by rw [hls]; simp
    have hle_len : st1.loc_END.length = st.loc_END.length := by rw [hle]; simp
    obtain ⟨st2, hr, hloc2, href2, hls2, hle2, hun2, hwr2, hc2, hlen2⟩ :=
      ih (a + 1) st1 (by omega) (by omega) (by omega) (by omega)
    refine ⟨st2, ?_, ?_, ?_, ?_, ?_, ?_, ?_, ?_, ?_⟩
    · rw [first_loop]
      simp only [bind, Except.bind, hb]
      have : ((a : Int) + 1) = ((a + 1 : Nat) : Int) := by push_cast; rfl
      rw [this]; exact hr
    · rw [hloc2, hloc, len_sum]; ring
    · rw [href2, href, len_sum]; ring
    · rw [hls2, hls_len]
    · rw [hle2, hle_len]
    · intro j hj
      obtain ⟨h1, h2⟩ := hun2 j (by omega)
      rw [h1, h2, hls, hle]
      exact ⟨getD_set_ne _ _ _ _ (by omega), getD_set_ne _ _ _ _ (by omega)⟩
    · intro j hj1 hj2
      by_cases hja : j = a
      · subst hja
        obtain ⟨h1, h2⟩ := hun2 j (by omega)
        rw [h1, h2, hls, hle, getD_set_self _ _ _ (by omega), getD_set_self _ _ _ (by omega)]
        simp [len_sum]
      · obtain ⟨h1, h2⟩ := hwr2 j (by omega) (by omega)
        rw [h1, h2, hloc]
        have e1 : j - a = (j - (a + 1)) + 1 := by omega
        have e2 : j - a + 1 = (j - (a + 1) + 1) + 1 := by omega
        constructor
        · conv_rhs => rw [e1, len_sum]
          ring
        · conv_rhs => rw [e2, len_sum]
          ring
    · intro hcf
      obtain ⟨h1, h2⟩ := hc hcf
      obtain ⟨h3, h4⟩ := hc2 hcf
      exact ⟨by rw [h3, h1], by rw [h4, h2]⟩
    · intro hnn
      obtain ⟨⟨f1, f2⟩, ⟨b1, b2⟩⟩ := hlen (hnn a (le_refl a) (by omega))
      obtain ⟨⟨f3, f4⟩, ⟨b3, b4⟩⟩ := hlen2 (fun j hj1 hj2 => hnn j (by omega) (by omega))
      rw [len_sum]
      refine ⟨⟨by omega, by omega⟩, ⟨by omega, by omega⟩⟩

/-! ## The sweeps stay inside the arrays -/

theorem forward_sweep_zero (rc : reg_consts) (line : genepred_line) (is_strand : Bool)
    (rl bl : Int) (fuel : Nat) (fl : Int) (st : sweep_state) (h : fl ≤ 0) :
    forward_sweep rc line is_strand rl bl fuel fl st = .ok st := by
  have h2 : ¬ (fl > 0) := by omega
  cases fuel <;> simp [forward_sweep, h2]

theorem backward_sweep_zero (rc : reg_consts) (line : genepred_line) (is_strand : Bool)
    (rl : Int) (fuel : Nat) (bl : Int) (st : sweep_state) (h : bl ≤ 0) :
    backward_sweep rc line is_strand rl fuel bl st = .ok st := by
  have h2 : ¬ (bl > 0) := by omega
  cases fuel <;> simp [backward_sweep, h2]

theorem forward_sweep_ok (rc : reg_consts) (line : genepred_line) (is_strand : Bool)
    (rl bl : Int) (n : Nat) (hS : line.exons_START.length = n)
    (hE : line.exons_END.length = n) (fuel : Nat) :
    ∀ (a : Nat) (fl : Int) (st : sweep_state),
    st.l1 = (a : Int) → a ≤ n → n - a < fuel →
    st.dna_ref_offsets_START.length = n → st.dna_ref_offsets_END.length = n →
    fl ≤ len_sum line a (n - a) →
    (∀ j, a ≤ j → j < n → 0 ≤ exon_length line j) →
    ∃ st1, forward_sweep rc line is_strand rl bl fuel fl st = .ok st1 ∧
      (∃ b : Nat, st1.l1 = (b : Int) ∧ a ≤ b ∧ b ≤ n) ∧
      st1.l2 = st.l2 ∧ st1.backward_offset = st.backward_offset ∧
      st1.dna_ref_offsets_START.length = n ∧ st1.dna_ref_offsets_END.length = n := by
  induction fuel with
  | zero => intro a fl st _ _ h; omega
  | succ fuel ih =>
    intro a fl st hl1 han hfuel hoS hoE hfl hnn
    by_cases hpos : fl > 0
    · have han1 : a < n := by
        by_contra hcon
        have h0 : n - a = 0 := by omega
        rw [h0, len_sum] at hfl
        omega
      have hstep : n - a = (n - (a + 1)) + 1 := by omega
      rw [hstep, len_sum] at hfl
      have hrE := rd_ok line.exons_END a (by omega)
      have hrS := rd_ok line.exons_START a (by omega)
      have hwS := fun v => wr_ok st.dna_ref_offsets_START a v (by omega)
      have hwE := fun v => wr_ok st.dna_ref_offsets_END a v (by omega)
      rw [forward_sweep, if_pos hpos, hl1]
      simp only [hrE, hrS, hwS, hwE, bind, Except.bind]
      by_cases hge : fl ≥ line.exons_END.getD a 0 - line.exons_START.getD a 0 + 1
      · rw [if_pos hge]
        obtain ⟨st1, hr, ⟨b, hb1, hb2, hb3⟩, h2, h3, h4, h5⟩ :=
          ih (a + 1) (fl - (line.exons_END.getD a 0 - line.exons_START.getD a 0 + 1))
            { st with l1 := (a : Int) + 1,
                      dna_ref_offsets_START := st.dna_ref_offsets_START.set a
                        (compact_loc rc fl (if is_strand then rc.REG_UTR5 else rc.REG_UTR3)),
                      dna_ref_offsets_END := st.dna_ref_offsets_END.set a
                        (compact_loc rc (fl - (line.exons_END.getD a 0 -
                          line.exons_START.getD a 0 + 1) + 1)
                          (if is_strand then rc.REG_UTR5 else rc.REG_UTR3)) }
            (by push_cast; rfl) (by omega) (by omega) (by simp [hoS]) (by simp [hoE])
            (by unfold exon_length at hfl; omega)
            (fun j hj1 hj2 => hnn j (by omega) hj2)
        exact ⟨st1, hr, ⟨b, hb1, by omega, hb3⟩, h2, h3, h4, h5⟩
      · rw [if_neg hge]
        have hb : ∃ b : Nat, (a : Int) + 1 = (b : Int) ∧ a ≤ b ∧ b ≤ n :=
          ⟨a + 1, by push_cast; rfl, by omega, by omega⟩
        split_ifs <;>
          exact ⟨_, rfl, hb, rfl, rfl, by simp [hoS], by simp [hoE]⟩
    · rw [forward_sweep_zero _ _ _ _ _ _ _ _ (by omega)]
      exact ⟨st, rfl, ⟨a, hl1, le_refl a, han⟩, rfl, rfl, hoS, hoE⟩

theorem backward_sweep_ok (rc : reg_consts) (line : genepred_line) (is_strand : Bool)
    (rl : Int) (n : Nat) (hS : line.exons_START.length = n)
    (hE : line.exons_END.length = n) (fuel : Nat) :
    ∀ (m : Nat) (bl : Int) (st : sweep_state),
    st.l2 = (m : Int) - 1 → m ≤ n → m < fuel →
    st.dna_ref_offsets_START.length = n → st.dna_ref_offsets_END.length = n →
    bl ≤ len_sum line 0 m →
    (∀ j, j < m → 0 ≤ exon_length line j) →
    ∃ st1, backward_sweep rc line is_strand rl fuel bl st = .ok st1 ∧
      (∃ b : Nat, st1.l2 = (b : Int) - 1 ∧ b ≤ m) ∧
      st1.l1 = st.l1 ∧ st1.forward_offset = st.forward_offset ∧
      st1.dna_ref_offsets_START.length = n ∧ st1.dna_ref_offsets_END.length = n := by
  induction fuel with
  | zero => intro m bl st _ _ h; omega
  | succ fuel ih =>
    intro m bl st hl2 hmn hfuel hoS hoE hbl hnn
    by_cases hpos : bl > 0
    · have hm1 : 0 < m := by
        by_contra hcon
        have h0 : m = 0 := by omega
        rw [h0, len_sum] at hbl
        omega
      obtain ⟨p, hp⟩ : ∃ p, m = p + 1 := ⟨m - 1, by omega⟩
      subst hp
      rw [len_sum_succ_right] at hbl
      simp only [Nat.zero_add] at hbl
      have hidx : ((p + 1 : Nat) : Int) - 1 = (p : Int) := by push_cast; ring
      rw [hidx] at hl2
      have hrE := rd_ok line.exons_END p (by omega)
      have hrS := rd_ok line.exons_START p (by omega)
      have hwS := fun v => wr_ok st.dna_ref_offsets_START p v (by omega)
      have hwE := fun v => wr_ok st.dna_ref_offsets_END p v (by omega)
      rw [backward_sweep, if_pos hpos, hl2]
      simp only [hrE, hrS, hwS, hwE, bind, Except.bind]
      by_cases hge : bl ≥ line.exons_END.getD p 0 - line.exons_START.getD p 0 + 1
      · rw [if_pos hge]
        obtain ⟨st1, hr, ⟨b, hb1, hb2⟩, h2, h3, h4, h5⟩ :=
          ih p (bl - (line.exons_END.getD p 0 - line.exons_START.getD p 0 + 1))
            { st with l2 := (p : Int) - 1,
                      dna_ref_offsets_START := st.dna_ref_offsets_START.set p
                        (compact_loc rc (bl - (line.exons_END.getD p 0 -
                          line.exons_START.getD p 0 + 1) + 1)
                          (if is_strand then rc.REG_UTR3 else rc.REG_UTR5)),
                      dna_ref_offsets_END := st.dna_ref_offsets_END.set p
                        (compact_loc rc bl (if is_strand then rc.REG_UTR3 else rc.REG_UTR5)) }
            rfl (by omega) (by omega) (by simp [hoS]) (by simp [hoE])
            (by unfold exon_length at hbl; omega)
            (fun j hj => hnn j (by omega))
        exact ⟨st1, hr, ⟨b, hb1, by omega⟩, h2, h3, h4, h5⟩
      · rw [if_neg hge]
        have hb : ∃ b : Nat, (p : Int) - 1 = (b : Int) - 1 ∧ b ≤ p + 1 :=
          ⟨p, rfl, by omega⟩
        split_ifs <;>
          exact ⟨_, rfl, hb, rfl, rfl, by simp [hoS], by simp [hoE]⟩
    · rw [backward_sweep_zero _ _ _ _ _ _ _ (by omega)]
      exact ⟨st, rfl, ⟨m, hl2, le_refl m⟩, rfl, rfl, hoS, hoE⟩

/-! ## The middle sweep -/

/-- What the middle sweep of the plus strand writes when run for `k` exons from
exon `a` on. -/
theorem middle_sweep_plus_spec (rc : reg_consts) (line : genepred_line) (c : Bool)
    (k : Nat) :
    ∀ (a : Nat) (rl : Int) (st : sweep_state),
    st.l1 = (a : Int) →
    a + k ≤ line.exons_START.length → a + k ≤ line.exons_END.length →
    a + k ≤ st.dna_ref_offsets_START.length → a + k ≤ st.dna_ref_offsets_END.length →
    ∃ st1, middle_sweep_plus rc line c k rl st = .ok st1 ∧
      st1.dna_ref_offsets_START.length = st.dna_ref_offsets_START.length ∧
      st1.dna_ref_offsets_END.length = st.dna_ref_offsets_END.length ∧
      (∀ j, (j < a ∨ a + k ≤ j) →
        st1.dna_ref_offsets_START.getD j 0 = st.dna_ref_offsets_START.getD j 0 ∧
        st1.dna_ref_offsets_END.getD j 0 = st.dna_ref_offsets_END.getD j 0) ∧
      (∀ j, a ≤ j → j < a + k →
        st1.dna_ref_offsets_END.getD j 0 =
          compact_loc rc (rl - len_sum line a (j - a))
            (if c then rc.REG_CODING else rc.REG_NONCODING) ∧
        st1.dna_ref_offsets_START.getD j 0 =
          compact_loc rc (rl - len_sum line a (j - a + 1) + 1)
            (if c then rc.REG_CODING else rc.REG_NONCODING)) := by
  induction k with
  | zero =>
    intro a rl st _ _ _ _ _
    exact ⟨st, rfl, rfl, rfl, fun j _ => ⟨rfl, rfl⟩, fun j h1 h2 => by omega⟩
  | succ k ih =>
    intro a rl st hl1 hS hE hoS hoE
    have hrE := rd_ok line.exons_END a (by omega)
    have hrS := rd_ok line.exons_START a (by omega)
    have hwS := fun v => wr_ok st.dna_ref_offsets_START a v (by omega)
    have hwE := fun v => wr_ok st.dna_ref_offsets_END a v (by omega)
    rw [middle_sweep_plus, hl1]
    simp only [hrE, hrS, hwS, hwE, bind, Except.bind]
    obtain ⟨st1, hr, h1, h2, hun, hw⟩ :=
      ih (a + 1) (rl - (line.exons_END.getD a 0 - line.exons_START.getD a 0 + 1))
        { st with l1 := (a : Int) + 1,
                  dna_ref_offsets_START := st.dna_ref_offsets_START.set a
                    (compact_loc rc (rl - (line.exons_END.getD a 0 -
                      line.exons_START.getD a 0 + 1) + 1)
                      (if c then rc.REG_CODING else rc.REG_NONCODING)),
                  dna_ref_offsets_END := st.dna_ref_offsets_END.set a
                    (compact_loc rc rl (if c then rc.REG_CODING else rc.REG_NONCODING)) }
        (by push_cast; rfl) (by omega) (by omega) (by simp; omega) (by simp; omega)
    refine ⟨st1, hr, by simpa using h1, by simpa using h2, ?_, ?_⟩
    · intro j hj
      obtain ⟨e1, e2⟩ := hun j (by omega)
      rw [e1, e2]
      exact ⟨getD_set_ne _ _ _ _ (by omega), getD_set_ne _ _ _ _ (by omega)⟩
    · intro j hj1 hj2
      by_cases hja : j = a
      · subst hja
        obtain ⟨e1, e2⟩ := hun j (by omega)
        rw [e1, e2]
        simp only [getD_set_self _ _ _ (show j < st.dna_ref_offsets_START.length by omega),
          getD_set_self _ _ _ (show j < st.dna_ref_offsets_END.length by omega)]
        simp [len_sum, exon_length]
      · obtain ⟨e1, e2⟩ := hw j (by omega) (by omega)
        rw [e1, e2]
        have q1 : j - a = (j - (a + 1)) + 1 := by omega
        have q2 : j - a + 1 = (j - (a + 1) + 1) + 1 := by omega
        constructor
        · congr 1
          conv_rhs => rw [q1, len_sum]
          unfold exon_length; ring
        · congr 1
          conv_rhs => rw [q2, len_sum]
          unfold exon_length; ring

/-- What the middle sweep of the minus strand writes when run for `k` exons
from exon `m - 1` downwards. -/
theorem middle_sweep_minus_spec (rc : reg_consts) (line : genepred_line) (c : Bool)
    (k : Nat) :
    ∀ (m : Nat) (rl : Int) (st : sweep_state),
    st.l2 = (m : Int) - 1 → k ≤ m →
    m ≤ line.exons_START.length → m ≤ line.exons_END.length →
    m ≤ st.dna_ref_offsets_START.length → m ≤ st.dna_ref_offsets_END.length →
    ∃ st1, middle_sweep_minus rc line c k rl st = .ok st1 ∧
      st1.dna_ref_offsets_START.length = st.dna_ref_offsets_START.length ∧
      st1.dna_ref_offsets_END.length = st.dna_ref_offsets_END.length ∧
      (∀ j, (j < m - k ∨ m ≤ j) →
        st1.dna_ref_offsets_START.getD j 0 = st.dna_ref_offsets_START.getD j 0 ∧
        st1.dna_ref_offsets_END.getD j 0 = st.dna_ref_offsets_END.getD j 0) ∧
      (∀ j, m - k ≤ j → j < m →
        st1.dna_ref_offsets_START.getD j 0 =
          compact_loc rc (rl - len_sum line (j + 1) (m - (j + 1)))
            (if c then rc.REG_CODING else rc.REG_NONCODING) ∧
        st1.dna_ref_offsets_END.getD j 0 =
          compact_loc rc (rl - len_sum line j (m - j) + 1)
            (if c then rc.REG_CODING else rc.REG_NONCODING)) := by
  induction k with
  | zero =>
    intro m rl st _ _ _ _ _ _
    exact ⟨st, rfl, rfl, rfl, fun j _ => ⟨rfl, rfl⟩, fun j h1 h2 => by omega⟩
  | succ k ih =>
    intro m rl st hl2 hkm hS hE hoS hoE
    obtain ⟨p, hp⟩ : ∃ p, m = p + 1 := ⟨m - 1, by omega⟩
    subst hp
    have hidx : ((p + 1 : Nat) : Int) - 1 = (p : Int) := by push_cast; ring
    rw [hidx] at hl2
    have hrE := rd_ok line.exons_END p (by omega)
    have hrS := rd_ok line.exons_START p (by omega)
    have hwS := fun v => wr_ok st.dna_ref_offsets_START p v (by omega)
    have hwE := fun v => wr_ok st.dna_ref_offsets_END p v (by omega)
    rw [middle_sweep_minus, hl2]
    simp only [hrE, hrS, hwS, hwE, bind, Except.bind]
    obtain ⟨st1, hr, h1, h2, hun, hw⟩ :=
      ih p (rl - (line.exons_END.getD p 0 - line.exons_START.getD p 0 + 1))
        { st with l2 := (p : Int) - 1,
                  dna_ref_offsets_START := st.dna_ref_offsets_START.set p
                    (compact_loc rc rl (if c then rc.REG_CODING else rc.REG_NONCODING)),
                  dna_ref_offsets_END := st.dna_ref_offsets_END.set p
                    (compact_loc rc (rl - (line.exons_END.getD p 0 -
                      line.exons_START.getD p 0 + 1) + 1)
                      (if c then rc.REG_CODING else rc.REG_NONCODING)) }
        rfl (by omega) (by omega) (by omega) (by simp; omega) (by simp; omega)
    refine ⟨st1, hr, by simpa using h1, by simpa using h2, ?_, ?_⟩
    · intro j hj
      obtain ⟨e1, e2⟩ := hun j (by omega)
      rw [e1, e2]
      exact ⟨getD_set_ne _ _ _ _ (by omega), getD_set_ne _ _ _ _ (by omega)⟩
    · intro j hj1 hj2
      by_cases hjp : j = p
      · subst hjp
        obtain ⟨e1, e2⟩ := hun j (by omega)
        rw [e1, e2]
        simp only [getD_set_self _ _ _ (show j < st.dna_ref_offsets_START.length by omega),
          getD_set_self _ _ _ (show j < st.dna_ref_offsets_END.length by omega)]
        simp [len_sum, exon_length]
      · obtain ⟨e1, e2⟩ := hw j (by omega) (by omega)
        rw [e1, e2]
        have q1 : p + 1 - (j + 1) = (p - (j + 1)) + 1 := by omega
        have q2 : p + 1 - j = (p - j) + 1 := by omega
        have q3 : j + 1 + (p - (j + 1)) = p := by omega
        have q4 : j + (p - j) = p := by omega
        constructor
        · congr 1
          rw [q1, len_sum_succ_right, q3]
          unfold exon_length; ring
        · congr 1
          rw [q2, len_sum_succ_right, q4]
          unfold exon_length; ring

/-! ## Evaluation on concrete records -/

/-- C1: parsing the line of end-to-end scenario 6 under the genepred layout and
then calling `parse_line_locs` gives forward_length 10, backward_length 10,
reference_length 100, transcript position (1, 100) for the single exon, a start
offset tagged 5'UTR with magnitude 10, printed `-10`, and an end offset tagged
3'UTR with magnitude 10, printed `*10`. -/
theorem scenario6_located (rc : reg_consts) (hwf : rc.wf) (name1 : List Char)
    (rest : List (List Char)) (l0 : genepred_line) :
    ∃ l l1 vs ve,
      parse_line_core genepred_formats str2int_dec (scenario6_tokens name1 rest) l0
        = .ok (0, l) ∧
      parse_line_locs rc l = .ok l1 ∧
      l1.forward_length = 10 ∧ l1.backward_length = 10 ∧ l1.reference_length = 100 ∧
      l1.loc_START = [1] ∧ l1.loc_END = [100] ∧
      l1.dna_ref_offsets_START = [vs] ∧ l1.dna_ref_offsets_END = [ve] ∧
      reg_type rc vs = rc.REG_UTR5 ∧ reg_loc rc vs = 10 ∧
      render_offset rc vs = some "-10".toList ∧
      reg_type rc ve = rc.REG_UTR3 ∧ reg_loc rc ve = 10 ∧
      render_offset rc ve = some "*10".toList := by
  obtain ⟨h5, h3, _, _, h53, _⟩ := hwf
  have t5 := reg_type_compact_loc rc 10 rc.REG_UTR5 h5.1 h5.2
  have t3 := reg_type_compact_loc rc 10 rc.REG_UTR3 h3.1 h3.2
  have m5 := reg_loc_compact_loc rc 10 rc.REG_UTR5 h5.1 h5.2
  have m3 := reg_loc_compact_loc rc 10 rc.REG_UTR3 h3.1 h3.2
  have r5 : render_offset rc (compact_loc rc 10 rc.REG_UTR5) = some "-10".toList := by
    simp only [render_offset, region_prefix, t5, m5, if_true]; rfl
  have r3 : render_offset rc (compact_loc rc 10 rc.REG_UTR3) = some "*10".toList := by
    simp only [render_offset, region_prefix, t3, m3, if_true, if_neg (Ne.symm h53)]; rfl
  cases rest with
  | nil =>
    exact ⟨_, _, compact_loc rc 10 rc.REG_UTR5, compact_loc rc 10 rc.REG_UTR3,
      rfl, rfl, rfl, rfl, rfl, rfl, rfl, rfl, rfl, t5, m5, r5, t3, m3, r3⟩
  | cons name2 more =>
    exact ⟨_, _, compact_loc rc 10 rc.REG_UTR5, compact_loc rc 10 rc.REG_UTR3,
      rfl, rfl, rfl, rfl, rfl, rfl, rfl, rfl, rfl, t5, m5, r5, t3, m3, r3⟩

theorem scenario6_located_witness :
    ∃ l l1 vs ve,
      parse_line_core genepred_formats str2int_dec
        (scenario6_tokens "NM_1".toList ["GENE1".toList]) {} = .ok (0, l) ∧
      parse_line_locs rc_sample l = .ok l1 ∧
      l1.forward_length = 10 ∧ l1.backward_length = 10 ∧ l1.reference_length = 100 ∧
      l1.loc_START = [1] ∧ l1.loc_END = [100] ∧
      l1.dna_ref_offsets_START = [vs] ∧ l1.dna_ref_offsets_END = [ve] ∧
      reg_type rc_sample vs = rc_sample.REG_UTR5 ∧ reg_loc rc_sample vs = 10 ∧
      render_offset rc_sample vs = some "-10".toList ∧
      reg_type rc_sample ve = rc_sample.REG_UTR3 ∧ reg_loc rc_sample ve = 10 ∧
      render_offset rc_sample ve = some "*10".toList :=
  scenario6_located rc_sample (by decide) "NM_1".toList ["GENE1".toList] {}

/-- C2 (defect in the code): on the plus-strand record with exons 1..10 and
21..30 and coding region 10..25, `parse_line_locs` stores forward_length 10 and
leaves 5 for the coding length, although 9 exonic bases lie before cdsstart and
6 exonic bases lie inside the coding region. -/
theorem forward_length_counts_boundary_base (rc : reg_consts) :
    (parse_line_locs rc boundary_cds_record).map
        (fun l => (l.forward_length, l.backward_length,
          l.reference_length - l.forward_length - l.backward_length)) = .ok (10, 5, 5) ∧
    spec_count boundary_cds_record (fun g => decide (g < 10)) = 9 ∧
    spec_count boundary_cds_record (fun g => decide (25 < g)) = 5 ∧
    spec_count boundary_cds_record (fun g => decide (10 ≤ g ∧ g ≤ 25)) = 6 :=
  ⟨rfl, by decide, by decide, by decide⟩

/-- C3 (defect in the code): on the minus-strand record with the single exon
101..200 and coding region 111..190, `parse_line_locs` packs the start boundary
(genomic position 101, before cdsstart) with the tag REG_UTR5, where a boundary
before cdsstart on the minus strand lies in the 3'UTR. -/
theorem minus_start_boundary_tagged_utr5 (rc : reg_consts) :
    (parse_line_locs rc minus_single_exon_record).map
        (fun l => (l.dna_ref_offsets_START, l.dna_ref_offsets_END)) =
      .ok ([compact_loc rc 10 rc.REG_UTR5], [compact_loc rc 10 rc.REG_UTR5]) ∧
    minus_single_exon_record.strand = '-' ∧
    minus_single_exon_record.exons_START = [101] ∧
    (101 : Int) < minus_single_exon_record.cdsstart :=
  ⟨rfl, rfl, rfl, by decide⟩

/-- C4 (defect in the code): on the plus-strand record with exons 1..10 and
21..30 and coding region 5..25, the end boundary of the first exon (genomic
position 10, inside the coding region) is packed with magnitude 0, although it
is the 6th coding base. -/
theorem coding_end_boundary_magnitude_zero (rc : reg_consts) :
    (parse_line_locs rc two_exon_record).map (fun l => l.dna_ref_offsets_END) =
      .ok [compact_loc rc 0 rc.REG_CODING, compact_loc rc 5 rc.REG_UTR3] ∧
    two_exon_record.exons_END.getD 0 0 = 10 ∧
    spec_count two_exon_record (fun g => decide (5 ≤ g ∧ g ≤ 10)) = 6 :=
  ⟨rfl, rfl, by decide⟩

/-! ## Transcript positions -/

theorem getD_map_lt (l : List Int) (f : Int → Int) (j : Nat) (h : j < l.length) :
    (l.map f).getD j 0 = f (l.getD j 0) := by
  simp [List.getD_eq_getElem?_getD, List.getElem?_map, List.getElem?_eq_getElem h]

/-- A normal return of `parse_line_locs` comes from a normal return of the first
loop and of the sweeps, and the record is assembled from their results. -/
theorem parse_line_locs_inv (rc : reg_consts) (line l1 : genepred_line)
    (h : parse_line_locs rc line = .ok l1) :
    line.loc_parsed = false ∧
    ∃ fs s3,
      first_loop line (if line.cdsstart = line.cdsend then false else true)
        line.exon_count.toNat 0 (first_init line) = .ok fs ∧
      fill_offsets rc line (decide (line.strand = '+'))
        (if line.cdsstart = line.cdsend then false else true)
        fs.forward_length fs.backward_length
        (fs.reference_length - fs.forward_length - fs.backward_length) = .ok s3 ∧
      l1 = { line with
        loc_parsed := true
        reference_length := fs.reference_length
        forward_length :=
          if decide (line.strand = '+') then fs.forward_length else fs.backward_length
        backward_length :=
          if decide (line.strand = '+') then fs.backward_length else fs.forward_length
        loc_START :=
          if decide (line.strand = '+') then fs.loc_START
          else fs.loc_START.map (fun v => fs.reference_length - v + 1)
        loc_END :=
          if decide (line.strand = '+') then fs.loc_END
          else fs.loc_END.map (fun v => fs.reference_length - v + 1)
        dna_ref_offsets_START := s3.dna_ref_offsets_START
        dna_ref_offsets_END := s3.dna_ref_offsets_END } := by
  unfold parse_line_locs at h
  generalize (if line.cdsstart = line.cdsend then false else true) = c at h ⊢
  generalize decide (line.strand = '+') = s at h ⊢
  cases hp : line.loc_parsed with
  | true => simp [hp] at h
  | false =>
    refine ⟨rfl, ?_⟩
    simp only [hp] at h
    cases hf : first_loop line c line.exon_count.toNat 0 (first_init line) with
    | error e => simp [hf] at h
    | ok fs =>
      simp only [hf] at h
      cases hs : fill_offsets rc line s c fs.forward_length fs.backward_length
          (fs.reference_length - fs.forward_length - fs.backward_length) with
      | error e => simp [hs] at h
      | ok s3 =>
        simp only [hs] at h
        refine ⟨fs, s3, rfl, hs, ?_⟩
        simpa using h.symm

/-- The first loop of `parse_line_locs` on a record whose rows hold `exon_count`
entries. -/
theorem first_loop_init_spec (line : genepred_line) (c : Bool) (ha : arrays_ok line) :
    ∃ fs, first_loop line c line.exon_count.toNat 0 (first_init line) = .ok fs ∧
      fs.reference_length = line.reference_length + len_sum line 0 line.exon_count.toNat ∧
      fs.loc_START.length = line.exon_count.toNat ∧
      fs.loc_END.length = line.exon_count.toNat ∧
      (∀ j, j < line.exon_count.toNat →
        fs.loc_START.getD j 0 = len_sum line 0 j + 1 ∧
        fs.loc_END.getD j 0 = len_sum line 0 (j + 1)) ∧
      (c = false → fs.forward_length = 0 ∧ fs.backward_length = 0) ∧
      ((∀ j, j < line.exon_count.toNat → 0 ≤ exon_length line j) →
        (0 ≤ fs.forward_length ∧
          fs.forward_length ≤ len_sum line 0 line.exon_count.toNat) ∧
        (0 ≤ fs.backward_length ∧
          fs.backward_length ≤ len_sum line 0 line.exon_count.toNat)) := by
  obtain ⟨h1, h2⟩ := ha
  have hn1 : line.exons_START.length = line.exon_count.toNat := by omega
  have hn2 : line.exons_END.length = line.exon_count.toNat := by omega
  obtain ⟨fs, hr, _, href, hl1, hl2, _, hw, hc, hb⟩ :=
    first_loop_spec line c line.exon_count.toNat 0 (first_init line)
      (by omega) (by omega) (by simp [first_init]) (by simp [first_init])
  refine ⟨fs, by simpa using hr, ?_, ?_, ?_, ?_, ?_, ?_⟩
  · simpa [first_init] using href
  · simpa [first_init] using hl1
  · simpa [first_init] using hl2
  · intro j hj
    have := hw j (Nat.zero_le j) (by omega)
    simpa [first_init] using this
  · intro hcf
    simpa [first_init] using hc hcf
  · intro hnn
    have := hb (fun j _ hj => hnn j (by omega))
    simpa [first_init] using this

/-- The transcript positions and the reference length that `parse_line_locs`
stores, in terms of the exon lengths. -/
theorem parse_line_locs_loc (rc : reg_consts) (line l1 : genepred_line)
    (ha : arrays_ok line) (h : parse_line_locs rc line = .ok l1) :
    l1.reference_length = line.reference_length + len_sum line 0 line.exon_count.toNat ∧
    l1.exons_START = line.exons_START ∧ l1.exons_END = line.exons_END ∧
    l1.exon_count = line.exon_count ∧ l1.loc_parsed = true ∧
    ∀ j, j < line.exon_count.toNat →
      (line.strand = '+' →
        l1.loc_START.getD j 0 = len_sum line 0 j + 1 ∧
        l1.loc_END.getD j 0 = len_sum line 0 (j + 1)) ∧
      (line.strand ≠ '+' →
        l1.loc_START.getD j 0 = l1.reference_length - (len_sum line 0 j + 1) + 1 ∧
        l1.loc_END.getD j 0 = l1.reference_length - len_sum line 0 (j + 1) + 1) := by
  obtain ⟨_, fs, s3, hf, _, hl⟩ := parse_line_locs_inv rc line l1 h
  obtain ⟨fs1, hf1, href, hls, hle, hw, _, _⟩ :=
    first_loop_init_spec line (if line.cdsstart = line.cdsend then false else true) ha
  rw [hf] at hf1
  cases hf1
  subst hl
  refine ⟨href, rfl, rfl, rfl, rfl, ?_⟩
  intro j hj
  obtain ⟨w1, w2⟩ := hw j hj
  constructor
  · intro hs
    simp only [hs, decide_True, if_true]
    exact ⟨w1, w2⟩
  · intro hs
    simp only [hs, decide_False, Bool.false_eq_true, if_false]
    rw [getD_map_lt _ _ _ (by omega), getD_map_lt _ _ _ (by omega), w1, w2]
    exact ⟨rfl, rfl⟩

theorem len_sum_congr (l l2 : genepred_line) (hS : l.exons_START = l2.exons_START)
    (hE : l.exons_END = l2.exons_END) (k a : Nat) : len_sum l a k = len_sum l2 a k := by
  induction k generalizing a with
  | zero => rfl
  | succ k ih => rw [len_sum, len_sum, ih (a + 1)]; unfold exon_length; rw [hS, hE]

/-- C5 (as amended): for a record located by `parse_line_locs` and every exon
`i`, on the plus strand `loc[END][i] - loc[START][i] + 1` is the genomic length
of the exon, and on the minus strand, where every position is mirrored in
place, `loc[START][i] - loc[END][i] + 1` is. -/
theorem located_interval_length (rc : reg_consts) (line l1 : genepred_line)
    (ha : arrays_ok line) (h : parse_line_locs rc line = .ok l1)
    (i : Nat) (hi : (i : Int) < line.exon_count) :
    (line.strand = '+' →
      l1.loc_END.getD i 0 - l1.loc_START.getD i 0 + 1 =
        l1.exons_END.getD i 0 - l1.exons_START.getD i 0 + 1) ∧
    (line.strand ≠ '+' →
      l1.loc_START.getD i 0 - l1.loc_END.getD i 0 + 1 =
        l1.exons_END.getD i 0 - l1.exons_START.getD i 0 + 1) := by
  obtain ⟨_, hS, hE, _, _, hw⟩ := parse_line_locs_loc rc line l1 ha h
  obtain ⟨hp, hm⟩ := hw i (by omega)
  have hlen : len_sum line 0 (i + 1) = len_sum line 0 i + exon_length line i := by
    rw [len_sum_succ_right, Nat.zero_add]
  rw [hS, hE]
  unfold exon_length at hlen
  constructor
  · intro hs
    obtain ⟨e1, e2⟩ := hp hs
    rw [e1, e2, hlen]; ring
  · intro hs
    obtain ⟨e1, e2⟩ := hm hs
    rw [e1, e2, hlen]; ring

theorem located_interval_length_witness :
    ∃ l1, parse_line_locs rc_sample minus_single_exon_record = .ok l1 ∧
      ((minus_single_exon_record.strand = '+' →
        l1.loc_END.getD 0 0 - l1.loc_START.getD 0 0 + 1 =
          l1.exons_END.getD 0 0 - l1.exons_START.getD 0 0 + 1) ∧
       (minus_single_exon_record.strand ≠ '+' →
        l1.loc_START.getD 0 0 - l1.loc_END.getD 0 0 + 1 =
          l1.exons_END.getD 0 0 - l1.exons_START.getD 0 0 + 1)) :=
  ⟨_, rfl, located_interval_length rc_sample minus_single_exon_record _
    (by decide) rfl 0 (by decide)⟩

/-- C5 fails as stated on the minus strand: for the located minus-strand record
with the single exon 1..10, `loc[END][0] - loc[START][0] + 1` is -8 and the exon
has 10 bases. -/
theorem located_interval_length_counterexample :
    ∃ l1, parse_line_locs rc_sample minus_noncoding_record = .ok l1 ∧
      l1.loc_START = [10] ∧ l1.loc_END = [1] ∧
      l1.loc_END.getD 0 0 - l1.loc_START.getD 0 0 + 1 ≠
        l1.exons_END.getD 0 0 - l1.exons_START.getD 0 0 + 1 :=
  ⟨_, rfl, rfl, rfl, by decide⟩

/-- C6: for the same exon layout, the transcript positions that
`parse_line_locs` stores on the minus strand are `reference_length - p + 1` for
the positions `p` it stores on the plus strand; so on the minus strand of a
fresh record the end boundary of the last exon has position 1 and the start
boundary of the first exon has position `reference_length`. -/
theorem minus_positions_mirror_plus (rc : reg_consts) (line lp lm : genepred_line)
    (s : Char) (hs : s ≠ '+') (ha : arrays_ok line)
    (hp : parse_line_locs rc { line with strand := '+' } = .ok lp)
    (hm : parse_line_locs rc { line with strand := s } = .ok lm) :
    lm.reference_length = lp.reference_length ∧
    (∀ i : Nat, (i : Int) < line.exon_count →
      lm.loc_START.getD i 0 = lp.reference_length - lp.loc_START.getD i 0 + 1 ∧
      lm.loc_END.getD i 0 = lp.reference_length - lp.loc_END.getD i 0 + 1) ∧
    (line.reference_length = 0 → 0 < line.exon_count →
      lm.loc_END.getD (line.exon_count.toNat - 1) 0 = 1 ∧
      lm.loc_START.getD 0 0 = lm.reference_length) := by
  have key : ∀ (x : Char) (a k : Nat),
      len_sum { line with strand := x } a k = len_sum line a k :=
    fun x a k => len_sum_congr { line with strand := x } line rfl rfl k a
  obtain ⟨rp, _, _, _, _, wp⟩ :=
    parse_line_locs_loc rc { line with strand := '+' } lp ha hp
  obtain ⟨rm, _, _, _, _, wm⟩ :=
    parse_line_locs_loc rc { line with strand := s } lm ha hm
  simp only [key] at rp rm wp wm
  have hrr : lm.reference_length = lp.reference_length := by rw [rm, rp]
  refine ⟨hrr, ?_, ?_⟩
  · intro i hi
    obtain ⟨p1, p2⟩ := (wp i (by omega)).1 trivial
    obtain ⟨m1, m2⟩ := (wm i (by omega)).2 hs
    rw [m1, m2, p1, p2, hrr]
    exact ⟨rfl, rfl⟩
  · intro hr0 hpos
    obtain ⟨_, m2⟩ := (wm (line.exon_count.toNat - 1) (by omega)).2 hs
    obtain ⟨m1, _⟩ := (wm 0 (by omega)).2 hs
    have hn : line.exon_count.toNat - 1 + 1 = line.exon_count.toNat := by omega
    rw [m1, m2, hn]
    have hr : lm.reference_length = len_sum line 0 line.exon_count.toNat := by
      rw [rm, hr0, zero_add]
    constructor
    · rw [hr]; ring
    · simp [len_sum]

theorem minus_positions_mirror_plus_witness :
    ∃ lp lm,
      parse_line_locs rc_sample { two_exon_record with strand := '+' } = .ok lp ∧
      parse_line_locs rc_sample { two_exon_record with strand := '-' } = .ok lm ∧
      lp.loc_START = [1, 11] ∧ lp.loc_END = [10, 20] ∧
      lm.loc_START = [20, 10] ∧ lm.loc_END = [11, 1] ∧
      (lm.reference_length = lp.reference_length ∧
       (∀ i : Nat, (i : Int) < two_exon_record.exon_count →
         lm.loc_START.getD i 0 = lp.reference_length - lp.loc_START.getD i 0 + 1 ∧
         lm.loc_END.getD i 0 = lp.reference_length - lp.loc_END.getD i 0 + 1) ∧
       (two_exon_record.reference_length = 0 → 0 < two_exon_record.exon_count →
         lm.loc_END.getD (two_exon_record.exon_count.toNat - 1) 0 = 1 ∧
         lm.loc_START.getD 0 0 = lm.reference_length)) :=
  ⟨_, _, rfl, rfl, rfl, rfl, rfl, rfl,
    minus_positions_mirror_plus rc_sample two_exon_record _ _ '-' (by decide)
      (by decide) rfl rfl⟩

/-! ## The locator as a whole -/

/-- A normal return of the first loop and of the sweeps gives a normal return of
`parse_line_locs` on a record that is not yet located. -/
theorem parse_line_locs_of (rc : reg_consts) (line : genepred_line) (fs : first_state)
    (s3 : sweep_state) (hp : line.loc_parsed = false)
    (hf : first_loop line (if line.cdsstart = line.cdsend then false else true)
        line.exon_count.toNat 0 (first_init line) = .ok fs)
    (hs : fill_offsets rc line (decide (line.strand = '+'))
        (if line.cdsstart = line.cdsend then false else true)
        fs.forward_length fs.backward_length
        (fs.reference_length - fs.forward_length - fs.backward_length) = .ok s3) :
    parse_line_locs rc line = .ok { line with
        loc_parsed := true
        reference_length := fs.reference_length
        forward_length :=
          if decide (line.strand = '+') then fs.forward_length else fs.backward_length
        backward_length :=
          if decide (line.strand = '+') then fs.backward_length else fs.forward_length
        loc_START :=
          if decide (line.strand = '+') then fs.loc_START
          else fs.loc_START.map (fun v => fs.reference_length - v + 1)
        loc_END :=
          if decide (line.strand = '+') then fs.loc_END
          else fs.loc_END.map (fun v => fs.reference_length - v + 1)
        dna_ref_offsets_START := s3.dna_ref_offsets_START
        dna_ref_offsets_END := s3.dna_ref_offsets_END } := by
  unfold parse_line_locs
  generalize (if line.cdsstart = line.cdsend then false else true) = c at hf hs ⊢
  generalize decide (line.strand = '+') = s at hs ⊢
  rw [hp]
  simp only [Bool.false_eq_true, if_false, hf, hs]

/-- The sweeps return normally, with rows of `exon_count` entries, whenever no
exon has a negative length and neither UTR length exceeds the summed exon
length. -/
theorem fill_offsets_ok (rc : reg_consts) (line : genepred_line) (s c : Bool)
    (fl bl rl : Int) (ha : arrays_ok line)
    (hnn : ∀ j, j < line.exon_count.toNat → 0 ≤ exon_length line j)
    (hfl : fl ≤ len_sum line 0 line.exon_count.toNat)
    (hbl : bl ≤ len_sum line 0 line.exon_count.toNat) :
    ∃ s3, fill_offsets rc line s c fl bl rl = .ok s3 ∧
      s3.dna_ref_offsets_START.length = line.exon_count.toNat ∧
      s3.dna_ref_offsets_END.length = line.exon_count.toNat := by
  obtain ⟨h1, h2⟩ := ha
  have hn1 : line.exons_START.length = line.exon_count.toNat := by omega
  have hn2 : line.exons_END.length = line.exon_count.toNat := by omega
  have hcnt : ((line.exon_count.toNat : Nat) : Int) = line.exon_count := by omega
  unfold fill_offsets
  simp only [bind, Except.bind]
  obtain ⟨s1, hr1, ⟨b, hb1, _, hb3⟩, hl2, _, ho1, ho2⟩ :=
    forward_sweep_ok rc line s rl bl line.exon_count.toNat hn1 hn2
      (line.exon_count.toNat + 1) 0 fl
      { l1 := 0, l2 := line.exon_count - 1, forward_offset := 0, backward_offset := 0,
        dna_ref_offsets_START := List.replicate line.exon_count.toNat 0,
        dna_ref_offsets_END := List.replicate line.exon_count.toNat 0 }
      (by simp) (by omega) (by omega) (by simp) (by simp) (by simpa using hfl)
      (fun j _ hj => hnn j hj)
  rw [hr1]
  simp only []
  obtain ⟨s2, hr2, ⟨b2, hc1, hc2⟩, hl1, _, hp1, hp2⟩ :=
    backward_sweep_ok rc line s rl line.exon_count.toNat hn1 hn2
      (line.exon_count.toNat + 1) line.exon_count.toNat bl s1
      (by rw [hl2, hcnt]) (le_refl _) (by omega) ho1 ho2 hbl hnn
  rw [hr2]
  simp only []
  have hk : (s2.l2 - s2.l1 + 1).toNat = b2 - b := by
    rw [hc1, hl1, hb1]; omega
  rw [hk]
  cases s with
  | true =>
    simp only [if_true]
    obtain ⟨s3, hr3, q1, q2, _, _⟩ :=
      middle_sweep_plus_spec rc line c (b2 - b) b
        (if (c = true) ∧ s2.backward_offset ≠ 0 then s2.backward_offset else rl) s2
        (by rw [hl1, hb1]) (by omega) (by omega) (by omega) (by omega)
    exact ⟨s3, hr3, by rw [q1, hp1], by rw [q2, hp2]⟩
  | false =>
    simp only [Bool.false_eq_true, if_false]
    obtain ⟨s3, hr3, q1, q2, _, _⟩ :=
      middle_sweep_minus_spec rc line c (b2 - b) b2
        (if (c = true) ∧ s2.forward_offset ≠ 0 then s2.forward_offset - 1 else rl) s2
        hc1 (by omega) (by omega) (by omega) (by omega) (by omega)
    exact ⟨s3, hr3, by rw [q1, hp1], by rw [q2, hp2]⟩

/-- With both UTR lengths 0 and no coding region the middle sweep writes every
boundary, tagged noncoding. -/
theorem fill_offsets_noncoding (rc : reg_consts) (line : genepred_line) (s : Bool)
    (rl : Int) (ha : arrays_ok line) :
    ∃ s3, fill_offsets rc line s false 0 0 rl = .ok s3 ∧
      s3.dna_ref_offsets_START.length = line.exon_count.toNat ∧
      s3.dna_ref_offsets_END.length = line.exon_count.toNat ∧
      ∀ j, j < line.exon_count.toNat →
        (s = true →
          s3.dna_ref_offsets_END.getD j 0 =
            compact_loc rc (rl - len_sum line 0 j) rc.REG_NONCODING ∧
          s3.dna_ref_offsets_START.getD j 0 =
            compact_loc rc (rl - len_sum line 0 (j + 1) + 1) rc.REG_NONCODING) ∧
        (s = false →
          s3.dna_ref_offsets_START.getD j 0 =
            compact_loc rc (rl - len_sum line (j + 1) (line.exon_count.toNat - (j + 1)))
              rc.REG_NONCODING ∧
          s3.dna_ref_offsets_END.getD j 0 =
            compact_loc rc (rl - len_sum line j (line.exon_count.toNat - j) + 1)
              rc.REG_NONCODING) := by
  obtain ⟨h1, h2⟩ := ha
  have hcnt : ((line.exon_count.toNat : Nat) : Int) = line.exon_count := by omega
  have hk : (line.exon_count - 1 - 0 + 1).toNat = line.exon_count.toNat := by omega
  unfold fill_offsets
  simp only [bind, Except.bind]
  rw [forward_sweep_zero _ _ _ _ _ _ _ _ (le_refl 0)]
  simp only []
  rw [backward_sweep_zero _ _ _ _ _ _ _ (le_refl 0)]
  simp only [hk]
  cases s with
  | true =>
    simp only [if_true]
    obtain ⟨s3, hr3, q1, q2, _, hw⟩ :=
      middle_sweep_plus_spec rc line false line.exon_count.toNat 0 rl
        { l1 := 0, l2 := line.exon_count - 1, forward_offset := 0, backward_offset := 0,
          dna_ref_offsets_START := List.replicate line.exon_count.toNat 0,
          dna_ref_offsets_END := List.replicate line.exon_count.toNat 0 }
        (by simp) (by omega) (by omega) (by simp) (by simp)
    refine ⟨s3, by simpa using hr3, by simpa using q1, by simpa using q2, ?_⟩
    intro j hj
    have hwj := hw j (Nat.zero_le j) (by omega)
    simpa using hwj
  | false =>
    simp only [Bool.false_eq_true, if_false]
    obtain ⟨s3, hr3, q1, q2, _, hw⟩ :=
      middle_sweep_minus_spec rc line false line.exon_count.toNat line.exon_count.toNat rl
        { l1 := 0, l2 := line.exon_count - 1, forward_offset := 0, backward_offset := 0,
          dna_ref_offsets_START := List.replicate line.exon_count.toNat 0,
          dna_ref_offsets_END := List.replicate line.exon_count.toNat 0 }
        (by simp only []; omega) (le_refl _) (by omega) (by omega) (by simp) (by simp)
    refine ⟨s3, by simpa using hr3, by simpa using q1, by simpa using q2, ?_⟩
    intro j hj
    have hwj := hw j (by omega) hj
    simpa using hwj

/-- C7: for every record with cdsstart = cdsend that is not yet located,
with any number of exons and on either strand, `parse_line_locs` returns with
forward_length = backward_length = 0 and with the start and the end offset of
every exon tagged noncoding. -/
theorem noncoding_all_tagged (rc : reg_consts) (hwf : rc.wf) (line : genepred_line)
    (hp : line.loc_parsed = false) (ha : arrays_ok line)
    (hc : line.cdsstart = line.cdsend) :
    ∃ l1, parse_line_locs rc line = .ok l1 ∧
      l1.forward_length = 0 ∧ l1.backward_length = 0 ∧
      ∀ i : Nat, (i : Int) < line.exon_count →
        reg_type rc (l1.dna_ref_offsets_START.getD i 0) = rc.REG_NONCODING ∧
        reg_type rc (l1.dna_ref_offsets_END.getD i 0) = rc.REG_NONCODING := by
  obtain ⟨fs, hf, _, _, _, _, hz, _⟩ := first_loop_init_spec line false ha
  obtain ⟨hz1, hz2⟩ := hz rfl
  obtain ⟨s3, hs, _, _, hw⟩ :=
    fill_offsets_noncoding rc line (decide (line.strand = '+'))
      (fs.reference_length - fs.forward_length - fs.backward_length) ha
  have hcoding : (if line.cdsstart = line.cdsend then false else true) = false :=
    if_pos hc
  have hres := parse_line_locs_of rc line fs s3 hp (by rw [hcoding]; exact hf)
    (by rw [hcoding, hz1, hz2]; rw [hz1, hz2] at hs; exact hs)
  refine ⟨_, hres, ?_, ?_, ?_⟩
  · simp [hz1, hz2]
  · simp [hz1, hz2]
  · intro i hi
    obtain ⟨_, _, _, hn, _⟩ := hwf
    have tg := fun m => reg_type_compact_loc rc m rc.REG_NONCODING hn.1 hn.2
    obtain ⟨wp, wm⟩ := hw i (by omega)
    by_cases hs : line.strand = '+'
    · obtain ⟨e1, e2⟩ := wp (by simp [hs])
      exact ⟨by simp only [e2, tg], by simp only [e1, tg]⟩
    · obtain ⟨e1, e2⟩ := wm (by simp [hs])
      exact ⟨by simp only [e1, tg], by simp only [e2, tg]⟩

theorem noncoding_all_tagged_witness :
    ∃ l1, parse_line_locs rc_sample minus_noncoding_record = .ok l1 ∧
      l1.forward_length = 0 ∧ l1.backward_length = 0 ∧
      ∀ i : Nat, (i : Int) < minus_noncoding_record.exon_count →
        reg_type rc_sample (l1.dna_ref_offsets_START.getD i 0) = rc_sample.REG_NONCODING ∧
        reg_type rc_sample (l1.dna_ref_offsets_END.getD i 0) = rc_sample.REG_NONCODING :=
  noncoding_all_tagged rc_sample (by decide) minus_noncoding_record rfl (by decide) rfl

/-- C8: on a record that is not yet located (rows of `exon_count` entries, no
exon of negative length) the first call of `parse_line_locs` returns normally
and marks the record located; a call on that record, or on any located record,
fails with "Double parsed". -/
theorem locate_once (rc : reg_consts) (line : genepred_line)
    (hp : line.loc_parsed = false) (ha : arrays_ok line)
    (hnn : ∀ j, j < line.exon_count.toNat → 0 ≤ exon_length line j) :
    (∃ l1, parse_line_locs rc line = .ok l1 ∧ l1.loc_parsed = true ∧
      parse_line_locs rc l1 = .error .double_parsed) ∧
    ∀ l2 : genepred_line, l2.loc_parsed = true →
      parse_line_locs rc l2 = .error .double_parsed := by
  have hdouble : ∀ l2 : genepred_line, l2.loc_parsed = true →
      parse_line_locs rc l2 = .error .double_parsed := by
    intro l2 h2
    unfold parse_line_locs
    rw [h2]
    rfl
  refine ⟨?_, hdouble⟩
  obtain ⟨fs, hf, _, _, _, _, _, hb⟩ :=
    first_loop_init_spec line (if line.cdsstart = line.cdsend then false else true) ha
  obtain ⟨⟨_, hfl⟩, ⟨_, hbl⟩⟩ := hb hnn
  obtain ⟨s3, hs, _, _⟩ :=
    fill_offsets_ok rc line (decide (line.strand = '+'))
      (if line.cdsstart = line.cdsend then false else true)
      fs.forward_length fs.backward_length
      (fs.reference_length - fs.forward_length - fs.backward_length) ha hnn hfl hbl
  have hres := parse_line_locs_of rc line fs s3 hp hf hs
  exact ⟨_, hres, rfl, hdouble _ rfl⟩

theorem locate_once_witness :
    (∃ l1, parse_line_locs rc_sample two_exon_record = .ok l1 ∧ l1.loc_parsed = true ∧
      parse_line_locs rc_sample l1 = .error .double_parsed) ∧
    ∀ l2 : genepred_line, l2.loc_parsed = true →
      parse_line_locs rc_sample l2 = .error .double_parsed :=
  locate_once rc_sample two_exon_record rfl (by decide)
    (by
      intro j hj
      have h2 : j < 2 := hj
      interval_cases j <;> decide)

/-- C9 fails as stated: on the all-zero record, which has exon_count 0,
`parse_line_locs` returns normally. -/
theorem locate_zero_exons_counterexample :
    ({} : genepred_line).exon_count = 0 ∧
    parse_line_locs rc_sample {} = .ok { loc_parsed := true } :=
  ⟨rfl, rfl⟩

/-- C9 (as amended): on a record with exon_count = 0 that is not yet located,
`parse_line_locs` returns normally: the record is marked located, both UTR
lengths are 0, the reference length is unchanged and the position and offset
rows are empty. Only on a record that is already located is the call an
error. -/
theorem locate_zero_exons (rc : reg_consts) (line : genepred_line)
    (h0 : line.exon_count = 0) :
    (line.loc_parsed = false →
      parse_line_locs rc line = .ok { line with
        loc_parsed := true
        forward_length := 0
        backward_length := 0
        loc_START := []
        loc_END := []
        dna_ref_offsets_START := []
        dna_ref_offsets_END := [] }) ∧
    (line.loc_parsed = true → parse_line_locs rc line = .error .double_parsed) := by
  constructor
  · intro hp
    have hf : first_loop line (if line.cdsstart = line.cdsend then false else true)
        line.exon_count.toNat 0 (first_init line) = .ok (first_init line) := by
      rw [h0]; rfl
    have hs : fill_offsets rc line (decide (line.strand = '+'))
        (if line.cdsstart = line.cdsend then false else true)
        (first_init line).forward_length (first_init line).backward_length
        ((first_init line).reference_length - (first_init line).forward_length -
          (first_init line).backward_length) =
        .ok { l1 := 0, l2 := -1, forward_offset := 0, backward_offset := 0,
              dna_ref_offsets_START := [], dna_ref_offsets_END := [] } := by
      unfold fill_offsets
      simp only [bind, Except.bind, first_init]
      rw [forward_sweep_zero _ _ _ _ _ _ _ _ (le_refl 0)]
      simp only []
      rw [backward_sweep_zero _ _ _ _ _ _ _ (le_refl 0)]
      simp [h0, middle_sweep_plus, middle_sweep_minus]
    rw [parse_line_locs_of rc line _ _ hp hf hs]
    simp [first_init, h0]
  · intro hp
    unfold parse_line_locs
    rw [hp]
    rfl

theorem locate_zero_exons_witness :
    (({} : genepred_line).loc_parsed = false →
      parse_line_locs rc_sample {} = .ok { ({} : genepred_line) with
        loc_parsed := true
        forward_length := 0
        backward_length := 0
        loc_START := []
        loc_END := []
        dna_ref_offsets_START := []
        dna_ref_offsets_END := [] }) ∧
    (({} : genepred_line).loc_parsed = true →
      parse_line_locs rc_sample {} = .error .double_parsed) :=
  locate_zero_exons rc_sample {} rfl

/-! ## The line parser -/

theorem scan_comma_append (p rest : List Char) (h : ',' ∉ p) :
    scan_comma (p ++ ',' :: rest) = some (p, rest) := by
  induction p with
  | nil => simp [scan_comma]
  | cons c cs ih =>
    have hc : c ≠ ',' := fun e => h (by simp [e])
    have hcs : ',' ∉ cs := fun e => h (by simp [e])
    simp [scan_comma, hc, ih hcs]

theorem set_append_cons (pre : List Int) (x v : Int) (rest : List Int) :
    (pre ++ x :: rest).set pre.length v = pre ++ v :: rest := by
  induction pre with
  | nil => rfl
  | cons a pre ih => simp [ih]

/-- The exon loop of `parse_line_core` on two lists of comma-terminated items:
the slots from the current index on receive the converted items in list
order, the starts increased by one. -/
theorem exon_loop_spec (str2int : List Char → Int) :
    ∀ (ps pe : List (List Char)) (rs re : List Char)
      (preS midS postS preE midE postE : List Int),
    ps.length = pe.length → midS.length = ps.length → midE.length = ps.length →
    preS.length = preE.length →
    (∀ p ∈ ps, ',' ∉ p) → (∀ p ∈ pe, ',' ∉ p) →
    exon_loop str2int ps.length (preS.length : Int)
        (comma_terminated ps rs) (comma_terminated pe re)
        (preS ++ midS ++ postS) (preE ++ midE ++ postE) =
      .ok (preS ++ ps.map (fun p => str2int p + 1) ++ postS,
           preE ++ pe.map str2int ++ postE) := by
  intro ps
  induction ps with
  | nil =>
    intro pe rs re preS midS postS preE midE postE h1 h2 h3 _ _ _
    have e1 : pe = [] := List.length_eq_zero.mp h1.symm
    have e2 : midS = [] := List.length_eq_zero.mp h2
    have e3 : midE = [] := List.length_eq_zero.mp h3
    subst e1 e2 e3
    simp [exon_loop]
  | cons p ps ih =>
    intro pe rs re preS midS postS preE midE postE h1 h2 h3 h4 hcS hcE
    cases pe with
    | nil => simp at h1
    | cons q pe =>
      cases midS with
      | nil => simp at h2
      | cons x midS =>
        cases midE with
        | nil => simp at h3
        | cons y midE =>
          simp only [List.length_cons, Nat.add_right_cancel_iff] at h1 h2 h3
          have wS : wr (preS ++ x :: midS ++ postS) (preS.length : Int) (str2int p + 1)
              = .ok ((preS ++ [str2int p + 1]) ++ midS ++ postS) := by
            rw [wr_ok _ _ _ (by simp)]
            have := set_append_cons preS x (str2int p + 1) (midS ++ postS)
            simp only [List.append_assoc, List.cons_append, List.nil_append] at this ⊢
            rw [this]
          have wE : wr (preE ++ y :: midE ++ postE) (preS.length : Int) (str2int q)
              = .ok ((preE ++ [str2int q]) ++ midE ++ postE) := by
            rw [h4, wr_ok _ _ _ (by simp)]
            have := set_append_cons preE y (str2int q) (midE ++ postE)
            simp only [List.append_assoc, List.cons_append, List.nil_append] at this ⊢
            rw [this]
          have hih := ih pe rs re (preS ++ [str2int p + 1]) midS postS
            (preE ++ [str2int q]) midE postE h1 h2 h3 (by simp [h4])
            (fun r hr => hcS r (List.mem_cons_of_mem _ hr))
            (fun r hr => hcE r (List.mem_cons_of_mem _ hr))
          have hidx : (((preS ++ [str2int p + 1]).length : Nat) : Int)
              = (preS.length : Int) + 1 := by simp
          rw [hidx] at hih
          simp only [List.length_cons, comma_terminated, exon_loop,
            scan_comma_append p _ (hcS p (List.mem_cons_self _ _)),
            scan_comma_append q _ (hcE q (List.mem_cons_self _ _)), wS, wE, hih]
          simp

theorem check_strand_ok (tok : List Char)
    (h : ∃ c cs, tok = c :: cs ∧ (c = '+' ∨ c = '-')) :
    ∃ sv, check_strand tok = .ok sv := by
  obtain ⟨c, cs, rfl, hc | hc⟩ := h
  · exact ⟨'+', by simp [check_strand, hc]⟩
  · exact ⟨'-', by simp [check_strand, hc]⟩

/-- The parse of a line with all columns present, for a layout whose txEnd
column is not column 0. -/
theorem parse_line_core_full (type : genepred_format) (str2int : List Char → Int)
    (tokens : List (List Char)) (l0 : genepred_line)
    (starts ends : List (List Char)) (restS restE : List Char)
    (htx : type.txend ≠ 0)
    (hcols : has_all_columns type tokens)
    (hstrand : ∃ c cs, token tokens type.strand = c :: cs ∧ (c = '+' ∨ c = '-'))
    (hS : token tokens type.exonstarts = comma_terminated starts restS)
    (hE : token tokens type.exonends = comma_terminated ends restE)
    (hnS : starts.length = (str2int (token tokens type.exon_count)).toNat)
    (hnE : ends.length = (str2int (token tokens type.exon_count)).toNat)
    (hcS : ∀ p ∈ starts, ',' ∉ p) (hcE : ∀ p ∈ ends, ',' ∉ p) :
    ∃ l, parse_line_core type str2int tokens l0 = .ok (0, l) ∧
      l.txstart = str2int (token tokens type.txstart) + 1 ∧
      l.cdsstart = str2int (token tokens type.cdsstart) + 1 ∧
      l.txend = str2int (token tokens type.txend) ∧
      l.cdsend = str2int (token tokens type.cdsend) ∧
      l.exon_count = str2int (token tokens type.exon_count) ∧
      l.exons_START = starts.map (fun p => str2int p + 1) ∧
      l.exons_END = ends.map str2int := by
  obtain ⟨c1, c2, c3, c4, c5, c6, c7, c8, c9, c10, c11⟩ := hcols
  obtain ⟨sv, hsv⟩ := check_strand_ok _ hstrand
  have hloop := exon_loop_spec str2int starts ends restS restE []
    (List.replicate starts.length 0) [] [] (List.replicate starts.length 0) []
    (by rw [hnS, hnE]) (by simp) (by simp) rfl hcS hcE
  simp only [List.nil_append, List.append_nil, List.length_nil, Nat.cast_zero] at hloop
  rw [← hS, ← hE, hnS] at hloop
  unfold parse_line_core
  simp only [clear_genepred_line, ge_iff_le, Nat.not_le.mpr c1, Nat.not_le.mpr c2,
    Nat.not_le.mpr c3, Nat.not_le.mpr c4, Nat.not_le.mpr c5, Nat.not_le.mpr c6,
    Nat.not_le.mpr c7, Nat.not_le.mpr c8, Nat.not_le.mpr c9, Nat.not_le.mpr c10,
    Nat.not_le.mpr c11, if_false, hsv, htx, hloop]
  simp

/-- C10: for every line that has a token at every column of the active layout
(genepred, refgene or refflat), a strand token that `check_strand` accepts, and
exonStarts and exonEnds tokens that each begin with exonCount comma-terminated
items, `parse_line_core` returns 0 and the record holds txstart, cdsstart and
every exon start as the converted source value plus one, txend, cdsend and
every exon end as the converted source value, with exactly exonCount exon
pairs in list order. -/
theorem parse_line_core_coordinates (type : genepred_format)
    (str2int : List Char → Int) (tokens : List (List Char)) (l0 : genepred_line)
    (starts ends : List (List Char)) (restS restE : List Char)
    (htype : type = genepred_formats ∨ type = refgene_formats ∨ type = refflat_formats)
    (hcols : has_all_columns type tokens)
    (hstrand : ∃ c cs, token tokens type.strand = c :: cs ∧ (c = '+' ∨ c = '-'))
    (hS : token tokens type.exonstarts = comma_terminated starts restS)
    (hE : token tokens type.exonends = comma_terminated ends restE)
    (hnS : starts.length = (str2int (token tokens type.exon_count)).toNat)
    (hnE : ends.length = (str2int (token tokens type.exon_count)).toNat)
    (hcS : ∀ p ∈ starts, ',' ∉ p) (hcE : ∀ p ∈ ends, ',' ∉ p) :
    ∃ l, parse_line_core type str2int tokens l0 = .ok (0, l) ∧
      l.txstart = str2int (token tokens type.txstart) + 1 ∧
      l.cdsstart = str2int (token tokens type.cdsstart) + 1 ∧
      l.txend = str2int (token tokens type.txend) ∧
      l.cdsend = str2int (token tokens type.cdsend) ∧
      l.exon_count = str2int (token tokens type.exon_count) ∧
      l.exons_START.length = (str2int (token tokens type.exon_count)).toNat ∧
      l.exons_END.length = (str2int (token tokens type.exon_count)).toNat ∧
      l.exons_START = starts.map (fun p => str2int p + 1) ∧
      l.exons_END = ends.map str2int := by
  have htx : type.txend ≠ 0 := by
    rcases htype with h | h | h <;> rw [h] <;> decide
  obtain ⟨l, hl, a1, a2, a3, a4, a5, a6, a7⟩ :=
    parse_line_core_full type str2int tokens l0 starts ends restS restE htx hcols
      hstrand hS hE hnS hnE hcS hcE
  exact ⟨l, hl, a1, a2, a3, a4, a5, by rw [a6, List.length_map, hnS],
    by rw [a7, List.length_map, hnE], a6, a7⟩

theorem parse_line_core_coordinates_witness :
    ∃ l, parse_line_core genepred_formats str2int_dec
        (scenario6_tokens "NM_1".toList ["GENE1".toList]) {} = .ok (0, l) ∧
      l.txstart = str2int_dec (token (scenario6_tokens "NM_1".toList ["GENE1".toList])
        genepred_formats.txstart) + 1 ∧
      l.cdsstart = str2int_dec (token (scenario6_tokens "NM_1".toList ["GENE1".toList])
        genepred_formats.cdsstart) + 1 ∧
      l.txend = str2int_dec (token (scenario6_tokens "NM_1".toList ["GENE1".toList])
        genepred_formats.txend) ∧
      l.cdsend = str2int_dec (token (scenario6_tokens "NM_1".toList ["GENE1".toList])
        genepred_formats.cdsend) ∧
      l.exon_count = str2int_dec (token (scenario6_tokens "NM_1".toList ["GENE1".toList])
        genepred_formats.exon_count) ∧
      l.exons_START.length = (str2int_dec (token
        (scenario6_tokens "NM_1".toList ["GENE1".toList])
        genepred_formats.exon_count)).toNat ∧
      l.exons_END.length = (str2int_dec (token
        (scenario6_tokens "NM_1".toList ["GENE1".toList])
        genepred_formats.exon_count)).toNat ∧
      l.exons_START = ["100".toList].map (fun p => str2int_dec p + 1) ∧
      l.exons_END = ["200".toList].map str2int_dec :=
  parse_line_core_coordinates genepred_formats str2int_dec
    (scenario6_tokens "NM_1".toList ["GENE1".toList]) {} ["100".toList] ["200".toList]
    [] [] (Or.inl rfl) (by decide) ⟨'+', [], rfl, Or.inl rfl⟩ rfl rfl rfl rfl
    (by decide) (by decide)

/-! ## Strand tokens -/

/-- C12 fails as stated: the token `+x`, which only begins with `+`, is
accepted by `check_strand` and read as the strand `+`. -/
theorem check_strand_longer_token_counterexample :
    check_strand "+x".toList = .ok '+' ∧ "+x".toList ≠ "+".toList ∧
    check_strand "-1".toList = .ok '-' :=
  ⟨rfl, by decide, rfl⟩

/-- C12 (as amended): `check_strand` accepts a strand token if and only if the
first character of the token is `+` or `-`, and returns that character; every
other token, the empty token included, is the fatal error "Unknow strand
type". -/
theorem check_strand_first_char (tok : List Char) :
    (∀ c : Char, check_strand tok = .ok c ↔
      (c = '+' ∨ c = '-') ∧ ∃ cs, tok = c :: cs) ∧
    ((¬ ∃ c cs, tok = c :: cs ∧ (c = '+' ∨ c = '-')) →
      check_strand tok = .error .unknown_strand) := by
  cases tok with
  | nil =>
    constructor
    · intro c
      simp [check_strand]
    · intro _
      rfl
  | cons d ds =>
    constructor
    · intro c
      by_cases h1 : d = '+'
      · subst h1
        simp only [check_strand, if_true]
        constructor
        · intro h
          injection h with h
          subst h
          exact ⟨Or.inl rfl, ds, rfl⟩
        · rintro ⟨_, cs, hcs⟩
          injection hcs with h2 _
          rw [h2]
      · by_cases h2 : d = '-'
        · subst h2
          simp only [check_strand, if_true]
          rw [if_neg (by decide)]
          constructor
          · intro h
            injection h with h
            subst h
            exact ⟨Or.inr rfl, ds, rfl⟩
          · rintro ⟨_, cs, hcs⟩
            injection hcs with h3 _
            rw [h3]
        · simp only [check_strand, if_neg h1, if_neg h2]
          constructor
          · intro h
            cases h
          · rintro ⟨hc, cs, hcs⟩
            injection hcs with h3 _
            subst h3
            rcases hc with hc | hc
            · exact absurd hc h1
            · exact absurd hc h2
    · intro hno
      have h1 : d ≠ '+' := fun e => hno ⟨d, ds, rfl, Or.inl e⟩
      have h2 : d ≠ '-' := fun e => hno ⟨d, ds, rfl, Or.inr e⟩
      simp only [check_strand, if_neg h1, if_neg h2]

theorem check_strand_first_char_witness :
    check_strand "-".toList = .ok '-' ∧
    check_strand "x+".toList = .error .unknown_strand :=
  ⟨((check_strand_first_char "-".toList).1 '-').2 ⟨Or.inr rfl, [], rfl⟩,
   (check_strand_first_char "x+".toList).2 (by
     rintro ⟨c, cs, h, hc⟩
     injection h with h1 _
     subst h1
     rcases hc with hc | hc <;> exact absurd hc (by decide))⟩

/-! ## The parse starts from a cleared record -/

theorem exon_loop_length (str2int : List Char → Int) (k : Nat) :
    ∀ (i : Int) (ss se : List Char) (exS exE rS rE : List Int),
    exon_loop str2int k i ss se exS exE = .ok (rS, rE) →
    rS.length = exS.length ∧ rE.length = exE.length := by
  induction k with
  | zero =>
    intro i ss se exS exE rS rE h
    simp only [exon_loop] at h
    injection h with h
    injection h with h1 h2
    subst h1 h2
    exact ⟨rfl, rfl⟩
  | succ k ih =>
    intro i ss se exS exE rS rE h
    rw [exon_loop] at h
    split at h
    · cases h
    · split at h
      · cases h
      · rename_i exS1 hw1
        split at h
        · cases h
        · split at h
          · cases h
          · rename_i exE1 hw2
            obtain ⟨q1, q2⟩ := ih _ _ _ _ _ _ _ h
            unfold wr at hw1 hw2
            split at hw1
            · split at hw2
              · injection hw1 with hw1
                injection hw2 with hw2
                subst hw1 hw2
                simp at q1 q2
                exact ⟨q1, q2⟩
              · cases hw2
            · cases hw1

/-- Every outcome of `parse_line_core` with a record leaves the fields of the
locator cleared. -/
theorem parse_line_core_cleared (type : genepred_format) (str2int : List Char → Int)
    (tokens : List (List Char)) (l0 : genepred_line) (st : Int) (l : genepred_line)
    (h : parse_line_core type str2int tokens l0 = .ok (st, l)) :
    l.loc_parsed = false ∧ l.reference_length = 0 ∧ l.forward_length = 0 ∧
    l.backward_length = 0 ∧ l.loc_START = [] ∧ l.loc_END = [] ∧
    l.dna_ref_offsets_START = [] ∧ l.dna_ref_offsets_END = [] := by
  unfold parse_line_core at h
  simp only [clear_genepred_line] at h
  generalize (if type.strand ≥ tokens.length then Except.ok (Char.ofNat 0)
    else check_strand (token tokens type.strand)) = sres at h
  generalize exon_loop str2int _ 0 _ _ _ _ = eres at h
  by_cases hc : type.chrom ≥ tokens.length
  · simp [hc] at h
    obtain ⟨_, rfl⟩ := h
    simp
  · simp only [hc] at h
    simp at h
    cases sres with
    | error e => simp at h
    | ok sv =>
      simp only [] at h
      by_cases ht : type.txend = 0
      · simp [ht] at h
        obtain ⟨_, rfl⟩ := h
        simp
      · simp only [ht, if_false] at h
        by_cases h8 : type.exonstarts ≥ tokens.length
        · simp only [h8, if_true] at h
          injection h with h
          injection h with _ h2
          subst h2
          simp
        · simp only [h8, if_false] at h
          by_cases h9 : type.exonends ≥ tokens.length
          · simp only [h9, if_true] at h
            injection h with h
            injection h with _ h2
            subst h2
            simp
          · simp only [h9, if_false] at h
            cases eres with
            | error e => simp at h
            | ok pr =>
              obtain ⟨exS, exE⟩ := pr
              simp only [] at h
              injection h with h
              injection h with _ h2
              subst h2
              simp

/-- C13: the outcome of `parse_line_core` on a line does not depend on what the
destination record held before, so parsing the same line twice gives records
that agree in every field; and after every parse loc_parsed,
reference_length, forward_length and backward_length are 0 and the rows of the
locator are empty. -/
theorem parse_independent_of_destination (type : genepred_format)
    (str2int : List Char → Int) (tokens : List (List Char)) (l0 l0' : genepred_line) :
    parse_line_core type str2int tokens l0 = parse_line_core type str2int tokens l0' ∧
    ∀ (st : Int) (l : genepred_line),
      parse_line_core type str2int tokens l0 = .ok (st, l) →
      l.loc_parsed = false ∧ l.reference_length = 0 ∧ l.forward_length = 0 ∧
      l.backward_length = 0 ∧ l.loc_START = [] ∧ l.loc_END = [] ∧
      l.dna_ref_offsets_START = [] ∧ l.dna_ref_offsets_END = [] :=
  ⟨rfl, fun st l h => parse_line_core_cleared type str2int tokens l0 st l h⟩

theorem parse_independent_of_destination_witness :
    ∃ l, parse_line_core genepred_formats str2int_dec
        (scenario6_tokens "NM_1".toList ["GENE1".toList]) located_record = .ok (0, l) ∧
      parse_line_core genepred_formats str2int_dec
        (scenario6_tokens "NM_1".toList ["GENE1".toList]) {} = .ok (0, l) ∧
      located_record.loc_parsed = true ∧
      (l.loc_parsed = false ∧ l.reference_length = 0 ∧ l.forward_length = 0 ∧
       l.backward_length = 0 ∧ l.loc_START = [] ∧ l.loc_END = [] ∧
       l.dna_ref_offsets_START = [] ∧ l.dna_ref_offsets_END = []) :=
  ⟨_, rfl, rfl, rfl,
    (parse_independent_of_destination genepred_formats str2int_dec
      (scenario6_tokens "NM_1".toList ["GENE1".toList]) located_record {}).2 0 _ rfl⟩

/-! ## Which lines the parser rejects -/

/-- The outcome of `parse_line_core` on a line that has the chrom, exonStarts and
exonEnds columns: only the exon loop can still fail, and a normal end of the
loop gives status 0. -/
theorem parse_line_core_present (type : genepred_format) (str2int : List Char → Int)
    (tokens : List (List Char)) (l0 : genepred_line)
    (htx : type.txend ≠ 0) (hc : type.chrom < tokens.length)
    (hs : strand_valid type tokens)
    (h8 : type.exonstarts < tokens.length) (h9 : type.exonends < tokens.length) :
    ∃ sv, parse_line_core type str2int tokens l0 =
      match exon_loop str2int (scalar_fields type str2int tokens sv).exon_count.toNat 0
          (token tokens type.exonstarts) (token tokens type.exonends)
          (List.replicate (scalar_fields type str2int tokens sv).exon_count.toNat 0)
          (List.replicate (scalar_fields type str2int tokens sv).exon_count.toNat 0) with
      | .error e => .error e
      | .ok (exS, exE) =>
        .ok (0, { scalar_fields type str2int tokens sv with
                  exons_START := exS, exons_END := exE }) := by
  have hsv : ∃ sv, (if type.strand ≥ tokens.length then Except.ok (Char.ofNat 0)
      else check_strand (token tokens type.strand)) = .ok sv := by
    by_cases hp : type.strand ≥ tokens.length
    · exact ⟨_, if_pos hp⟩
    · obtain ⟨sv, h⟩ := check_strand_ok _ (hs (by omega))
      exact ⟨sv, by rw [if_neg hp, h]⟩
  obtain ⟨sv, hsv⟩ := hsv
  refine ⟨sv, ?_⟩
  unfold parse_line_core
  simp only [clear_genepred_line, ge_iff_le, Nat.not_le.mpr hc, Nat.not_le.mpr h8,
    Nat.not_le.mpr h9, if_false, htx]
  simp only [ge_iff_le] at hsv
  rw [hsv]
  simp [scalar_fields]

/-- A line without the chrom, the exonStarts or the exonEnds column is given
status 1. -/
theorem parse_line_core_missing (type : genepred_format) (str2int : List Char → Int)
    (tokens : List (List Char)) (l0 : genepred_line) (hs : strand_valid type tokens)
    (hm : tokens.length ≤ type.chrom ∨ tokens.length ≤ type.exonstarts ∨
      tokens.length ≤ type.exonends) :
    ∃ l, parse_line_core type str2int tokens l0 = .ok (1, l) := by
  have hsv : ∃ sv, (if type.strand ≥ tokens.length then Except.ok (Char.ofNat 0)
      else check_strand (token tokens type.strand)) = .ok sv := by
    by_cases hp : type.strand ≥ tokens.length
    · exact ⟨_, if_pos hp⟩
    · obtain ⟨sv, h⟩ := check_strand_ok _ (hs (by omega))
      exact ⟨sv, by rw [if_neg hp, h]⟩
  obtain ⟨sv, hsv⟩ := hsv
  unfold parse_line_core
  simp only [clear_genepred_line]
  rw [hsv]
  by_cases hc : type.chrom ≥ tokens.length
  · simp [hc]
  · simp only [hc]
    simp only [if_false, reduceCtorEq]
    by_cases ht : type.txend = 0
    · simp [ht]
    · simp only [ht, if_false]
      by_cases h8 : type.exonstarts ≥ tokens.length
      · simp [h8]
      · simp only [h8, if_false]
        by_cases h9 : type.exonends ≥ tokens.length
        · simp [h9]
        · exfalso
          omega

/-- Status 1 is given only to a line without the chrom, exonStarts or exonEnds
column, or under a layout whose txEnd column is column 0. -/
theorem parse_line_core_status_one (type : genepred_format) (str2int : List Char → Int)
    (tokens : List (List Char)) (l0 l : genepred_line) (hs : strand_valid type tokens)
    (h : parse_line_core type str2int tokens l0 = .ok (1, l)) :
    type.txend = 0 ∨ tokens.length ≤ type.chrom ∨ tokens.length ≤ type.exonstarts ∨
      tokens.length ≤ type.exonends := by
  by_contra hcon
  push_neg at hcon
  obtain ⟨htx, hc, h8, h9⟩ := hcon
  obtain ⟨sv, hp⟩ := parse_line_core_present type str2int tokens l0 htx hc hs h8 h9
  rw [hp] at h
  split at h
  · cases h
  · injection h with h
    injection h with h1 _
    exact absurd h1 (by decide)

theorem known_layout_columns (type : genepred_format) (h : known_layout type) :
    type.txend ≠ 0 ∧ type.chrom < type.exonends ∧ type.txend < type.exonends ∧
    type.exonstarts < type.exonends ∧ type.name1 < type.exonends ∧
    type.strand < type.exonends := by
  rcases h with h | h | h <;> subst h <;> decide

/-- C11: under each of the three layouts and for every tokenized line whose
strand token, if present, is valid, `parse_line_core` returns status 1 if and
only if the line has no token at the chrom, txEnd, exonStarts or exonEnds
column; a line too short for the txEnd column is rejected; and a line with
well-formed exon lists that lacks only the name2 column is accepted (status 0)
with name2 absent. -/
theorem parse_line_core_failure_iff (type : genepred_format)
    (str2int : List Char → Int) (tokens : List (List Char)) (l0 : genepred_line)
    (htype : known_layout type) (hs : strand_valid type tokens) :
    ((∃ l, parse_line_core type str2int tokens l0 = .ok (1, l)) ↔
      (tokens.length ≤ type.chrom ∨ tokens.length ≤ type.txend ∨
       tokens.length ≤ type.exonstarts ∨ tokens.length ≤ type.exonends)) ∧
    (tokens.length ≤ type.txend →
      ∃ l, parse_line_core type str2int tokens l0 = .ok (1, l)) ∧
    (∀ (starts ends : List (List Char)) (restS restE : List Char),
      type.exonends < tokens.length → tokens.length ≤ type.name2 →
      token tokens type.exonstarts = comma_terminated starts restS →
      token tokens type.exonends = comma_terminated ends restE →
      starts.length = (str2int (token tokens type.exon_count)).toNat →
      ends.length = (str2int (token tokens type.exon_count)).toNat →
      (∀ p ∈ starts, ',' ∉ p) → (∀ p ∈ ends, ',' ∉ p) →
      ∃ l, parse_line_core type str2int tokens l0 = .ok (0, l) ∧ l.name2 = none ∧
        l.chrom = some (token tokens type.chrom) ∧
        l.name1 = some (token tokens type.name1)) := by
  obtain ⟨htx, c1, c2, c3, c4, c5⟩ := known_layout_columns type htype
  refine ⟨⟨?_, ?_⟩, ?_, ?_⟩
  · rintro ⟨l, hl⟩
    rcases parse_line_core_status_one type str2int tokens l0 l hs hl with h | h | h | h
    · exact absurd h htx
    · exact Or.inl h
    · exact Or.inr (Or.inr (Or.inl h))
    · exact Or.inr (Or.inr (Or.inr h))
  · intro hm
    exact parse_line_core_missing type str2int tokens l0 hs (by omega)
  · intro hm
    exact parse_line_core_missing type str2int tokens l0 hs (by omega)
  · intro starts ends restS restE h9 hn2 hS hE hnS hnE hcS hcE
    obtain ⟨sv, hp⟩ := parse_line_core_present type str2int tokens l0 htx (by omega) hs
      (by omega) h9
    have hcnt : (scalar_fields type str2int tokens sv).exon_count
        = str2int (token tokens type.exon_count) := by
      have : ¬ type.exon_count ≥ tokens.length := by
        rcases htype with h | h | h <;> subst h <;>
          simp only [genepred_formats, refgene_formats, refflat_formats] at h9 ⊢ <;> omega
      simp [scalar_fields, this]
    have hloop := exon_loop_spec str2int starts ends restS restE []
      (List.replicate starts.length 0) [] [] (List.replicate starts.length 0) []
      (by rw [hnS, hnE]) (by simp) (by simp) rfl hcS hcE
    simp only [List.nil_append, List.append_nil, List.length_nil, Nat.cast_zero] at hloop
    rw [← hS, ← hE, hnS, ← hcnt] at hloop
    rw [hloop] at hp
    refine ⟨_, hp, ?_, ?_, ?_⟩
    · simp [scalar_fields, hn2]
    · simp [scalar_fields]
    · have : ¬ type.name1 ≥ tokens.length := by omega
      simp [scalar_fields, this]

theorem parse_line_core_failure_iff_witness :
    (∃ l, parse_line_core genepred_formats str2int_dec short_tokens {} = .ok (1, l)) ∧
    (∃ l, parse_line_core genepred_formats str2int_dec
        (scenario6_tokens "NM_1".toList []) {} = .ok (0, l) ∧ l.name2 = none ∧
      l.chrom = some (token (scenario6_tokens "NM_1".toList []) genepred_formats.chrom) ∧
      l.name1 = some (token (scenario6_tokens "NM_1".toList []) genepred_formats.name1)) :=
  ⟨(parse_line_core_failure_iff genepred_formats str2int_dec short_tokens {}
      (Or.inl rfl) (fun _ => ⟨'+', [], rfl, Or.inl rfl⟩)).2.1 (by decide),
   (parse_line_core_failure_iff genepred_formats str2int_dec
      (scenario6_tokens "NM_1".toList []) {} (Or.inl rfl)
      (fun _ => ⟨'+', [], rfl, Or.inl rfl⟩)).2.2
      ["100".toList] ["200".toList] [] [] (by decide) (by decide) rfl rfl rfl rfl
      (by decide) (by decide)⟩

/-! ## Name sets -/

/-- The keys of the hash after the loop of `init_list`: those it held before and
the lines that are not comments. -/
theorem mem_init_list_loop (reads : List (List Char)) :
    ∀ (hash : List (List Char)) (n : List Char),
    n ∈ init_list_loop reads hash ↔ n ∈ hash ∨ (n ∈ reads ∧ comment_start n = false) := by
  induction reads with
  | nil => intro hash n; simp [init_list_loop]
  | cons r rest ih =>
    intro hash n
    rw [init_list_loop]
    by_cases hc : comment_start r = true
    · rw [if_pos hc, ih]
      constructor
      · rintro (h | ⟨h1, h2⟩)
        · exact Or.inl h
        · exact Or.inr ⟨List.mem_cons_of_mem _ h1, h2⟩
      · rintro (h | ⟨h1, h2⟩)
        · exact Or.inl h
        · rcases List.mem_cons.mp h1 with h1 | h1
          · subst h1; rw [hc] at h2; cases h2
          · exact Or.inr ⟨h1, h2⟩
    · rw [if_neg hc]
      have hcf : comment_start r = false := by simpa using hc
      by_cases hm : r ∈ hash
      · rw [if_pos hm, ih]
        constructor
        · rintro (h | ⟨h1, h2⟩)
          · exact Or.inl h
          · exact Or.inr ⟨List.mem_cons_of_mem _ h1, h2⟩
        · rintro (h | ⟨h1, h2⟩)
          · exact Or.inl h
          · rcases List.mem_cons.mp h1 with h1 | h1
            · subst h1; exact Or.inl hm
            · exact Or.inr ⟨h1, h2⟩
      · rw [if_neg hm, ih]
        constructor
        · rintro (h | ⟨h1, h2⟩)
          · rcases List.mem_append.mp h with h | h
            · exact Or.inl h
            · have : n = r := by simpa using h
              subst this
              exact Or.inr ⟨List.mem_cons_self _ _, hcf⟩
          · exact Or.inr ⟨List.mem_cons_of_mem _ h1, h2⟩
        · rintro (h | ⟨h1, h2⟩)
          · exact Or.inl (List.mem_append_left _ h)
          · rcases List.mem_cons.mp h1 with h1 | h1
            · subst h1; exact Or.inl (List.mem_append_right _ (List.mem_singleton.mpr rfl))
            · exact Or.inr ⟨h1, h2⟩

/-- The list that `init_list` builds from a file with at least one line. -/
theorem init_list_some {F : Type} (hts_readlines : F → Option (List (List Char)))
    (fn : F) (reads : List (List Char)) (hr : hts_readlines fn = some reads)
    (hne : reads ≠ []) :
    init_list hts_readlines (some fn) =
      some { lines := reads.length, reads := reads, hash := init_list_loop reads [] } := by
  have hlen : reads.length ≠ 0 := fun h => hne (List.length_eq_zero.mp h)
  simp [init_list, hr, hlen]

/-- C14: for a name set built by `init_list` from a file with at least one line,
`check_list` reports 0 for a name if and only if the name equals, character
for character, some line of the file that does not begin with `#` or `/`, and
reports 1 for every other name. -/
theorem check_list_init_list {F : Type} (hts_readlines : F → Option (List (List Char)))
    (fn : F) (reads : List (List Char)) (hr : hts_readlines fn = some reads)
    (hne : reads ≠ []) (name : List Char) :
    (check_list (init_list hts_readlines (some fn)) (some name) = .ok 0 ↔
      ∃ l ∈ reads, l = name ∧ comment_start l = false) ∧
    ((¬ ∃ l ∈ reads, l = name ∧ comment_start l = false) →
      check_list (init_list hts_readlines (some fn)) (some name) = .ok 1) := by
  have hlen : reads.length ≠ 0 := fun h => hne (List.length_eq_zero.mp h)
  have hmem : name ∈ init_list_loop reads [] ↔
      ∃ l ∈ reads, l = name ∧ comment_start l = false := by
    rw [mem_init_list_loop]
    constructor
    · rintro (h | ⟨h1, h2⟩)
      · cases h
      · exact ⟨name, h1, rfl, h2⟩
    · rintro ⟨l, h1, h2, h3⟩
      subst h2
      exact Or.inr ⟨h1, h3⟩
  rw [init_list_some hts_readlines fn reads hr hne]
  simp only [check_list, hlen, if_false]
  constructor
  · rw [← hmem]
    by_cases hm : name ∈ init_list_loop reads []
    · simp [hm]
    · simp [hm]
  · intro hno
    rw [← hmem] at hno
    rw [if_neg hno]

theorem check_list_init_list_witness :
    check_list (init_list (fun _ : Unit => some ["#genes".toList, "TP53".toList])
        (some ())) (some "TP53".toList) = .ok 0 ∧
    check_list (init_list (fun _ : Unit => some ["#genes".toList, "TP53".toList])
        (some ())) (some "tp53".toList) = .ok 1 :=
  ⟨(check_list_init_list (fun _ : Unit => some ["#genes".toList, "TP53".toList]) ()
      ["#genes".toList, "TP53".toList] rfl (by decide) "TP53".toList).1.2
      ⟨"TP53".toList, by decide, rfl, rfl⟩,
   (check_list_init_list (fun _ : Unit => some ["#genes".toList, "TP53".toList]) ()
      ["#genes".toList, "TP53".toList] rfl (by decide) "tp53".toList).2 (by
        rintro ⟨l, hl, h1, _⟩
        subst h1
        revert hl
        decide)⟩

/-! ## The filtered sequential scan -/

theorem filter_hit_true (l : Option list) (name : Option (List Char)) :
    filter_hit l name = .ok true ↔ in_filter l name := by
  unfold in_filter
  cases l with
  | none => simp [filter_hit]
  | some lst =>
    by_cases h0 : lst.lines = 0
    · simp [filter_hit, check_list, h0]
    · cases name with
      | none => simp [filter_hit, check_list, h0]
      | some n =>
        by_cases hm : n ∈ lst.hash
        · simp [filter_hit, check_list, h0, hm]
        · simp [filter_hit, check_list, h0, hm]

theorem filter_hit_false (l : Option list) (name : Option (List Char))
    (h : filter_hit l name = .ok false) : ¬ in_filter l name := by
  intro hin
  rw [(filter_hit_true l name).mpr hin] at h
  cases h

theorem read_line_loop_skip (type : genepred_format) (str2int : List Char → Int)
    (ksplit : List Char → List (List Char)) (genes trans : Option list)
    (fuel : Nat) (s : List Char) (rest : List (List Char)) (line : genepred_line)
    (h : is_skipped s = true) :
    genepred_read_line_loop type str2int ksplit genes trans (fuel + 1) (s :: rest) line =
      genepred_read_line_loop type str2int ksplit genes trans (fuel + 1) rest line := by
  rw [genepred_read_line_loop, genepred_read_line_loop, read_line, if_pos h]

/-- A return with status 0 of the loop of `genepred_read_line`: the record
comes from the first line, in file order, whose record hits a filter. -/
theorem read_line_loop_zero (type : genepred_format) (str2int : List Char → Int)
    (ksplit : List Char → List (List Char)) (genes trans : Option list) :
    ∀ (fp : List (List Char)) (fuel : Nat) (line : genepred_line)
      (post : List (List Char)) (rec : genepred_line),
    genepred_read_line_loop type str2int ksplit genes trans fuel fp line
      = .ok (0, post, rec) →
    (in_filter genes rec.name2 ∨ in_filter trans rec.name1) ∧
    ∃ pre s, fp = pre ++ s :: post ∧ is_skipped s = false ∧
      (∃ st, parse_line type str2int ksplit s {} = .ok (st, rec)) ∧
      ∀ s1 ∈ pre, is_skipped s1 = false →
        ∃ st rec1, parse_line type str2int ksplit s1 {} = .ok (st, rec1) ∧
          ¬ in_filter genes rec1.name2 ∧ ¬ in_filter trans rec1.name1 := by
  intro fp
  induction fp with
  | nil =>
    intro fuel line post rec h
    cases fuel with
    | zero => simp [genepred_read_line_loop] at h
    | succ fuel => simp [genepred_read_line_loop, read_line] at h
  | cons s rest ih =>
    intro fuel line post rec h
    cases fuel with
    | zero => simp [genepred_read_line_loop] at h
    | succ fuel =>
      by_cases hsk : is_skipped s = true
      · rw [read_line_loop_skip _ _ _ _ _ _ _ _ _ hsk] at h
        obtain ⟨hin, pre, s0, hfp, hs0, hp, hall⟩ := ih _ _ _ _ h
        refine ⟨hin, s :: pre, s0, by rw [hfp]; rfl, hs0, hp, ?_⟩
        intro s1 hs1 hk
        rcases List.mem_cons.mp hs1 with e | e
        · subst e; rw [hsk] at hk; cases hk
        · exact hall s1 e hk
      · have hskf : is_skipped s = false := by simpa using hsk
        rw [genepred_read_line_loop, read_line, if_neg hsk] at h
        simp only [] at h
        have hpar : parse_line type str2int ksplit s line
            = parse_line type str2int ksplit s {} := rfl
        rw [hpar] at h
        cases hp : parse_line type str2int ksplit s {} with
        | error e => rw [hp] at h; cases h
        | ok pr =>
          obtain ⟨st, line1⟩ := pr
          rw [hp] at h
          simp only [] at h
          cases hg : filter_hit genes line1.name2 with
          | error e => rw [hg] at h; cases h
          | ok bg =>
            rw [hg] at h
            cases bg with
            | true =>
              simp only [] at h
              injection h with h
              injection h with _ h
              injection h with h1 h2
              subst h1 h2
              exact ⟨Or.inl ((filter_hit_true _ _).mp hg), [], s, rfl, hskf, ⟨st, hp⟩,
                fun s1 hs1 => by cases hs1⟩
            | false =>
              simp only [] at h
              cases ht : filter_hit trans line1.name1 with
              | error e => rw [ht] at h; cases h
              | ok bt =>
                rw [ht] at h
                cases bt with
                | true =>
                  simp only [] at h
                  injection h with h
                  injection h with _ h
                  injection h with h1 h2
                  subst h1 h2
                  exact ⟨Or.inr ((filter_hit_true _ _).mp ht), [], s, rfl, hskf,
                    ⟨st, hp⟩, fun s1 hs1 => by cases hs1⟩
                | false =>
                  simp only [] at h
                  obtain ⟨hin, pre, s0, hfp, hs0, hp0, hall⟩ := ih _ _ _ _ h
                  refine ⟨hin, s :: pre, s0, by rw [hfp]; rfl, hs0, hp0, ?_⟩
                  intro s1 hs1 hk
                  rcases List.mem_cons.mp hs1 with e | e
                  · subst e
                    exact ⟨st, line1, hp, filter_hit_false _ _ hg, filter_hit_false _ _ ht⟩
                  · exact hall s1 e hk

/-- The loop of `genepred_read_line` returns status 0, or status 1 at the end of
the source. -/
theorem read_line_loop_status (type : genepred_format) (str2int : List Char → Int)
    (ksplit : List Char → List (List Char)) (genes trans : Option list) :
    ∀ (fuel : Nat) (fp : List (List Char)) (line : genepred_line) (ret : Int)
      (post : List (List Char)) (rec : genepred_line),
    genepred_read_line_loop type str2int ksplit genes trans fuel fp line
      = .ok (ret, post, rec) →
    ret = 0 ∨ (ret = 1 ∧ post = []) := by
  intro fuel
  induction fuel with
  | zero =>
    intro fp line ret post rec h
    simp [genepred_read_line_loop] at h
  | succ fuel ih =>
    intro fp line ret post rec h
    rw [genepred_read_line_loop] at h
    cases hr : read_line fp with
    | none =>
      rw [hr] at h
      simp only [] at h
      injection h with h
      injection h with h1 h2
      injection h2 with h2 _
      exact Or.inr ⟨h1.symm, h2.symm⟩
    | some pr =>
      obtain ⟨s, fp1⟩ := pr
      rw [hr] at h
      simp only [] at h
      cases hp : parse_line type str2int ksplit s line with
      | error e => rw [hp] at h; cases h
      | ok pr2 =>
        obtain ⟨st, line1⟩ := pr2
        rw [hp] at h
        simp only [] at h
        cases hg : filter_hit genes line1.name2 with
        | error e => rw [hg] at h; cases h
        | ok bg =>
          rw [hg] at h
          cases bg with
          | true =>
            simp only [] at h
            injection h with h
            injection h with h1 _
            exact Or.inl h1.symm
          | false =>
            simp only [] at h
            cases ht : filter_hit trans line1.name1 with
            | error e => rw [ht] at h; cases h
            | ok bt =>
              rw [ht] at h
              cases bt with
              | true =>
                simp only [] at h
                injection h with h
                injection h with h1 _
                exact Or.inl h1.symm
              | false =>
                simp only [] at h
                exact ih _ _ _ _ _ h

/-- When every remaining line that is read parses to a record that hits no
filter, the loop of `genepred_read_line` reads the source to its end and returns
status 1. -/
theorem read_line_loop_all_rejected (type : genepred_format)
    (str2int : List Char → Int) (ksplit : List Char → List (List Char))
    (genes trans : Option list) :
    ∀ (fp : List (List Char)) (fuel : Nat) (line : genepred_line),
    fp.length < fuel →
    (∀ s ∈ fp, is_skipped s = false →
      ∃ st rec, parse_line type str2int ksplit s {} = .ok (st, rec) ∧
        filter_hit genes rec.name2 = .ok false ∧
        filter_hit trans rec.name1 = .ok false) →
    ∃ line1, genepred_read_line_loop type str2int ksplit genes trans fuel fp line
      = .ok (1, [], line1) := by
  intro fp
  induction fp with
  | nil =>
    intro fuel line hf _
    cases fuel with
    | zero => omega
    | succ fuel => exact ⟨line, by simp [genepred_read_line_loop, read_line]⟩
  | cons s rest ih =>
    intro fuel line hf hall
    cases fuel with
    | zero => omega
    | succ fuel =>
      simp only [List.length_cons] at hf
      by_cases hsk : is_skipped s = true
      · rw [read_line_loop_skip _ _ _ _ _ _ _ _ _ hsk]
        exact ih (fuel + 1) line (by omega)
          (fun s1 h1 => hall s1 (List.mem_cons_of_mem _ h1))
      · have hskf : is_skipped s = false := by simpa using hsk
        obtain ⟨st, rec, hp, hg, ht⟩ := hall s (List.mem_cons_self _ _) hskf
        have hpar : parse_line type str2int ksplit s line
            = parse_line type str2int ksplit s {} := rfl
        rw [genepred_read_line_loop, read_line, if_neg hsk]
        simp only []
        rw [hpar, hp]
        simp only []
        rw [hg]
        simp only []
        rw [ht]
        simp only []
        exact ih fuel rec (by omega) (fun s1 h1 => hall s1 (List.mem_cons_of_mem _ h1))

/-- The loop of `genepred_read_line` returns the record of the next line that is
read when that record hits the transcript filter and not the gene filter. -/
theorem read_line_loop_trans_hit (type : genepred_format)
    (str2int : List Char → Int) (ksplit : List Char → List (List Char))
    (genes trans : Option list) (fuel : Nat) (s : List Char)
    (rest : List (List Char)) (line rec : genepred_line) (st : Int)
    (hsk : is_skipped s = false)
    (hp : parse_line type str2int ksplit s {} = .ok (st, rec))
    (hg : filter_hit genes rec.name2 = .ok false)
    (ht : filter_hit trans rec.name1 = .ok true) :
    genepred_read_line_loop type str2int ksplit genes trans (fuel + 1) (s :: rest) line
      = .ok (0, rest, rec) := by
  have hpar : parse_line type str2int ksplit s line
      = parse_line type str2int ksplit s {} := rfl
  rw [genepred_read_line_loop, read_line, hsk]
  simp only [Bool.false_eq_true, if_false]
  rw [hpar, hp]
  simp only []
  rw [hg]
  simp only []
  rw [ht]

/-- The outcome of `genepred_read_line` in terms of its loop. -/
theorem genepred_read_line_ok (type : genepred_format) (str2int : List Char → Int)
    (ksplit : List Char → List (List Char)) (spec spec1 : genepred_spec)
    (line rec : genepred_line) (ret : Int)
    (h : genepred_read_line type str2int ksplit spec line = .ok (ret, spec1, rec)) :
    genepred_read_line_loop type str2int ksplit spec.genes spec.trans
      (spec.fp.length + 1) spec.fp line = .ok (ret, spec1.fp, rec) ∧
    spec1 = { spec with fp := spec1.fp } := by
  unfold genepred_read_line at h
  cases hl : genepred_read_line_loop type str2int ksplit spec.genes spec.trans
      (spec.fp.length + 1) spec.fp line with
  | error e => rw [hl] at h; cases h
  | ok pr =>
    obtain ⟨r, fp1, l1⟩ := pr
    rw [hl] at h
    simp only [] at h
    injection h with h
    injection h with h1 h2
    injection h2 with h2 h3
    subst h1 h2 h3
    exact ⟨rfl, rfl⟩

theorem not_in_filter_none (name : Option (List Char)) : ¬ in_filter none name := by
  rintro ⟨lst, n, h, _⟩
  cases h

/-- Without any filter `genepred_read_line` never returns status 0. -/
theorem read_line_no_filter_status (type : genepred_format) (str2int : List Char → Int)
    (ksplit : List Char → List (List Char)) (spec spec1 : genepred_spec)
    (line rec : genepred_line) (ret : Int)
    (hg : spec.genes = none) (ht : spec.trans = none)
    (h : genepred_read_line type str2int ksplit spec line = .ok (ret, spec1, rec)) :
    ret = 1 ∧ spec1.fp = [] := by
  obtain ⟨hl, _⟩ := genepred_read_line_ok type str2int ksplit spec spec1 line rec ret h
  rw [hg, ht] at hl
  rcases read_line_loop_status _ _ _ _ _ _ _ _ _ _ _ hl with h0 | h1
  · subst h0
    obtain ⟨hin, _⟩ := read_line_loop_zero _ _ _ _ _ _ _ _ _ _ hl
    rcases hin with hin | hin <;> exact absurd hin (not_in_filter_none _)
  · exact h1

/-- C15 fails as stated: without filters, on a source with one record,
`genepred_read_line` reads to the end of the source and returns 1. -/
theorem read_line_without_filters_counterexample :
    unfiltered_spec.genes = none ∧ unfiltered_spec.trans = none ∧
    genepred_read_line genepred_formats str2int_dec ksplit0 unfiltered_spec {} =
      .ok (1, { unfiltered_spec with fp := [] },
        sample_record "T1".toList "G1".toList) :=
  ⟨rfl, rfl, rfl⟩

/-- C15 (as amended): with the gene filter and the transcript filter both
absent, `genepred_read_line` accepts no record: it never returns status 0, and
on a source whose remaining lines all parse it reads the source to its end and
returns 1. -/
theorem read_line_without_filters (type : genepred_format) (str2int : List Char → Int)
    (ksplit : List Char → List (List Char)) (spec : genepred_spec)
    (line : genepred_line) (hg : spec.genes = none) (ht : spec.trans = none) :
    (∀ (ret : Int) (spec1 : genepred_spec) (rec : genepred_line),
      genepred_read_line type str2int ksplit spec line = .ok (ret, spec1, rec) →
      ret = 1 ∧ spec1.fp = []) ∧
    ((∀ s ∈ spec.fp, is_skipped s = false →
        ∃ st rec, parse_line type str2int ksplit s {} = .ok (st, rec)) →
      ∃ rec, genepred_read_line type str2int ksplit spec line =
        .ok (1, { spec with fp := [] }, rec)) := by
  constructor
  · intro ret spec1 rec h
    exact read_line_no_filter_status type str2int ksplit spec spec1 line rec ret hg ht h
  · intro hall
    obtain ⟨rec, hl⟩ := read_line_loop_all_rejected type str2int ksplit none none
      spec.fp (spec.fp.length + 1) line (by omega)
      (fun s hs hk => by
        obtain ⟨st, rec, hp⟩ := hall s hs hk
        exact ⟨st, rec, hp, rfl, rfl⟩)
    refine ⟨rec, ?_⟩
    unfold genepred_read_line
    rw [hg, ht, hl]

theorem read_line_without_filters_witness :
    (∀ (ret : Int) (spec1 : genepred_spec) (rec : genepred_line),
      genepred_read_line genepred_formats str2int_dec ksplit0 unfiltered_spec {}
        = .ok (ret, spec1, rec) → ret = 1 ∧ spec1.fp = []) ∧
    ∃ rec, genepred_read_line genepred_formats str2int_dec ksplit0 unfiltered_spec {} =
      .ok (1, { unfiltered_spec with fp := [] }, rec) :=
  ⟨(read_line_without_filters genepred_formats str2int_dec ksplit0 unfiltered_spec {}
      rfl rfl).1,
   (read_line_without_filters genepred_formats str2int_dec ksplit0 unfiltered_spec {}
      rfl rfl).2 (by
        intro s hs _
        have e : s = sample_line "T1".toList "G1".toList := by
          simpa [unfiltered_spec] using hs
        subst e
        exact ⟨0, sample_record "T1".toList "G1".toList, rfl⟩)⟩

/-- C16 fails as stated: for a readable file without lines `init_list` returns
null, as it does for an unset path. -/
theorem init_list_empty_file_counterexample :
    init_list (fun _ : Unit => some []) (some ()) = none ∧
    init_list (fun _ : Unit => some []) none = none :=
  ⟨rfl, rfl⟩

/-- C16 (as amended): building a name set from a readable file without lines
gives no filter: `init_list` returns null, the same result as for an unset
path. On that result `check_list` reports 1 for every name, and a scan whose
only filter it is accepts no record. -/
theorem init_list_empty_file {F : Type} (hts_readlines : F → Option (List (List Char)))
    (fn : F) (hr : hts_readlines fn = some []) :
    init_list hts_readlines (some fn) = none ∧
    init_list hts_readlines (some fn) = init_list hts_readlines none ∧
    (∀ name, check_list (init_list hts_readlines (some fn)) name = .ok 1) ∧
    (∀ (type : genepred_format) (str2int : List Char → Int)
        (ksplit : List Char → List (List Char)) (spec spec1 : genepred_spec)
        (line rec : genepred_line) (ret : Int),
      ((spec.genes = init_list hts_readlines (some fn) ∧ spec.trans = none) ∨
       (spec.genes = none ∧ spec.trans = init_list hts_readlines (some fn))) →
      genepred_read_line type str2int ksplit spec line = .ok (ret, spec1, rec) →
      ret = 1 ∧ spec1.fp = []) := by
  have hnone : init_list hts_readlines (some fn) = none := by
    simp [init_list, hr]
  refine ⟨hnone, by rw [hnone]; rfl, ?_, ?_⟩
  · intro name
    rw [hnone]
    rfl
  · intro type str2int ksplit spec spec1 line rec ret hsp h
    rw [hnone] at hsp
    have hg : spec.genes = none := by rcases hsp with h1 | h1 <;> exact h1.1
    have ht : spec.trans = none := by rcases hsp with h1 | h1 <;> exact h1.2
    exact read_line_no_filter_status type str2int ksplit spec spec1 line rec ret hg ht h

theorem init_list_empty_file_witness :
    init_list (fun _ : Unit => some []) (some ()) = none ∧
    check_list (init_list (fun _ : Unit => some []) (some ())) (some "TP53".toList)
      = .ok 1 :=
  ⟨(init_list_empty_file (fun _ : Unit => some []) () rfl).1,
   (init_list_empty_file (fun _ : Unit => some []) () rfl).2.2.1 (some "TP53".toList)⟩

/-- C17 fails as stated: with both filters present, the record of transcript T1
of gene G1 is returned because G1 is in the gene set, although T1 is not in the
transcript set. -/
theorem read_line_both_filters_counterexample :
    both_filters_spec.genes = gene_filter_G1 ∧ gene_filter_G1 ≠ none ∧
    both_filters_spec.trans = trans_filter_T9 ∧ trans_filter_T9 ≠ none ∧
    genepred_read_line genepred_formats str2int_dec ksplit0 both_filters_spec {} =
      .ok (0, both_filters_spec_next, sample_record "T1".toList "G1".toList) ∧
    check_list trans_filter_T9 (sample_record "T1".toList "G1".toList).name1 = .ok 1 :=
  ⟨rfl, by decide, rfl, by decide, rfl, rfl⟩

/-- C17 (as amended): every record returned by `genepred_read_line` passes at
least one filter that is present: its name2 is a member of the gene set, or its
name1 is a member of the transcript set; and it is the record of the first
line in file order whose record does. -/
theorem read_line_returns_first_hit (type : genepred_format)
    (str2int : List Char → Int) (ksplit : List Char → List (List Char))
    (spec spec1 : genepred_spec) (line rec : genepred_line)
    (h : genepred_read_line type str2int ksplit spec line = .ok (0, spec1, rec)) :
    (in_filter spec.genes rec.name2 ∨ in_filter spec.trans rec.name1) ∧
    ∃ pre s, spec.fp = pre ++ s :: spec1.fp ∧ is_skipped s = false ∧
      (∃ st, parse_line type str2int ksplit s {} = .ok (st, rec)) ∧
      ∀ s1 ∈ pre, is_skipped s1 = false →
        ∃ st rec1, parse_line type str2int ksplit s1 {} = .ok (st, rec1) ∧
          ¬ in_filter spec.genes rec1.name2 ∧ ¬ in_filter spec.trans rec1.name1 := by
  obtain ⟨hl, _⟩ := genepred_read_line_ok type str2int ksplit spec spec1 line rec 0 h
  exact read_line_loop_zero _ _ _ _ _ _ _ _ _ _ hl

theorem read_line_returns_first_hit_witness :
    (in_filter both_filters_spec.genes (sample_record "T1".toList "G1".toList).name2 ∨
     in_filter both_filters_spec.trans (sample_record "T1".toList "G1".toList).name1) ∧
    ∃ pre s, both_filters_spec.fp = pre ++ s :: both_filters_spec_next.fp ∧
      is_skipped s = false ∧
      (∃ st, parse_line genepred_formats str2int_dec ksplit0 s {}
        = .ok (st, sample_record "T1".toList "G1".toList)) ∧
      ∀ s1 ∈ pre, is_skipped s1 = false →
        ∃ st rec1, parse_line genepred_formats str2int_dec ksplit0 s1 {}
            = .ok (st, rec1) ∧
          ¬ in_filter both_filters_spec.genes rec1.name2 ∧
          ¬ in_filter both_filters_spec.trans rec1.name1 :=
  read_line_returns_first_hit genepred_formats str2int_dec ksplit0 both_filters_spec
    both_filters_spec_next {} (sample_record "T1".toList "G1".toList) rfl

/-- C18 (defect in the code): the filter entry `NM_000546`, which carries no
version, does not accept the record of transcript `NM_000546.5`: the scan looks
up the whole name1, reaches the end of the source and returns 1, whereas
`genepred_retrieve_trans` collects that record for the same name. -/
theorem read_line_unversioned_entry_rejected :
    versioned_spec.trans = trans_filter_unversioned ∧
    check_list trans_filter_unversioned (some "NM_000546".toList) = .ok 0 ∧
    genepred_read_line genepred_formats str2int_dec ksplit0 versioned_spec {} =
      .ok (1, { versioned_spec with fp := [] },
        sample_record "NM_000546.5".toList "TP53".toList) ∧
    genepred_retrieve_trans genepred_formats str2int_dec ksplit0 versioned_spec
        "NM_000546".toList =
      .ok ([sample_record "NM_000546.5".toList "TP53".toList],
           { versioned_spec with fp := [] }) :=
  ⟨rfl, rfl, rfl, rfl⟩

/-- In the filtered sequential scan with a transcript filter only, an entry of
the filter, with or without a version, accepts only a record whose name1 is
identical to the entry: every returned record has as name1 a line of the filter
file, and the record of the next line read is returned when its name1 is such a
line. -/
theorem read_line_transcript_exact {F : Type}
    (hts_readlines : F → Option (List (List Char))) (fn : F)
    (reads : List (List Char)) (hr : hts_readlines fn = some reads) (hne : reads ≠ [])
    (type : genepred_format) (str2int : List Char → Int)
    (ksplit : List Char → List (List Char)) (spec : genepred_spec)
    (line : genepred_line) (hg : spec.genes = none)
    (ht : spec.trans = init_list hts_readlines (some fn)) :
    (∀ (spec1 : genepred_spec) (rec : genepred_line),
      genepred_read_line type str2int ksplit spec line = .ok (0, spec1, rec) →
      ∃ e ∈ reads, comment_start e = false ∧ rec.name1 = some e) ∧
    (∀ (s : List Char) (rest : List (List Char)) (st : Int) (rec : genepred_line)
        (e : List Char),
      spec.fp = s :: rest → is_skipped s = false →
      parse_line type str2int ksplit s {} = .ok (st, rec) →
      rec.name1 = some e → e ∈ reads → comment_start e = false →
      genepred_read_line type str2int ksplit spec line =
        .ok (0, { spec with fp := rest }, rec)) := by
  have hlist := init_list_some hts_readlines fn reads hr hne
  have hlen : reads.length ≠ 0 := fun h => hne (List.length_eq_zero.mp h)
  constructor
  · intro spec1 rec h
    obtain ⟨hl, _⟩ := genepred_read_line_ok type str2int ksplit spec spec1 line rec 0 h
    obtain ⟨hin, _⟩ := read_line_loop_zero _ _ _ _ _ _ _ _ _ _ hl
    rcases hin with hin | hin
    · rw [hg] at hin
      exact absurd hin (not_in_filter_none _)
    · rw [ht, hlist] at hin
      obtain ⟨lst, n, h1, _, h3, h4⟩ := hin
      injection h1 with h1
      subst h1
      simp only [] at h4
      rcases (mem_init_list_loop reads [] n).mp h4 with h5 | ⟨h5, h6⟩
      · cases h5
      · exact ⟨n, h5, h6, h3⟩
  · intro s rest st rec e hfp hsk hp hn he hce
    have hhit : filter_hit spec.trans rec.name1 = .ok true := by
      rw [filter_hit_true, ht, hlist]
      exact ⟨_, e, rfl, hlen, hn,
        (mem_init_list_loop reads [] e).mpr (Or.inr ⟨he, hce⟩)⟩
    have hmiss : filter_hit spec.genes rec.name2 = .ok false := by
      rw [hg]; rfl
    unfold genepred_read_line
    rw [hfp, List.length_cons,
      read_line_loop_trans_hit type str2int ksplit spec.genes spec.trans _ s rest line
        rec st hsk hp hmiss hhit]

theorem read_line_transcript_exact_witness :
    ∃ spec1 rec,
      genepred_read_line genepred_formats str2int_dec ksplit0
        { both_filters_spec_next with genes := none } {} = .ok (0, spec1, rec) ∧
      rec.name1 = some "T9".toList ∧
      ∃ e ∈ ["T9".toList], comment_start e = false ∧ rec.name1 = some e :=
  ⟨_, _,
    (read_line_transcript_exact (fun _ : Unit => some ["T9".toList]) ()
      ["T9".toList] rfl (by decide) genepred_formats str2int_dec ksplit0
      { both_filters_spec_next with genes := none } {} rfl rfl).2
      (sample_line "T9".toList "G2".toList) [] 0
      (sample_record "T9".toList "G2".toList) "T9".toList rfl rfl rfl rfl
      (by decide) rfl,
    rfl,
    (read_line_transcript_exact (fun _ : Unit => some ["T9".toList]) ()
      ["T9".toList] rfl (by decide) genepred_formats str2int_dec ksplit0
      { both_filters_spec_next with genes := none } {} rfl rfl).1 _ _ rfl⟩

/-! ## Retrieval by name -/

/-- A record that `parse_line_core` returns with a status other than 1 has its
chrom, the line has the exonEnds column, and both exon rows hold `exon_count`
entries. -/
theorem parse_line_core_accepted (type : genepred_format) (str2int : List Char → Int)
    (tokens : List (List Char)) (l0 : genepred_line) (st : Int) (l : genepred_line)
    (h : parse_line_core type str2int tokens l0 = .ok (st, l)) (hst : st ≠ 1) :
    l.chrom ≠ none ∧ type.exonends < tokens.length ∧
    l.name1 = (if type.name1 ≥ tokens.length then none
               else some (token tokens type.name1)) ∧
    l.exons_START.length = l.exon_count.toNat ∧
    l.exons_END.length = l.exon_count.toNat := by
  unfold parse_line_core at h
  simp only [clear_genepred_line] at h
  generalize (if type.strand ≥ tokens.length then Except.ok (Char.ofNat 0)
    else check_strand (token tokens type.strand)) = sres at h
  generalize hE : exon_loop str2int _ 0 _ _ _ _ = eres at h
  by_cases hc : type.chrom ≥ tokens.length
  · simp [hc] at h
    exact absurd h.1.symm hst
  · simp only [hc] at h
    simp at h
    cases sres with
    | error e => simp at h
    | ok sv =>
      simp only [] at h
      by_cases ht : type.txend = 0
      · simp [ht] at h
        exact absurd h.1.symm hst
      · simp only [ht, if_false] at h
        by_cases h8 : type.exonstarts ≥ tokens.length
        · simp only [h8, if_true] at h
          injection h with h
          injection h with h1 _
          exact absurd h1.symm hst
        · simp only [h8, if_false] at h
          by_cases h9 : type.exonends ≥ tokens.length
          · simp only [h9, if_true] at h
            injection h with h
            injection h with h1 _
            exact absurd h1.symm hst
          · simp only [h9, if_false] at h
            cases eres with
            | error e => simp at h
            | ok pr =>
              obtain ⟨exS, exE⟩ := pr
              simp only [] at h
              injection h with h
              injection h with _ h2
              subst h2
              obtain ⟨q1, q2⟩ := exon_loop_length _ _ _ _ _ _ _ _ _ hE
              refine ⟨by simp, by omega, by simp, ?_, ?_⟩
              · simpa using q1
              · simpa using q2

/-- What `parse_line` returns is a record accepted by `parse_line_core`. -/
theorem parse_line_ok (type : genepred_format) (str2int : List Char → Int)
    (ksplit : List Char → List (List Char)) (s : List Char) (l0 : genepred_line)
    (st : Int) (l : genepred_line)
    (h : parse_line type str2int ksplit s l0 = .ok (st, l)) :
    ∃ ret, ret ≠ 1 ∧ parse_line_core type str2int (ksplit s) l0 = .ok (ret, l) := by
  unfold parse_line at h
  cases hp : parse_line_core type str2int (ksplit s) l0 with
  | error e => rw [hp] at h; cases h
  | ok pr =>
    obtain ⟨ret, l1⟩ := pr
    rw [hp] at h
    simp only [] at h
    by_cases h1 : ret = 1
    · rw [if_pos h1] at h; cases h
    · rw [if_neg h1] at h
      injection h with h
      injection h with _ h2
      subst h2
      exact ⟨ret, h1, rfl⟩

theorem copy_row_full (n : Int) (row : List Int) (h : row.length = n.toNat) :
    copy_row n row = .ok row := by
  unfold copy_row
  rw [if_pos (by omega), ← h, List.take_length]

/-- The copy of a freshly parsed record that has both names is the record
itself. -/
theorem genepred_line_copy_parsed (type : genepred_format) (str2int : List Char → Int)
    (ksplit : List Char → List (List Char)) (s : List Char) (l0 : genepred_line)
    (st : Int) (l : genepred_line) (htype : known_layout type)
    (h : parse_line type str2int ksplit s l0 = .ok (st, l)) (hn2 : l.name2 ≠ none) :
    genepred_line_copy l = .ok l := by
  obtain ⟨ret, hret, hp⟩ := parse_line_ok type str2int ksplit s l0 st l h
  obtain ⟨hc, h9, hn1, hS, hE⟩ :=
    parse_line_core_accepted type str2int (ksplit s) l0 ret l hp hret
  obtain ⟨c1, c2, c3, c4, c5, c6, c7, c8⟩ :=
    parse_line_core_cleared type str2int (ksplit s) l0 ret l hp
  obtain ⟨_, _, _, _, k1, _⟩ := known_layout_columns type htype
  rw [if_neg (by omega)] at hn1
  obtain ⟨chrom, name1, name2, strand, txstart, txend, cdsstart, cdsend, exon_count,
    exS, exE, lp, fl, bl, rl, lS, lE, oS, oE⟩ := l
  simp only [] at hc hn1 hn2 hS hE c1 c2 c3 c4 c5 c6 c7 c8
  subst c1 c2 c3 c4 c5 c6 c7 c8
  cases chrom with
  | none => exact absurd rfl hc
  | some ch =>
    cases name2 with
    | none => exact absurd rfl hn2
    | some n2 =>
      subst hn1
      simp [genepred_line_copy, copy_row_full _ _ hS, copy_row_full _ _ hE]

theorem retrieve_scan_skip (type : genepred_format) (str2int : List Char → Int)
    (ksplit : List Char → List (List Char))
    (test : genepred_line → Except Error Bool) (fuel : Nat) (s : List Char)
    (rest : List (List Char)) (node : genepred_line) (chain : List genepred_line)
    (h : is_skipped s = true) :
    retrieve_scan type str2int ksplit test (fuel + 1) (s :: rest) node chain =
      retrieve_scan type str2int ksplit test (fuel + 1) rest node chain := by
  rw [retrieve_scan, retrieve_scan, read_line, if_pos h]

/-- The scan of `genepred_retrieve_gene` appends to the chain, in file order, the
records whose name2 equals the query up to case. -/
theorem retrieve_scan_gene (type : genepred_format) (str2int : List Char → Int)
    (ksplit : List Char → List (List Char)) (name : List Char)
    (htype : known_layout type) :
    ∀ (fp : List (List Char)) (fuel : Nat) (node : genepred_line)
      (chain : List genepred_line),
    fp.length < fuel →
    (∀ s ∈ fp, is_skipped s = false →
      ∃ st rec, parse_line type str2int ksplit s {} = .ok (st, rec) ∧
        rec.name2 ≠ none) →
    retrieve_scan type str2int ksplit (gene_test name) fuel fp node chain =
      .ok (chain ++
        (parsed_records type str2int ksplit fp).filter (name2_matches name)) := by
  intro fp
  induction fp with
  | nil =>
    intro fuel node chain hf _
    cases fuel with
    | zero => omega
    | succ fuel => simp [retrieve_scan, read_line, parsed_records]
  | cons s rest ih =>
    intro fuel node chain hf hall
    cases fuel with
    | zero => omega
    | succ fuel =>
      simp only [List.length_cons] at hf
      by_cases hsk : is_skipped s = true
      · rw [retrieve_scan_skip _ _ _ _ _ _ _ _ _ hsk,
          ih (fuel + 1) node chain (by omega)
            (fun s1 h1 => hall s1 (List.mem_cons_of_mem _ h1))]
        simp [parsed_records, hsk]
      · have hskf : is_skipped s = false := by simpa using hsk
        obtain ⟨st, rec, hp, hn2⟩ := hall s (List.mem_cons_self _ _) hskf
        have hpar : parse_line type str2int ksplit s node
            = parse_line type str2int ksplit s {} := rfl
        have hcopy := genepred_line_copy_parsed type str2int ksplit s {} st rec htype
          hp hn2
        have hrec : parsed_records type str2int ksplit (s :: rest)
            = rec :: parsed_records type str2int ksplit rest := by
          simp [parsed_records, hskf, hp]
        obtain ⟨n2, hn2e⟩ : ∃ n2, rec.name2 = some n2 := by
          cases hq : rec.name2 with
          | none => exact absurd hq hn2
          | some n2 => exact ⟨n2, rfl⟩
        have htest : gene_test name rec = .ok (name2_matches name rec) := by
          simp [gene_test, name2_matches, hn2e]
        rw [retrieve_scan, read_line, if_neg hsk]
        simp only []
        rw [hpar, hp]
        simp only []
        rw [htest, hrec]
        cases hm : name2_matches name rec with
        | false =>
          simp only []
          rw [ih fuel rec chain (by omega)
            (fun s1 h1 => hall s1 (List.mem_cons_of_mem _ h1))]
          simp [List.filter_cons, hm]
        | true =>
          simp only []
          rw [hcopy]
          simp only []
          rw [ih fuel rec (chain ++ [rec]) (by omega)
            (fun s1 h1 => hall s1 (List.mem_cons_of_mem _ h1))]
          simp [List.filter_cons, hm]

/-- C20: for every source that can be rewound and whose lines all parse with a
name2, `genepred_retrieve_gene` returns the chain, in file order, of exactly the
records whose name2 equals the query up to case, whatever gene or transcript
filter the handle holds; the chain is empty when no record matches. -/
theorem retrieve_gene_spec (type : genepred_format) (str2int : List Char → Int)
    (ksplit : List Char → List (List Char)) (spec : genepred_spec) (name : List Char)
    (htype : known_layout type) (hseek : spec.seek_fails = false)
    (hall : ∀ s ∈ spec.data, is_skipped s = false →
      ∃ st rec, parse_line type str2int ksplit s {} = .ok (st, rec) ∧
        rec.name2 ≠ none) :
    genepred_retrieve_gene type str2int ksplit spec name =
      .ok ((parsed_records type str2int ksplit spec.data).filter (name2_matches name),
           { spec with fp := [] }) ∧
    (∀ g t : Option list,
      genepred_retrieve_gene type str2int ksplit { spec with genes := g, trans := t } name
        = .ok ((parsed_records type str2int ksplit spec.data).filter
                (name2_matches name),
               { spec with genes := g, trans := t, fp := [] })) ∧
    ((∀ r ∈ parsed_records type str2int ksplit spec.data, name2_matches name r = false) →
      genepred_retrieve_gene type str2int ksplit spec name =
        .ok ([], { spec with fp := [] })) := by
  have hscan := retrieve_scan_gene type str2int ksplit name htype spec.data
    (spec.data.length + 1) {} [] (by omega) hall
  have hmain : genepred_retrieve_gene type str2int ksplit spec name =
      .ok ((parsed_records type str2int ksplit spec.data).filter (name2_matches name),
           { spec with fp := [] }) := by
    unfold genepred_retrieve_gene
    rw [hseek]
    simp only [Bool.false_eq_true, if_false]
    rw [hscan]
    simp
  refine ⟨hmain, ?_, ?_⟩
  · intro g t
    unfold genepred_retrieve_gene
    simp only [hseek, Bool.false_eq_true, if_false]
    rw [hscan]
    simp
  · intro hno
    rw [hmain]
    have : (parsed_records type str2int ksplit spec.data).filter (name2_matches name)
        = [] := by
      rw [List.filter_eq_nil_iff]
      intro r hr
      rw [hno r hr]
      decide
    rw [this]

theorem retrieve_gene_spec_witness :
    genepred_retrieve_gene genepred_formats str2int_dec ksplit0 three_record_spec
        "G1".toList =
      .ok ((parsed_records genepred_formats str2int_dec ksplit0
              three_record_spec.data).filter (name2_matches "G1".toList),
           { three_record_spec with fp := [] }) ∧
    (parsed_records genepred_formats str2int_dec ksplit0
        three_record_spec.data).filter (name2_matches "G1".toList) =
      [sample_record "T1".toList "G1".toList, sample_record "T2".toList "g1".toList] :=
  ⟨(retrieve_gene_spec genepred_formats str2int_dec ksplit0 three_record_spec
      "G1".toList (Or.inl rfl) rfl (by
        intro s hs hk
        simp only [three_record_spec, List.mem_cons, List.mem_singleton,
          List.not_mem_nil, or_false] at hs
        rcases hs with e | e | e | e
        · subst e; cases hk
        · subst e; exact ⟨0, sample_record "T1".toList "G1".toList, rfl, by decide⟩
        · subst e; exact ⟨0, sample_record "T9".toList "G2".toList, rfl, by decide⟩
        · subst e; exact ⟨0, sample_record "T2".toList "g1".toList, rfl, by decide⟩)).1,
   rfl⟩

/-- C19 (defect in the code): for the query `NM_0012345`, which holds no `.`,
`genepred_retrieve_trans` collects the record of transcript `NM_001.2`, although
the part of that name before its first `.`, `NM_001`, is not the whole query:
only the first 6 characters of the two names are compared. -/
theorem retrieve_trans_longer_query :
    genepred_retrieve_trans genepred_formats str2int_dec ksplit0 prefix_spec
        "NM_0012345".toList =
      .ok ([sample_record "NM_001.2".toList "TP53".toList],
           { prefix_spec with fp := [] }) ∧
    check_version "NM_0012345".toList = false ∧
    spec_unversioned "NM_001.2".toList = "NM_001".toList ∧
    strcasecmp_eq (spec_unversioned "NM_001.2".toList) "NM_0012345".toList = false ∧
    first_dot "NM_001.2".toList = some 6 :=
  ⟨rfl, rfl, rfl, rfl, rfl⟩

/-! ## Packed offsets and their rendering -/

theorem region_prefix_none (rc : reg_consts) (v : Int)
    (h : reg_type rc v ≠ rc.REG_UTR5 ∧ reg_type rc v ≠ rc.REG_UTR3 ∧
      reg_type rc v ≠ rc.REG_CODING ∧ reg_type rc v ≠ rc.REG_NONCODING) :
    render_offset rc v = none := by
  obtain ⟨h1, h2, h3, h4⟩ := h
  simp [render_offset, region_prefix, h1, h2, h3, h4]

/-! ## More on the locator -/

/-- On a record that is not yet located, with rows of `exon_count` entries and
no exon of negative length, `parse_line_locs` returns normally. -/
theorem parse_line_locs_returns (rc : reg_consts) (line : genepred_line)
    (hp : line.loc_parsed = false) (ha : arrays_ok line)
    (hnn : ∀ j, j < line.exon_count.toNat → 0 ≤ exon_length line j) :
    ∃ l1, parse_line_locs rc line = .ok l1 := by
  obtain ⟨fs, hf, _, _, _, _, _, hb⟩ :=
    first_loop_init_spec line (if line.cdsstart = line.cdsend then false else true) ha
  obtain ⟨⟨_, hfl⟩, ⟨_, hbl⟩⟩ := hb hnn
  obtain ⟨s3, hs, _, _⟩ :=
    fill_offsets_ok rc line (decide (line.strand = '+'))
      (if line.cdsstart = line.cdsend then false else true)
      fs.forward_length fs.backward_length
      (fs.reference_length - fs.forward_length - fs.backward_length) ha hnn hfl hbl
  exact ⟨_, parse_line_locs_of rc line fs s3 hp hf hs⟩

/-- C24: for every freshly parsed record (not located, reference_length 0) with
strand `+`, the record that `parse_line_locs` returns has loc[START][0] = 1,
loc[END][i] = loc[START][i] + (exons[END][i] - exons[START][i]) for every exon,
loc[START][i+1] = loc[END][i] + 1 for consecutive exons, and reference_length
equal to the summed exon length and to loc[END][exon_count-1]; and it does
return when no exon has a negative length. -/
theorem plus_positions_cumulative (rc : reg_consts) (line : genepred_line)
    (hp : line.loc_parsed = false) (hr : line.reference_length = 0)
    (hs : line.strand = '+') (ha : arrays_ok line) :
    (∀ l1, parse_line_locs rc line = .ok l1 →
      (0 < line.exon_count → l1.loc_START.getD 0 0 = 1) ∧
      (∀ i : Nat, (i : Int) < line.exon_count →
        l1.loc_END.getD i 0 = l1.loc_START.getD i 0 +
          (line.exons_END.getD i 0 - line.exons_START.getD i 0)) ∧
      (∀ i : Nat, ((i + 1 : Nat) : Int) < line.exon_count →
        l1.loc_START.getD (i + 1) 0 = l1.loc_END.getD i 0 + 1) ∧
      l1.reference_length = len_sum line 0 line.exon_count.toNat ∧
      (0 < line.exon_count →
        l1.reference_length = l1.loc_END.getD (line.exon_count.toNat - 1) 0)) ∧
    ((∀ j, j < line.exon_count.toNat → 0 ≤ exon_length line j) →
      ∃ l1, parse_line_locs rc line = .ok l1) := by
  refine ⟨?_, fun hnn => parse_line_locs_returns rc line hp ha hnn⟩
  intro l1 h
  obtain ⟨href, _, _, _, _, hw⟩ := parse_line_locs_loc rc line l1 ha h
  rw [hr, zero_add] at href
  refine ⟨?_, ?_, ?_, href, ?_⟩
  · intro hpos
    obtain ⟨e1, _⟩ := (hw 0 (by omega)).1 hs
    rw [e1]
    simp [len_sum]
  · intro i hi
    obtain ⟨e1, e2⟩ := (hw i (by omega)).1 hs
    rw [e1, e2, len_sum_succ_right, Nat.zero_add]
    unfold exon_length
    ring
  · intro i hi
    obtain ⟨_, e2⟩ := (hw i (by omega)).1 hs
    obtain ⟨e3, _⟩ := (hw (i + 1) (by omega)).1 hs
    rw [e2, e3]
  · intro hpos
    obtain ⟨_, e2⟩ := (hw (line.exon_count.toNat - 1) (by omega)).1 hs
    have hn : line.exon_count.toNat - 1 + 1 = line.exon_count.toNat := by omega
    rw [e2, hn, href]

theorem plus_positions_cumulative_witness :
    ∃ l1, parse_line_locs rc_sample two_exon_record = .ok l1 ∧
      l1.loc_START = [1, 11] ∧ l1.loc_END = [10, 20] ∧ l1.reference_length = 20 ∧
      ((0 < two_exon_record.exon_count → l1.loc_START.getD 0 0 = 1) ∧
       (∀ i : Nat, (i : Int) < two_exon_record.exon_count →
         l1.loc_END.getD i 0 = l1.loc_START.getD i 0 +
           (two_exon_record.exons_END.getD i 0 - two_exon_record.exons_START.getD i 0)) ∧
       (∀ i : Nat, ((i + 1 : Nat) : Int) < two_exon_record.exon_count →
         l1.loc_START.getD (i + 1) 0 = l1.loc_END.getD i 0 + 1) ∧
       l1.reference_length = len_sum two_exon_record 0 two_exon_record.exon_count.toNat ∧
       (0 < two_exon_record.exon_count →
         l1.reference_length =
           l1.loc_END.getD (two_exon_record.exon_count.toNat - 1) 0)) :=
  ⟨_, rfl, rfl, rfl, rfl,
    (plus_positions_cumulative rc_sample two_exon_record rfl rfl rfl (by decide)).1 _ rfl⟩

/-- C25 (defect in the code): the line whose cdsStart and cdsEnd columns are both
30 parses to cdsstart 31 and cdsend 30, so `parse_line_locs` treats it as coding:
forward_length is 20 and every boundary is tagged 5'UTR. The line whose coding
region is one base (cdsStart 9 < cdsEnd 10) parses to cdsstart = cdsend = 10
and is treated as non-coding. -/
theorem noncoding_line_classified_coding (rc : reg_consts) :
    token noncoding_tokens genepred_formats.cdsstart =
      token noncoding_tokens genepred_formats.cdsend ∧
    (∃ l, parse_line_core genepred_formats str2int_dec noncoding_tokens {} = .ok (0, l) ∧
      l.cdsstart = 31 ∧ l.cdsend = 30 ∧
      (parse_line_locs rc l).map (fun l1 => (l1.forward_length, l1.backward_length,
          l1.dna_ref_offsets_START, l1.dna_ref_offsets_END)) =
        .ok (20, 0, [compact_loc rc 20 rc.REG_UTR5, compact_loc rc 10 rc.REG_UTR5],
             [compact_loc rc 11 rc.REG_UTR5, compact_loc rc 1 rc.REG_UTR5])) ∧
    str2int_dec (token one_base_cds_tokens genepred_formats.cdsstart) <
      str2int_dec (token one_base_cds_tokens genepred_formats.cdsend) ∧
    (∃ l, parse_line_core genepred_formats str2int_dec one_base_cds_tokens {}
        = .ok (0, l) ∧
      l.cdsstart = 10 ∧ l.cdsend = 10 ∧
      (parse_line_locs rc l).map (fun l1 => (l1.forward_length, l1.backward_length,
          l1.dna_ref_offsets_START, l1.dna_ref_offsets_END)) =
        .ok (0, 0, [compact_loc rc 11 rc.REG_NONCODING, compact_loc rc 1 rc.REG_NONCODING],
             [compact_loc rc 20 rc.REG_NONCODING, compact_loc rc 10 rc.REG_NONCODING])) :=
  ⟨rfl, ⟨_, rfl, rfl, rfl, rfl⟩, by decide, ⟨_, rfl, rfl, rfl, rfl⟩⟩

/-- C26 (defect in the code): on the plus-strand record with exons 1..10 and
21..30 and coding region 5..25, the end of exon 0 (genomic 10) and the start of
exon 1 (genomic 21) both lie inside the coding region, and `parse_line_locs`
packs them with the magnitudes 0 and 7, which are not consecutive. -/
theorem plus_facing_boundaries_not_contiguous (rc : reg_consts) :
    (parse_line_locs rc two_exon_record).map
        (fun l => (l.dna_ref_offsets_END.getD 0 0, l.dna_ref_offsets_START.getD 1 0)) =
      .ok (compact_loc rc 0 rc.REG_CODING, compact_loc rc 7 rc.REG_CODING) ∧
    two_exon_record.strand = '+' ∧
    (two_exon_record.cdsstart ≤ two_exon_record.exons_END.getD 0 0 ∧
      two_exon_record.exons_END.getD 0 0 ≤ two_exon_record.cdsend) ∧
    (two_exon_record.cdsstart ≤ two_exon_record.exons_START.getD 1 0 ∧
      two_exon_record.exons_START.getD 1 0 ≤ two_exon_record.cdsend) :=
  ⟨rfl, rfl, by decide, by decide⟩

/-- C27 (defect in the code): on the plus-strand non-coding record with exons
1..10 and 21..30, `parse_line_locs` stores the transcript positions (1, 10) and
(11, 20) but packs the offsets of exon 0 with the magnitudes 11 and 20 and those
of exon 1 with 1 and 10. -/
theorem noncoding_offsets_differ_from_positions (rc : reg_consts) :
    (parse_line_locs rc plus_noncoding_two_exons).map
        (fun l => (l.loc_START, l.loc_END, l.dna_ref_offsets_START,
          l.dna_ref_offsets_END)) =
      .ok ([1, 11], [10, 20],
        [compact_loc rc 11 rc.REG_NONCODING, compact_loc rc 1 rc.REG_NONCODING],
        [compact_loc rc 20 rc.REG_NONCODING, compact_loc rc 10 rc.REG_NONCODING]) ∧
    plus_noncoding_two_exons.cdsstart = plus_noncoding_two_exons.cdsend :=
  ⟨rfl, rfl⟩

/-- C29 (defect in the code): the copy of the located record that
`parse_line_locs` returns for the two-exon record has the same rows and lengths
but loc_parsed 0, so that `parse_line_locs` accepts the copy again and doubles
its reference_length. -/
theorem copy_of_located_not_located (rc : reg_consts) :
    ∃ l1 nl l2, parse_line_locs rc two_exon_record = .ok l1 ∧
      genepred_line_copy l1 = .ok nl ∧
      l1.loc_parsed = true ∧ nl.loc_parsed = false ∧
      nl = { l1 with loc_parsed := false } ∧
      parse_line_locs rc nl = .ok l2 ∧
      l1.reference_length = 20 ∧ l2.reference_length = 40 :=
  ⟨_, _, _, rfl, rfl, rfl, rfl, rfl, rfl, rfl, rfl⟩

/-! ## Every slot of the offset rows is written -/

theorem tagged_utr5 (rc : reg_consts) (m : Int) : tagged rc (compact_loc rc m rc.REG_UTR5) :=
  ⟨m, _, rfl, Or.inl rfl⟩

theorem tagged_utr3 (rc : reg_consts) (m : Int) : tagged rc (compact_loc rc m rc.REG_UTR3) :=
  ⟨m, _, rfl, Or.inr (Or.inl rfl)⟩

theorem tagged_coding (rc : reg_consts) (m : Int) :
    tagged rc (compact_loc rc m rc.REG_CODING) :=
  ⟨m, _, rfl, Or.inr (Or.inr (Or.inl rfl))⟩

theorem tagged_strand (rc : reg_consts) (m : Int) (b : Bool) :
    tagged rc (compact_loc rc m (if b = true then rc.REG_UTR5 else rc.REG_UTR3)) := by
  cases b
  · exact tagged_utr3 rc m
  · exact tagged_utr5 rc m

theorem tagged_strand_rev (rc : reg_consts) (m : Int) (b : Bool) :
    tagged rc (compact_loc rc m (if b = true then rc.REG_UTR3 else rc.REG_UTR5)) := by
  cases b
  · exact tagged_utr5 rc m
  · exact tagged_utr3 rc m

theorem tagged_middle (rc : reg_consts) (m : Int) (c : Bool) :
    tagged rc (compact_loc rc m (if c = true then rc.REG_CODING else rc.REG_NONCODING)) := by
  cases c
  · exact ⟨m, _, rfl, Or.inr (Or.inr (Or.inr rfl))⟩
  · exact tagged_coding rc m

theorem tagged_set (rc : reg_consts) (l : List Int) (a j : Nat) (v : Int)
    (hv : tagged rc v) (hj : tagged rc (l.getD j 0)) :
    tagged rc ((l.set a v).getD j 0) := by
  by_cases hja : j = a
  · subst hja
    by_cases hlt : j < l.length
    · rw [getD_set_self _ _ _ hlt]; exact hv
    · have hnone : l[j]? = none := List.getElem?_eq_none (by omega)
      have : (l.set j v).getD j 0 = l.getD j 0 := by
        simp [List.getD_eq_getElem?_getD, List.getElem?_set, hlt, hnone]
      rw [this]; exact hj
  · rw [getD_set_ne _ _ _ _ hja]; exact hj

theorem tagged_set_self (rc : reg_consts) (l : List Int) (a : Nat) (v : Int)
    (hv : tagged rc v) (h : a < l.length) : tagged rc ((l.set a v).getD a 0) := by
  rw [getD_set_self _ _ _ h]; exact hv

/-- The forward sweep from exon `a` on, when the remaining UTR length is at most
the summed length of the exons `a .. m-1`: it returns normally, it stops at an
exon `b ≤ m`, and it has written tagged values to both slots of the exons
`a .. b-1`. -/
theorem forward_sweep_full (rc : reg_consts) (line : genepred_line) (is_strand : Bool)
    (rl bl : Int) (n : Nat) (hS : line.exons_START.length = n)
    (hE : line.exons_END.length = n) (m : Nat) (hm : m ≤ n) (fuel : Nat) :
    ∀ (a : Nat) (fl : Int) (st : sweep_state),
    st.l1 = (a : Int) → a ≤ m → n - a < fuel →
    st.dna_ref_offsets_START.length = n → st.dna_ref_offsets_END.length = n →
    fl ≤ len_sum line a (m - a) →
    (∀ j, a ≤ j → j < m → 0 ≤ exon_length line j) →
    ∃ st1, forward_sweep rc line is_strand rl bl fuel fl st = .ok st1 ∧
      (∃ b : Nat, st1.l1 = (b : Int) ∧ a ≤ b ∧ b ≤ m ∧
        (∀ j, a ≤ j → j < b →
          tagged rc (st1.dna_ref_offsets_START.getD j 0) ∧
          tagged rc (st1.dna_ref_offsets_END.getD j 0)) ∧
        (∀ j, b ≤ j →
          st1.dna_ref_offsets_START.getD j 0 = st.dna_ref_offsets_START.getD j 0 ∧
          st1.dna_ref_offsets_END.getD j 0 = st.dna_ref_offsets_END.getD j 0)) ∧
      st1.l2 = st.l2 ∧
      st1.dna_ref_offsets_START.length = n ∧ st1.dna_ref_offsets_END.length = n ∧
      (∀ j, tagged rc (st.dna_ref_offsets_START.getD j 0) →
        tagged rc (st1.dna_ref_offsets_START.getD j 0)) ∧
      (∀ j, tagged rc (st.dna_ref_offsets_END.getD j 0) →
        tagged rc (st1.dna_ref_offsets_END.getD j 0)) := by
  induction fuel with
  | zero => intro a fl st _ _ h; omega
  | succ fuel ih =>
    intro a fl st hl1 ham hfuel hoS hoE hfl hnn
    by_cases hpos : fl > 0
    · have ham1 : a < m := by
        by_contra hcon
        have h0 : m - a = 0 := by omega
        rw [h0, len_sum] at hfl
        omega
      have hstep : m - a = (m - (a + 1)) + 1 := by omega
      rw [hstep, len_sum] at hfl
      have hrE := rd_ok line.exons_END a (by omega)
      have hrS := rd_ok line.exons_START a (by omega)
      have hwS := fun v => wr_ok st.dna_ref_offsets_START a v (by omega)
      have hwE := fun v => wr_ok st.dna_ref_offsets_END a v (by omega)
      rw [forward_sweep, if_pos hpos, hl1]
      simp only [hrE, hrS, hwS, hwE, bind, Except.bind]
      by_cases hge : fl ≥ line.exons_END.getD a 0 - line.exons_START.getD a 0 + 1
      · rw [if_pos hge]
        obtain ⟨st1, hr, ⟨b, hb1, hb2, hb3, hb4, hb5⟩, h2, h4, h5, h6, h7⟩ :=
          ih (a + 1) (fl - (line.exons_END.getD a 0 - line.exons_START.getD a 0 + 1))
            { st with l1 := (a : Int) + 1,
                      dna_ref_offsets_START := st.dna_ref_offsets_START.set a
                        (compact_loc rc fl (if is_strand then rc.REG_UTR5 else rc.REG_UTR3)),
                      dna_ref_offsets_END := st.dna_ref_offsets_END.set a
                        (compact_loc rc (fl - (line.exons_END.getD a 0 -
                          line.exons_START.getD a 0 + 1) + 1)
                          (if is_strand then rc.REG_UTR5 else rc.REG_UTR3)) }
            (by push_cast; rfl) (by omega) (by omega) (by simp [hoS]) (by simp [hoE])
            (by unfold exon_length at hfl; omega)
            (fun j hj1 hj2 => hnn j (by omega) hj2)
        refine ⟨st1, hr, ⟨b, hb1, by omega, hb3, ?_, ?_⟩, h2, h4, h5, ?_, ?_⟩
        · intro j hj1 hj2
          by_cases hja : j = a
          · subst hja
            exact ⟨h6 j (tagged_set_self rc _ _ _ (tagged_strand rc _ _) (by omega)),
              h7 j (tagged_set_self rc _ _ _ (tagged_strand rc _ _) (by omega))⟩
          · exact hb4 j (by omega) hj2
        · intro j hj
          have := hb5 j hj
          simp only [] at this
          rw [getD_set_ne _ _ _ _ (by omega), getD_set_ne _ _ _ _ (by omega)] at this
          exact this
        · intro j hj
          exact h6 j (tagged_set rc _ _ _ _ (tagged_strand rc _ _) hj)
        · intro j hj
          exact h7 j (tagged_set rc _ _ _ _ (tagged_strand rc _ _) hj)
      · rw [if_neg hge]
        have hfin : ∀ (vS vE : Int) (fo : Int), tagged rc vS → tagged rc vE →
            ∃ st1, Except.ok (ε := Error)
                ({ l1 := (a : Int) + 1, l2 := st.l2, forward_offset := fo,
                   backward_offset := st.backward_offset,
                   dna_ref_offsets_START := st.dna_ref_offsets_START.set a vS,
                   dna_ref_offsets_END := st.dna_ref_offsets_END.set a vE } : sweep_state)
                = .ok st1 ∧
              (∃ b : Nat, st1.l1 = (b : Int) ∧ a ≤ b ∧ b ≤ m ∧
                (∀ j, a ≤ j → j < b →
                  tagged rc (st1.dna_ref_offsets_START.getD j 0) ∧
                  tagged rc (st1.dna_ref_offsets_END.getD j 0)) ∧
                (∀ j, b ≤ j →
                  st1.dna_ref_offsets_START.getD j 0 = st.dna_ref_offsets_START.getD j 0 ∧
                  st1.dna_ref_offsets_END.getD j 0 = st.dna_ref_offsets_END.getD j 0)) ∧
              st1.l2 = st.l2 ∧
              st1.dna_ref_offsets_START.length = n ∧
              st1.dna_ref_offsets_END.length = n ∧
              (∀ j, tagged rc (st.dna_ref_offsets_START.getD j 0) →
                tagged rc (st1.dna_ref_offsets_START.getD j 0)) ∧
              (∀ j, tagged rc (st.dna_ref_offsets_END.getD j 0) →
                tagged rc (st1.dna_ref_offsets_END.getD j 0)) := by
          intro vS vE fo hvS hvE
          refine ⟨_, rfl, ⟨a + 1, by push_cast; rfl, by omega, by omega, ?_, ?_⟩, rfl,
            by simp [hoS], by simp [hoE], ?_, ?_⟩
          · intro j hj1 hj2
            have hja : j = a := by omega
            subst hja
            exact ⟨tagged_set_self rc _ _ _ hvS (by omega),
              tagged_set_self rc _ _ _ hvE (by omega)⟩
          · intro j hj
            exact ⟨getD_set_ne _ _ _ _ (by omega), getD_set_ne _ _ _ _ (by omega)⟩
          · intro j hj
            exact tagged_set rc _ _ _ _ hvS hj
          · intro j hj
            exact tagged_set rc _ _ _ _ hvE hj
        split_ifs
        · exact hfin _ _ _ (tagged_utr5 rc _) (tagged_utr3 rc _)
        · exact hfin _ _ _ (tagged_utr5 rc _) (tagged_coding rc _)
        · exact hfin _ _ _ (tagged_utr3 rc _) (tagged_utr5 rc _)
        · exact hfin _ _ _ (tagged_utr3 rc _) (tagged_coding rc _)
    · rw [forward_sweep_zero _ _ _ _ _ _ _ _ (by omega)]
      exact ⟨st, rfl, ⟨a, hl1, le_refl a, ham, fun j h1 h2 => by omega,
        fun j _ => ⟨rfl, rfl⟩⟩, rfl, hoS, hoE,
        fun j h => h, fun j h => h⟩

/-- The backward sweep from exon `m-1` down, when the remaining UTR length is at
most the summed length of the exons `q .. m-1`: it returns normally, it stops
with `l2 = b - 1` for some `b ≥ q`, it has written tagged values to both slots
of the exons `b .. m-1`, and it has left the exons before `b` untouched. -/
theorem backward_sweep_full (rc : reg_consts) (line : genepred_line) (is_strand : Bool)
    (rl : Int) (n : Nat) (hS : line.exons_START.length = n)
    (hE : line.exons_END.length = n) (q : Nat) (fuel : Nat) :
    ∀ (m : Nat) (bl : Int) (st : sweep_state),
    st.l2 = (m : Int) - 1 → m ≤ n → q ≤ m → m < fuel →
    st.dna_ref_offsets_START.length = n → st.dna_ref_offsets_END.length = n →
    bl ≤ len_sum line q (m - q) →
    (∀ j, q ≤ j → j < m → 0 ≤ exon_length line j) →
    ∃ st1, backward_sweep rc line is_strand rl fuel bl st = .ok st1 ∧
      (∃ b : Nat, st1.l2 = (b : Int) - 1 ∧ q ≤ b ∧ b ≤ m ∧
        (∀ j, b ≤ j → j < m →
          tagged rc (st1.dna_ref_offsets_START.getD j 0) ∧
          tagged rc (st1.dna_ref_offsets_END.getD j 0)) ∧
        (∀ j, j < b →
          st1.dna_ref_offsets_START.getD j 0 = st.dna_ref_offsets_START.getD j 0 ∧
          st1.dna_ref_offsets_END.getD j 0 = st.dna_ref_offsets_END.getD j 0)) ∧
      st1.l1 = st.l1 ∧
      st1.dna_ref_offsets_START.length = n ∧ st1.dna_ref_offsets_END.length = n ∧
      (∀ j, tagged rc (st.dna_ref_offsets_START.getD j 0) →
        tagged rc (st1.dna_ref_offsets_START.getD j 0)) ∧
      (∀ j, tagged rc (st.dna_ref_offsets_END.getD j 0) →
        tagged rc (st1.dna_ref_offsets_END.getD j 0)) := by
  induction fuel with
  | zero => intro m bl st _ _ _ h; omega
  | succ fuel ih =>
    intro m bl st hl2 hmn hqm hfuel hoS hoE hbl hnn
    by_cases hpos : bl > 0
    · have hm1 : q < m := by
        by_contra hcon
        have h0 : m - q = 0 := by omega
        rw [h0, len_sum] at hbl
        omega
      obtain ⟨p, hp⟩ : ∃ p, m = p + 1 := ⟨m - 1, by omega⟩
      subst hp
      have hstep : p + 1 - q = (p - q) + 1 := by omega
      rw [hstep, len_sum_succ_right] at hbl
      have hqp : q + (p - q) = p := by omega
      rw [hqp] at hbl
      have hidx : ((p + 1 : Nat) : Int) - 1 = (p : Int) := by push_cast; ring
      rw [hidx] at hl2
      have hrE := rd_ok line.exons_END p (by omega)
      have hrS := rd_ok line.exons_START p (by omega)
      have hwS := fun v => wr_ok st.dna_ref_offsets_START p v (by omega)
      have hwE := fun v => wr_ok st.dna_ref_offsets_END p v (by omega)
      rw [backward_sweep, if_pos hpos, hl2]
      simp only [hrE, hrS, hwS, hwE, bind, Except.bind]
      by_cases hge : bl ≥ line.exons_END.getD p 0 - line.exons_START.getD p 0 + 1
      · rw [if_pos hge]
        obtain ⟨st1, hr, ⟨b, hb1, hb2, hb3, hb4, hb5⟩, h2, h4, h5, h6, h7⟩ :=
          ih p (bl - (line.exons_END.getD p 0 - line.exons_START.getD p 0 + 1))
            { st with l2 := (p : Int) - 1,
                      dna_ref_offsets_START := st.dna_ref_offsets_START.set p
                        (compact_loc rc (bl - (line.exons_END.getD p 0 -
                          line.exons_START.getD p 0 + 1) + 1)
                          (if is_strand then rc.REG_UTR3 else rc.REG_UTR5)),
                      dna_ref_offsets_END := st.dna_ref_offsets_END.set p
                        (compact_loc rc bl (if is_strand then rc.REG_UTR3 else rc.REG_UTR5)) }
            rfl (by omega) (by omega) (by omega) (by simp [hoS]) (by simp [hoE])
            (by unfold exon_length at hbl; omega)
            (fun j hj1 hj2 => hnn j hj1 (by omega))
        refine ⟨st1, hr, ⟨b, hb1, hb2, by omega, ?_, ?_⟩, h2, h4, h5, ?_, ?_⟩
        · intro j hj1 hj2
          by_cases hja : j = p
          · subst hja
            exact ⟨h6 j (tagged_set_self rc _ _ _ (tagged_strand_rev rc _ _) (by omega)),
              h7 j (tagged_set_self rc _ _ _ (tagged_strand_rev rc _ _) (by omega))⟩
          · exact hb4 j hj1 (by omega)
        · intro j hj
          have := hb5 j hj
          simp only [] at this
          rw [getD_set_ne _ _ _ _ (by omega), getD_set_ne _ _ _ _ (by omega)] at this
          exact this
        · intro j hj
          exact h6 j (tagged_set rc _ _ _ _ (tagged_strand_rev rc _ _) hj)
        · intro j hj
          exact h7 j (tagged_set rc _ _ _ _ (tagged_strand_rev rc _ _) hj)
      · rw [if_neg hge]
        have hfin : ∀ (vS vE : Int) (bo : Int), tagged rc vS → tagged rc vE →
            ∃ st1, Except.ok (ε := Error)
                ({ l1 := st.l1, l2 := (p : Int) - 1, forward_offset := st.forward_offset,
                   backward_offset := bo,
                   dna_ref_offsets_START := st.dna_ref_offsets_START.set p vS,
                   dna_ref_offsets_END := st.dna_ref_offsets_END.set p vE } : sweep_state)
                = .ok st1 ∧
              (∃ b : Nat, st1.l2 = (b : Int) - 1 ∧ q ≤ b ∧ b ≤ p + 1 ∧
                (∀ j, b ≤ j → j < p + 1 →
                  tagged rc (st1.dna_ref_offsets_START.getD j 0) ∧
                  tagged rc (st1.dna_ref_offsets_END.getD j 0)) ∧
                (∀ j, j < b →
                  st1.dna_ref_offsets_START.getD j 0 = st.dna_ref_offsets_START.getD j 0 ∧
                  st1.dna_ref_offsets_END.getD j 0 = st.dna_ref_offsets_END.getD j 0)) ∧
              st1.l1 = st.l1 ∧
              st1.dna_ref_offsets_START.length = n ∧
              st1.dna_ref_offsets_END.length = n ∧
              (∀ j, tagged rc (st.dna_ref_offsets_START.getD j 0) →
                tagged rc (st1.dna_ref_offsets_START.getD j 0)) ∧
              (∀ j, tagged rc (st.dna_ref_offsets_END.getD j 0) →
                tagged rc (st1.dna_ref_offsets_END.getD j 0)) := by
          intro vS vE bo hvS hvE
          refine ⟨_, rfl, ⟨p, rfl, by omega, by omega, ?_, ?_⟩, rfl,
            by simp [hoS], by simp [hoE], ?_, ?_⟩
          · intro j hj1 hj2
            have hja : j = p := by omega
            subst hja
            exact ⟨tagged_set_self rc _ _ _ hvS (by omega),
              tagged_set_self rc _ _ _ hvE (by omega)⟩
          · intro j hj
            exact ⟨getD_set_ne _ _ _ _ (by omega), getD_set_ne _ _ _ _ (by omega)⟩
          · intro j hj
            exact tagged_set rc _ _ _ _ hvS hj
          · intro j hj
            exact tagged_set rc _ _ _ _ hvE hj
        split_ifs
        · exact hfin _ _ _ (tagged_utr5 rc _) (tagged_utr3 rc _)
        · exact hfin _ _ _ (tagged_coding rc _) (tagged_utr3 rc _)
        · exact hfin _ _ _ (tagged_utr5 rc _) (tagged_utr5 rc _)
        · exact hfin _ _ _ (tagged_coding rc _) (tagged_utr5 rc _)
    · rw [backward_sweep_zero _ _ _ _ _ _ _ (by omega)]
      exact ⟨st, rfl, ⟨m, hl2, hqm, le_refl m, fun j h1 h2 => by omega,
        fun j _ => ⟨rfl, rfl⟩⟩, rfl, hoS, hoE, fun j h => h, fun j h => h⟩

/-! ## How far the UTR lengths of the first loop reach -/

/-- In a sorted record every exon ends before every later exon starts. -/
theorem exons_sorted_lt (line : genepred_line) (hne : exons_nonempty line)
    (hs : exons_sorted line) :
    ∀ d j, j + d + 1 < line.exon_count.toNat →
      line.exons_END.getD j 0 < line.exons_START.getD (j + d + 1) 0 := by
  intro d
  induction d with
  | zero => intro j hj; exact hs j (by omega)
  | succ d ih =>
    intro j hj
    have h1 := ih j (by omega)
    have h2 := hne (j + d + 1) (by omega)
    have h3 := hs (j + d + 1) (by omega)
    have e : j + (d + 1) + 1 = j + d + 1 + 1 := by omega
    rw [e]
    omega

/-- One iteration of the first loop leaves `forward_length` unchanged on an exon
that starts at or after `cdsstart`, and `backward_length` unchanged on an exon
that ends at or before `cdsend`. -/
theorem first_loop_body_lengths (line : genepred_line) (c : Bool) (a : Nat)
    (st : first_state)
    (hS : a < line.exons_START.length) (hE : a < line.exons_END.length)
    (hLS : a < st.loc_START.length) (hLE : a < st.loc_END.length) :
    ∃ st1, first_loop_body line c (a : Int) st = .ok st1 ∧
      st1.loc_START.length = st.loc_START.length ∧
      st1.loc_END.length = st.loc_END.length ∧
      (line.cdsstart < line.exons_END.getD a 0 ∧ line.cdsstart ≤ line.exons_START.getD a 0 →
        st1.forward_length = st.forward_length) ∧
      (line.exons_START.getD a 0 < line.cdsend ∧ line.exons_END.getD a 0 ≤ line.cdsend →
        st1.backward_length = st.backward_length) ∧
      (0 ≤ exon_length line a →
        st1.forward_length ≤ st.forward_length + exon_length line a ∧
        st1.backward_length ≤ st.backward_length + exon_length line a) := by
  unfold first_loop_body
  rw [rd_ok _ _ hS, rd_ok _ _ hE]
  simp only [bind, Except.bind]
  rw [wr_ok _ _ _ hLS, wr_ok _ _ _ hLE]
  simp only []
  cases c with
  | false =>
    refine ⟨_, rfl, by simp, by simp, ?_, ?_, ?_⟩
    · intro _; simp
    · intro _; simp
    · intro h; simp; exact h
  | true =>
    simp only [Bool.true_eq_false, if_false]
    refine ⟨_, rfl, by simp, by simp, ?_, ?_, ?_⟩
    · intro ⟨h1, h2⟩
      simp only []
      split_ifs <;> omega
    · intro ⟨h1, h2⟩
      simp only []
      split_ifs <;> omega
    · intro h
      simp only [exon_length] at h ⊢
      constructor <;> split_ifs <;> omega

/-- The first loop run for `k` exons from exon `a` on: when no exon from `m` on
starts before `cdsstart`, `forward_length` grows by at most the summed length
of the exons `a .. m-1`; when no exon before `q` ends after `cdsend`,
`backward_length` grows by at most the summed length of the exons from `q`
on. -/
theorem first_loop_bounds (line : genepred_line) (c : Bool) (k : Nat) :
    ∀ (a : Nat) (st : first_state),
    a + k ≤ line.exons_START.length → a + k ≤ line.exons_END.length →
    a + k ≤ st.loc_START.length → a + k ≤ st.loc_END.length →
    (∀ j, a ≤ j → j < a + k → 0 ≤ exon_length line j) →
    ∃ st1, first_loop line c k (a : Int) st = .ok st1 ∧
      (∀ m, a ≤ m → m ≤ a + k →
        (∀ j, m ≤ j → j < a + k →
          line.cdsstart < line.exons_END.getD j 0 ∧
          line.cdsstart ≤ line.exons_START.getD j 0) →
        st1.forward_length ≤ st.forward_length + len_sum line a (m - a)) ∧
      (∀ q, a ≤ q → q ≤ a + k →
        (∀ j, a ≤ j → j < q →
          line.exons_START.getD j 0 < line.cdsend ∧
          line.exons_END.getD j 0 ≤ line.cdsend) →
        st1.backward_length ≤ st.backward_length + len_sum line q (a + k - q)) := by
  induction k with
  | zero =>
    intro a st _ _ _ _ _
    refine ⟨st, rfl, ?_, ?_⟩
    · intro m h1 h2 _
      have e : m - a = 0 := by omega
      rw [e, len_sum]; omega
    · intro q h1 h2 _
      have e : a + 0 - q = 0 := by omega
      rw [e, len_sum]; omega
  | succ k ih =>
    intro a st hS hE hLS hLE hnn
    obtain ⟨st1, hb, hl1, hl2, hf0, hb0, hle⟩ :=
      first_loop_body_lengths line c a st (by omega) (by omega) (by omega) (by omega)
    obtain ⟨hfle, hble⟩ := hle (hnn a (le_refl a) (by omega))
    obtain ⟨st2, hr, hF, hB⟩ :=
      ih (a + 1) st1 (by omega) (by omega) (by omega) (by omega)
        (fun j h1 h2 => hnn j (by omega) (by omega))
    refine ⟨st2, ?_, ?_, ?_⟩
    · rw [first_loop]
      simp only [bind, Except.bind, hb]
      have : ((a : Int) + 1) = ((a + 1 : Nat) : Int) := by push_cast; rfl
      rw [this]; exact hr
    · intro m h1 h2 hz
      by_cases hma : m = a
      · subst hma
        have h3 := hF (m + 1) (le_refl _) (by omega)
          (fun j hj1 hj2 => hz j (by omega) (by omega))
        have h4 := hf0 (hz m (le_refl m) (by omega))
        simp only [Nat.sub_self, len_sum] at h3 ⊢
        omega
      · have h3 := hF m (by omega) (by omega)
          (fun j hj1 hj2 => hz j hj1 (by omega))
        have e : m - a = (m - (a + 1)) + 1 := by omega
        rw [e, len_sum]
        omega
    · intro q h1 h2 hz
      by_cases hqa : q = a
      · subst hqa
        have h3 := hB (q + 1) (le_refl _) (by omega) (fun j hj1 hj2 => by omega)
        have e1 : q + (k + 1) - q = k + 1 := by omega
        have e2 : q + 1 + k - (q + 1) = k := by omega
        rw [e2] at h3
        rw [e1, len_sum]
        omega
      · have h3 := hB q (by omega) (by omega)
          (fun j hj1 hj2 => hz j (by omega) hj2)
        have h4 := hb0 (hz a (le_refl a) (by omega))
        have e : a + 1 + k - q = a + (k + 1) - q := by omega
        rw [e] at h3
        omega

theorem getD_replicate_zero (n j : Nat) : (List.replicate n (0 : Int)).getD j 0 = 0 := by
  simp only [List.getD_eq_getElem?_getD, List.getElem?_replicate]
  split_ifs <;> rfl

/-- The three sweeps of `fill_offsets`, stage by stage, when the leading UTR
fits in the exons `0 .. m-1` and the trailing UTR fits in the exons from `q`
on: each sweep returns normally, the forward sweep stops at an exon `≤ m` and
leaves the exons from `m` on untouched, the backward sweep stops at an exon
`≥ q - 1` and leaves the exons before `q` untouched, and at the end both slots
of every exon hold a tagged value. -/
theorem fill_offsets_full (rc : reg_consts) (line : genepred_line) (s c : Bool)
    (fl bl rl : Int) (ha : arrays_ok line)
    (hnn : ∀ j, j < line.exon_count.toNat → 0 ≤ exon_length line j)
    (m q : Nat) (hm : m ≤ line.exon_count.toNat) (hq : q ≤ line.exon_count.toNat)
    (hfl : fl ≤ len_sum line 0 m)
    (hbl : bl ≤ len_sum line q (line.exon_count.toNat - q)) :
    ∃ s1 s2 s3,
      forward_sweep rc line s rl bl (line.exon_count.toNat + 1) fl (sweep_init line)
        = .ok s1 ∧
      backward_sweep rc line s rl (line.exon_count.toNat + 1) bl s1 = .ok s2 ∧
      fill_offsets rc line s c fl bl rl = .ok s3 ∧
      (0 ≤ s1.l1 ∧ s1.l1 ≤ (m : Int)) ∧
      ((q : Int) - 1 ≤ s2.l2 ∧ s2.l2 ≤ line.exon_count - 1) ∧
      (∀ j, m ≤ j → s1.dna_ref_offsets_START.getD j 0 = 0 ∧
        s1.dna_ref_offsets_END.getD j 0 = 0) ∧
      (∀ j, j < q →
        s2.dna_ref_offsets_START.getD j 0 = s1.dna_ref_offsets_START.getD j 0 ∧
        s2.dna_ref_offsets_END.getD j 0 = s1.dna_ref_offsets_END.getD j 0) ∧
      s3.dna_ref_offsets_START.length = line.exon_count.toNat ∧
      s3.dna_ref_offsets_END.length = line.exon_count.toNat ∧
      (∀ j, j < line.exon_count.toNat →
        tagged rc (s3.dna_ref_offsets_START.getD j 0) ∧
        tagged rc (s3.dna_ref_offsets_END.getD j 0)) := by
  obtain ⟨h1, h2⟩ := ha
  have hn1 : line.exons_START.length = line.exon_count.toNat := by omega
  have hn2 : line.exons_END.length = line.exon_count.toNat := by omega
  have hcnt : ((line.exon_count.toNat : Nat) : Int) = line.exon_count := by omega
  obtain ⟨s1, hr1, ⟨b, hb1, _, hb3, hbt, hbu⟩, hl2, ho1, ho2, _, _⟩ :=
    forward_sweep_full rc line s rl bl line.exon_count.toNat hn1 hn2 m hm
      (line.exon_count.toNat + 1) 0 fl (sweep_init line)
      (by simp [sweep_init]) (by omega) (by omega) (by simp [sweep_init])
      (by simp [sweep_init]) (by simpa using hfl)
      (fun j _ hj => hnn j (by omega))
  obtain ⟨s2, hr2, ⟨b2, hc1, hc2, hc3, hct, hcu⟩, hl1, hp1, hp2, hq1, hq2⟩ :=
    backward_sweep_full rc line s rl line.exon_count.toNat hn1 hn2 q
      (line.exon_count.toNat + 1) line.exon_count.toNat bl s1
      (by rw [hl2]; simp only [sweep_init]; rw [hcnt]) (le_refl _) hq (by omega) ho1 ho2 hbl
      (fun j _ hj => hnn j hj)
  have hk : (s2.l2 - s2.l1 + 1).toNat = b2 - b := by
    rw [hc1, hl1, hb1]; omega
  have hfo : fill_offsets rc line s c fl bl rl =
      (if s = true then
        middle_sweep_plus rc line c (b2 - b)
          (if (c = true) ∧ s2.backward_offset ≠ 0 then s2.backward_offset else rl) s2
      else
        middle_sweep_minus rc line c (b2 - b)
          (if (c = true) ∧ s2.forward_offset ≠ 0 then s2.forward_offset - 1 else rl) s2) := by
    unfold fill_offsets
    simp only [bind, Except.bind]
    have hr1b := hr1
    simp only [sweep_init] at hr1b
    rw [hr1b]
    simp only []
    rw [hr2]
    simp only []
    rw [hk]
  have hfin : ∀ s3 : sweep_state,
      s3.dna_ref_offsets_START.length = s2.dna_ref_offsets_START.length →
      s3.dna_ref_offsets_END.length = s2.dna_ref_offsets_END.length →
      (∀ j, (j < b ∨ b2 ≤ j) →
        s3.dna_ref_offsets_START.getD j 0 = s2.dna_ref_offsets_START.getD j 0 ∧
        s3.dna_ref_offsets_END.getD j 0 = s2.dna_ref_offsets_END.getD j 0) →
      (∀ j, b ≤ j → j < b2 →
        tagged rc (s3.dna_ref_offsets_START.getD j 0) ∧
        tagged rc (s3.dna_ref_offsets_END.getD j 0)) →
      (0 ≤ s1.l1 ∧ s1.l1 ≤ (m : Int)) ∧
      ((q : Int) - 1 ≤ s2.l2 ∧ s2.l2 ≤ line.exon_count - 1) ∧
      (∀ j, m ≤ j → s1.dna_ref_offsets_START.getD j 0 = 0 ∧
        s1.dna_ref_offsets_END.getD j 0 = 0) ∧
      (∀ j, j < q →
        s2.dna_ref_offsets_START.getD j 0 = s1.dna_ref_offsets_START.getD j 0 ∧
        s2.dna_ref_offsets_END.getD j 0 = s1.dna_ref_offsets_END.getD j 0) ∧
      s3.dna_ref_offsets_START.length = line.exon_count.toNat ∧
      s3.dna_ref_offsets_END.length = line.exon_count.toNat ∧
      (∀ j, j < line.exon_count.toNat →
        tagged rc (s3.dna_ref_offsets_START.getD j 0) ∧
        tagged rc (s3.dna_ref_offsets_END.getD j 0)) := by
    intro s3 e1 e2 hun hmid
    refine ⟨⟨by omega, by omega⟩, ⟨by omega, by omega⟩, ?_, ?_, by rw [e1, hp1],
      by rw [e2, hp2], ?_⟩
    · intro j hj
      obtain ⟨u1, u2⟩ := hbu j (by omega)
      rw [u1, u2]
      simp [sweep_init, getD_replicate_zero]
    · intro j hj
      exact hcu j (by omega)
    · intro j hj
      by_cases hjb : j < b
      · obtain ⟨u1, u2⟩ := hun j (Or.inl hjb)
        obtain ⟨t1, t2⟩ := hbt j (Nat.zero_le j) hjb
        rw [u1, u2]
        exact ⟨hq1 j t1, hq2 j t2⟩
      · by_cases hjc : b2 ≤ j
        · obtain ⟨u1, u2⟩ := hun j (Or.inr hjc)
          rw [u1, u2]
          exact hct j hjc hj
        · exact hmid j (by omega) (by omega)
  refine ⟨s1, s2, ?_⟩
  cases s with
  | true =>
    simp only [if_true] at hfo
    obtain ⟨s3, hr3, q1, q2, hun, hw⟩ :=
      middle_sweep_plus_spec rc line c (b2 - b) b
        (if (c = true) ∧ s2.backward_offset ≠ 0 then s2.backward_offset else rl) s2
        (by rw [hl1, hb1]) (by omega) (by omega) (by omega) (by omega)
    refine ⟨s3, hr1, hr2, by rw [hfo, hr3], hfin s3 q1 q2 ?_ ?_⟩
    · intro j hj
      exact hun j (by omega)
    · intro j hj1 hj2
      obtain ⟨w1, w2⟩ := hw j hj1 (by omega)
      rw [w1, w2]
      exact ⟨tagged_middle rc _ _, tagged_middle rc _ _⟩
  | false =>
    simp only [Bool.false_eq_true, if_false] at hfo
    obtain ⟨s3, hr3, q1, q2, hun, hw⟩ :=
      middle_sweep_minus_spec rc line c (b2 - b) b2
        (if (c = true) ∧ s2.forward_offset ≠ 0 then s2.forward_offset - 1 else rl) s2
        hc1 (by omega) (by omega) (by omega) (by omega) (by omega)
    refine ⟨s3, hr1, hr2, by rw [hfo, hr3], hfin s3 q1 q2 ?_ ?_⟩
    · intro j hj
      exact hun j (by omega)
    · intro j hj1 hj2
      obtain ⟨w1, w2⟩ := hw j (by omega) hj2
      rw [w1, w2]
      exact ⟨tagged_middle rc _ _, tagged_middle rc _ _⟩

/-! ## The sweeps on a record that satisfies the record invariants -/

/-- C28: for every record that is not yet located and satisfies the record
invariants (exon_count ≥ 1 entries in both rows of exons, every exon non-empty,
exons sorted and disjoint, cdsstart ≤ cdsend), the first loop, the forward
sweep, the backward sweep and the middle sweep of `parse_line_locs` all return
normally (no array access outside 0 .. exon_count-1 and no sweep that runs on),
so `parse_line_locs` returns; the forward sweep ends with 0 ≤ l1 ≤ exon_count
and the backward sweep with -1 ≤ l2 ≤ exon_count-1; for every exon p that ends
at or after cdsstart (so for the exon that contains cdsstart) the forward sweep
ends with l1 ≤ p+1 and has written nothing to the exons after p; for every exon
p that starts at or before cdsend (so for the exon that contains cdsend) the
backward sweep ends with l2 ≥ p-1 and has written nothing to the exons before
p. -/
theorem sweeps_stay_inside_exons (rc : reg_consts) (line : genepred_line)
    (hp : line.loc_parsed = false) (hinv : record_invariants line) :
    ∃ fs s1 s2 s3 l1,
      first_loop line (if line.cdsstart = line.cdsend then false else true)
        line.exon_count.toNat 0 (first_init line) = .ok fs ∧
      forward_sweep rc line (decide (line.strand = '+'))
        (fs.reference_length - fs.forward_length - fs.backward_length)
        fs.backward_length (line.exon_count.toNat + 1) fs.forward_length
        (sweep_init line) = .ok s1 ∧
      backward_sweep rc line (decide (line.strand = '+'))
        (fs.reference_length - fs.forward_length - fs.backward_length)
        (line.exon_count.toNat + 1) fs.backward_length s1 = .ok s2 ∧
      fill_offsets rc line (decide (line.strand = '+'))
        (if line.cdsstart = line.cdsend then false else true)
        fs.forward_length fs.backward_length
        (fs.reference_length - fs.forward_length - fs.backward_length) = .ok s3 ∧
      parse_line_locs rc line = .ok l1 ∧
      (0 ≤ s1.l1 ∧ s1.l1 ≤ line.exon_count) ∧
      (-1 ≤ s2.l2 ∧ s2.l2 ≤ line.exon_count - 1) ∧
      (∀ p : Nat, p < line.exon_count.toNat →
        line.cdsstart ≤ line.exons_END.getD p 0 →
        s1.l1 ≤ (p : Int) + 1 ∧
        ∀ j, p < j → s1.dna_ref_offsets_START.getD j 0 = 0 ∧
          s1.dna_ref_offsets_END.getD j 0 = 0) ∧
      (∀ p : Nat, p < line.exon_count.toNat →
        line.exons_START.getD p 0 ≤ line.cdsend →
        (p : Int) - 1 ≤ s2.l2 ∧
        ∀ j, j < p →
          s2.dna_ref_offsets_START.getD j 0 = s1.dna_ref_offsets_START.getD j 0 ∧
          s2.dna_ref_offsets_END.getD j 0 = s1.dna_ref_offsets_END.getD j 0) := by
  obtain ⟨ha, _, hne, hso, _⟩ := hinv
  have hnn : ∀ j, j < line.exon_count.toNat → 0 ≤ exon_length line j := by
    intro j hj
    have := hne j hj
    unfold exon_length
    omega
  have hlt := exons_sorted_lt line hne hso
  obtain ⟨ha1, ha2⟩ := ha
  have hcnt : ((line.exon_count.toNat : Nat) : Int) = line.exon_count := by omega
  obtain ⟨fs, hf, hF, hB⟩ :=
    first_loop_bounds line (if line.cdsstart = line.cdsend then false else true)
      line.exon_count.toNat 0 (first_init line) (by omega) (by omega)
      (by simp [first_init]) (by simp [first_init])
      (fun j _ hj => hnn j (by omega))
  simp only [Nat.cast_zero, Nat.zero_add, first_init, zero_add, Nat.sub_zero] at hf hF hB
  have hfl0 : fs.forward_length ≤ len_sum line 0 line.exon_count.toNat :=
    hF line.exon_count.toNat (Nat.zero_le _) (le_refl _) (fun j h1 h2 => by omega)
  have hbl0 : fs.backward_length ≤ len_sum line 0 (line.exon_count.toNat - 0) :=
    hB 0 (le_refl _) (Nat.zero_le _) (fun j _ h2 => by omega)
  obtain ⟨s1, s2, s3, hr1, hr2, hr3, ⟨hl1a, hl1b⟩, ⟨hl2a, hl2b⟩, _, _, _, _, _⟩ :=
    fill_offsets_full rc line (decide (line.strand = '+'))
      (if line.cdsstart = line.cdsend then false else true)
      fs.forward_length fs.backward_length
      (fs.reference_length - fs.forward_length - fs.backward_length) ⟨ha1, ha2⟩ hnn
      line.exon_count.toNat 0 (le_refl _) (Nat.zero_le _) hfl0 hbl0
  refine ⟨fs, s1, s2, s3, _, hf, hr1, hr2, hr3,
    parse_line_locs_of rc line fs s3 hp hf hr3, ⟨hl1a, by omega⟩, ⟨by omega, hl2b⟩, ?_, ?_⟩
  · intro p hpn hcs
    have hflp : fs.forward_length ≤ len_sum line 0 (p + 1) := by
      refine hF (p + 1) (Nat.zero_le _) (by omega) ?_
      intro j hj1 hj2
      obtain ⟨d, hd⟩ : ∃ d, j = p + d + 1 := ⟨j - p - 1, by omega⟩
      subst hd
      have h1 := hlt d p hj2
      have h2 := hne (p + d + 1) hj2
      exact ⟨by omega, by omega⟩
    obtain ⟨t1, t2, t3, e1, _, _, ⟨_, b1⟩, _, u1, _⟩ :=
      fill_offsets_full rc line (decide (line.strand = '+'))
        (if line.cdsstart = line.cdsend then false else true)
        fs.forward_length fs.backward_length
        (fs.reference_length - fs.forward_length - fs.backward_length) ⟨ha1, ha2⟩ hnn
        (p + 1) 0 (by omega) (Nat.zero_le _) hflp hbl0
    rw [hr1] at e1
    cases e1
    exact ⟨by push_cast at b1; exact b1, fun j hj => u1 j (by omega)⟩
  · intro p hpn hce
    have hblp : fs.backward_length ≤ len_sum line p (line.exon_count.toNat - p) := by
      refine hB p (Nat.zero_le _) (by omega) ?_
      intro j _ hj2
      obtain ⟨d, hd⟩ : ∃ d, p = j + d + 1 := ⟨p - j - 1, by omega⟩
      have h1 := hlt d j (by omega)
      have h2 := hne j (by omega)
      rw [← hd] at h1
      exact ⟨by omega, by omega⟩
    obtain ⟨t1, t2, t3, e1, e2, _, _, ⟨b1, _⟩, _, u2, _⟩ :=
      fill_offsets_full rc line (decide (line.strand = '+'))
        (if line.cdsstart = line.cdsend then false else true)
        fs.forward_length fs.backward_length
        (fs.reference_length - fs.forward_length - fs.backward_length) ⟨ha1, ha2⟩ hnn
        line.exon_count.toNat p (le_refl _) (by omega) hfl0 hblp
    rw [hr1] at e1
    cases e1
    rw [hr2] at e2
    cases e2
    exact ⟨b1, u2⟩

theorem sweeps_stay_inside_exons_witness :
    minus_three_exon_record.loc_parsed = false ∧
    record_invariants minus_three_exon_record ∧
    ∃ fs s1 s2 s3 l1,
      first_loop minus_three_exon_record true 3 0 (first_init minus_three_exon_record)
        = .ok fs ∧
      forward_sweep rc_sample minus_three_exon_record false
        (fs.reference_length - fs.forward_length - fs.backward_length)
        fs.backward_length 4 fs.forward_length
        (sweep_init minus_three_exon_record) = .ok s1 ∧
      backward_sweep rc_sample minus_three_exon_record false
        (fs.reference_length - fs.forward_length - fs.backward_length)
        4 fs.backward_length s1 = .ok s2 ∧
      fill_offsets rc_sample minus_three_exon_record false true
        fs.forward_length fs.backward_length
        (fs.reference_length - fs.forward_length - fs.backward_length) = .ok s3 ∧
      parse_line_locs rc_sample minus_three_exon_record = .ok l1 ∧
      s1.l1 ≤ ((1 : Nat) : Int) + 1 ∧
      s1.dna_ref_offsets_START.getD 2 0 = 0 ∧
      ((2 : Nat) : Int) - 1 ≤ s2.l2 ∧
      s2.dna_ref_offsets_END.getD 1 0 = s1.dna_ref_offsets_END.getD 1 0 := by
  refine ⟨rfl, by decide, ?_⟩
  obtain ⟨fs, s1, s2, s3, l1, h1, h2, h3, h4, h5, _, _, h8, h9⟩ :=
    sweeps_stay_inside_exons rc_sample minus_three_exon_record rfl (by decide)
  exact ⟨fs, s1, s2, s3, l1, h1, h2, h3, h4, h5,
    (h8 1 (by decide) (by decide)).1, ((h8 1 (by decide) (by decide)).2 2 (by decide)).1,
    (h9 2 (by decide) (by decide)).1, ((h9 2 (by decide) (by decide)).2 1 (by decide)).2⟩

/-! ## The rows of the table -/

theorem rd_inv (l : List Int) (i : Nat) (v : Int) (h : rd l (i : Int) = .ok v) :
    i < l.length ∧ v = l.getD i 0 := by
  unfold rd at h
  split_ifs at h with hc
  · have hi : i < l.length := by exact_mod_cast hc.2
    refine ⟨hi, ?_⟩
    simp only [Int.toNat_ofNat, Except.ok.injEq] at h
    exact h.symm
  
/-- A tagged packed offset is rendered, never the fatal "Unknown type". -/
theorem render_offset_tagged (rc : reg_consts) (hwf : rc.wf) (v : Int)
    (h : tagged rc v) : ∃ s, render_offset rc v = some s := by
  obtain ⟨m, t, rfl, ht⟩ := h
  obtain ⟨⟨a1, a2⟩, ⟨b1, b2⟩, ⟨c1, c2⟩, ⟨d1, d2⟩, _⟩ := hwf
  have hty : reg_type rc (compact_loc rc m t) = t := by
    rcases ht with h | h | h | h <;> subst h <;>
      exact reg_type_compact_loc rc m _ (by assumption) (by assumption)
  unfold render_offset region_prefix
  simp only [hty]
  split_ifs
  · exact ⟨_, rfl⟩
  · exact ⟨_, rfl⟩
  · exact ⟨_, rfl⟩
  · exact ⟨_, rfl⟩
  · exfalso
    rcases ht with h | h | h | h <;> contradiction

/-- What a row that `generate_dbref_database` prints for exon `i` holds. -/
theorem dbref_row_of_inv (rc : reg_consts) (line : genepred_line) (i : Nat)
    (row : dbref_row) (h : dbref_row_of rc line (i : Int) = .ok row) :
    i < line.exons_START.length ∧ i < line.exons_END.length ∧
    row.chrom = line.chrom ∧ row.strand = line.strand ∧
    row.gene = line.name2 ∧ row.transcript = line.name1 ∧
    row.start = line.exons_START.getD i 0 - 1 ∧
    row.stop = line.exons_END.getD i 0 ∧
    row.exon_id = exon_id line (i : Int) ∧
    row.loc_start = line.loc_START.getD i 0 ∧
    row.loc_end = line.loc_END.getD i 0 ∧
    render_offset rc (line.dna_ref_offsets_START.getD i 0) = some row.start_c ∧
    render_offset rc (line.dna_ref_offsets_END.getD i 0) = some row.end_c := by
  unfold dbref_row_of at h
  cases h1 : rd line.dna_ref_offsets_START (i : Int) with
  | error e => simp [h1, bind, Except.bind] at h
  | ok v1 =>
  cases h2 : rd line.dna_ref_offsets_END (i : Int) with
  | error e => simp [h1, h2, bind, Except.bind] at h
  | ok v2 =>
  cases h3 : render_offset rc v1 with
  | none => simp [h1, h2, h3, bind, Except.bind] at h
  | some t1 =>
  cases h4 : render_offset rc v2 with
  | none => simp [h1, h2, h3, h4, bind, Except.bind] at h
  | some t2 =>
  cases h5 : rd line.exons_START (i : Int) with
  | error e => simp [h1, h2, h3, h4, h5, bind, Except.bind] at h
  | ok v5 =>
  cases h6 : rd line.exons_END (i : Int) with
  | error e => simp [h1, h2, h3, h4, h5, h6, bind, Except.bind] at h
  | ok v6 =>
  cases h7 : rd line.loc_START (i : Int) with
  | error e => simp [h1, h2, h3, h4, h5, h6, h7, bind, Except.bind] at h
  | ok v7 =>
  cases h8 : rd line.loc_END (i : Int) with
  | error e => simp [h1, h2, h3, h4, h5, h6, h7, h8, bind, Except.bind] at h
  | ok v8 =>
  simp only [h1, h2, h3, h4, h5, h6, h7, h8, bind, Except.bind, Except.ok.injEq] at h
  obtain ⟨_, e1⟩ := rd_inv _ _ _ h1
  obtain ⟨_, e2⟩ := rd_inv _ _ _ h2
  obtain ⟨l5, e5⟩ := rd_inv _ _ _ h5
  obtain ⟨l6, e6⟩ := rd_inv _ _ _ h6
  obtain ⟨_, e7⟩ := rd_inv _ _ _ h7
  obtain ⟨_, e8⟩ := rd_inv _ _ _ h8
  subst h
  subst e1 e2 e5 e6 e7 e8
  exact ⟨l5, l6, rfl, rfl, rfl, rfl, rfl, rfl, rfl, rfl, rfl, h3, h4⟩

/-- A row is printed for exon `i` when the six arrays hold an entry `i` and
both packed offsets of the exon are tagged. -/
theorem dbref_row_of_ok (rc : reg_consts) (hwf : rc.wf) (line : genepred_line) (i : Nat)
    (h1 : i < line.dna_ref_offsets_START.length) (h2 : i < line.dna_ref_offsets_END.length)
    (h3 : i < line.exons_START.length) (h4 : i < line.exons_END.length)
    (h5 : i < line.loc_START.length) (h6 : i < line.loc_END.length)
    (t1 : tagged rc (line.dna_ref_offsets_START.getD i 0))
    (t2 : tagged rc (line.dna_ref_offsets_END.getD i 0)) :
    ∃ row, dbref_row_of rc line (i : Int) = .ok row := by
  obtain ⟨s1, r1⟩ := render_offset_tagged rc hwf _ t1
  obtain ⟨s2, r2⟩ := render_offset_tagged rc hwf _ t2
  unfold dbref_row_of
  rw [rd_ok _ _ h1, rd_ok _ _ h2, rd_ok _ _ h3, rd_ok _ _ h4, rd_ok _ _ h5, rd_ok _ _ h6]
  simp only [bind, Except.bind, r1, r2]
  exact ⟨_, rfl⟩

/-- The loop of `generate_dbref_database` run for `k` exons from exon `a` on:
the rows it appends are, in order, the rows of the exons `a, a+1, ...`; and
when every one of the `k` exons has a row, all `k` are printed and the loop
ends without the fatal error. -/
theorem dbref_rows_spec (rc : reg_consts) (line : genepred_line) (k : Nat) :
    ∀ (a : Nat) (out : List dbref_row),
    ∃ rest, (dbref_rows rc line k (a : Int) out).1 = out ++ rest ∧
      rest.length ≤ k ∧
      (∀ t row, rest[t]? = some row → dbref_row_of rc line ((a + t : Nat) : Int) = .ok row) ∧
      ((∀ t, t < k → ∃ row, dbref_row_of rc line ((a + t : Nat) : Int) = .ok row) →
        rest.length = k ∧ (dbref_rows rc line k (a : Int) out).2 = none) := by
  induction k with
  | zero =>
    intro a out
    exact ⟨[], by simp [dbref_rows], by simp, by simp, fun _ => ⟨rfl, rfl⟩⟩
  | succ k ih =>
    intro a out
    cases hr : dbref_row_of rc line (a : Int) with
    | error e =>
      refine ⟨[], by simp [dbref_rows, hr], by simp, by simp, ?_⟩
      intro hall
      obtain ⟨row, h0⟩ := hall 0 (by omega)
      simp only [Nat.add_zero] at h0
      rw [hr] at h0
      cases h0
    | ok row =>
      obtain ⟨rest, e1, e2, e3, e4⟩ := ih (a + 1) (out ++ [row])
      have hcast : ((a : Int) + 1) = ((a + 1 : Nat) : Int) := by push_cast; rfl
      have hstep : dbref_rows rc line (k + 1) (a : Int) out =
          dbref_rows rc line k ((a + 1 : Nat) : Int) (out ++ [row]) := by
        rw [dbref_rows]
        simp only [hr, hcast]
      refine ⟨row :: rest, ?_, by simp; omega, ?_, ?_⟩
      · rw [hstep, e1]; simp
      · intro t r ht
        cases t with
        | zero =>
          simp only [List.getElem?_cons_zero, Option.some.injEq] at ht
          subst ht
          simpa using hr
        | succ t =>
          simp only [List.getElem?_cons_succ] at ht
          have := e3 t r ht
          have e : a + (t + 1) = a + 1 + t := by omega
          rw [e]; exact this
      · intro hall
        have := e4 (fun t ht => by
          have h := hall (t + 1) (by omega)
          have e : a + (t + 1) = a + 1 + t := by omega
          rw [e] at h; exact h)
        rw [hstep]
        exact ⟨by simp [this.1], this.2⟩

/-- The table of a record that `parse_line_locs` has located: on a record that
is not yet located, with rows of `exon_count` entries and no exon of negative
length, `parse_line_locs` returns and `generate_dbref_database` prints one row
for every exon, without the fatal error. -/
theorem located_table (rc : reg_consts) (hwf : rc.wf) (line : genepred_line)
    (hp : line.loc_parsed = false) (ha : arrays_ok line)
    (hnn : ∀ j, j < line.exon_count.toNat → 0 ≤ exon_length line j) :
    ∃ l1 rows, parse_line_locs rc line = .ok l1 ∧
      generate_dbref_database rc l1 = (rows, none) ∧
      rows.length = line.exon_count.toNat ∧
      l1.exon_count = line.exon_count ∧ l1.strand = line.strand ∧
      l1.exons_START = line.exons_START ∧ l1.exons_END = line.exons_END ∧
      ∀ i row, rows[i]? = some row → dbref_row_of rc l1 ((i : Nat) : Int) = .ok row := by
  obtain ⟨fs, hf, _, hls, hle, _, _, hb⟩ :=
    first_loop_init_spec line (if line.cdsstart = line.cdsend then false else true) ha
  obtain ⟨⟨_, hfl⟩, ⟨_, hbl⟩⟩ := hb hnn
  obtain ⟨_, _, s3, _, _, hs, _, _, _, _, ho1, ho2, htag⟩ :=
    fill_offsets_full rc line (decide (line.strand = '+'))
      (if line.cdsstart = line.cdsend then false else true)
      fs.forward_length fs.backward_length
      (fs.reference_length - fs.forward_length - fs.backward_length) ha hnn
      line.exon_count.toNat 0 (le_refl _) (Nat.zero_le _) hfl (by simpa using hbl)
  obtain ⟨l1, hl, hl1⟩ : ∃ l1, parse_line_locs rc line = .ok l1 ∧
      l1 = ({ line with
        loc_parsed := true
        reference_length := fs.reference_length
        forward_length :=
          if decide (line.strand = '+') then fs.forward_length else fs.backward_length
        backward_length :=
          if decide (line.strand = '+') then fs.backward_length else fs.forward_length
        loc_START :=
          if decide (line.strand = '+') then fs.loc_START
          else fs.loc_START.map (fun v => fs.reference_length - v + 1)
        loc_END :=
          if decide (line.strand = '+') then fs.loc_END
          else fs.loc_END.map (fun v => fs.reference_length - v + 1)
        dna_ref_offsets_START := s3.dna_ref_offsets_START
        dna_ref_offsets_END := s3.dna_ref_offsets_END } : genepred_line) :=
    ⟨_, parse_line_locs_of rc line fs s3 hp hf hs, rfl⟩
  obtain ⟨ha1, ha2⟩ := ha
  have e1 : l1.exon_count = line.exon_count := by rw [hl1]
  have e2 : l1.strand = line.strand := by rw [hl1]
  have e3 : l1.exons_START = line.exons_START := by rw [hl1]
  have e4 : l1.exons_END = line.exons_END := by rw [hl1]
  have e5 : l1.dna_ref_offsets_START = s3.dna_ref_offsets_START := by rw [hl1]
  have e6 : l1.dna_ref_offsets_END = s3.dna_ref_offsets_END := by rw [hl1]
  have e7 : l1.loc_START.length = line.exon_count.toNat := by
    rw [hl1]; simp only []; split_ifs <;> simp [hls]
  have e8 : l1.loc_END.length = line.exon_count.toNat := by
    rw [hl1]; simp only []; split_ifs <;> simp [hle]
  have hrow : ∀ t, t < l1.exon_count.toNat →
      ∃ row, dbref_row_of rc l1 ((0 + t : Nat) : Int) = .ok row := by
    intro t ht
    rw [e1] at ht
    rw [Nat.zero_add]
    obtain ⟨t1, t2⟩ := htag t ht
    exact dbref_row_of_ok rc hwf l1 t (by rw [e5, ho1]; exact ht) (by rw [e6, ho2]; exact ht)
      (by rw [e3]; omega) (by rw [e4]; omega) (by rw [e7]; exact ht) (by rw [e8]; exact ht)
      (by rw [e5]; exact t1) (by rw [e6]; exact t2)
  obtain ⟨rest, r1, _, r3, r4⟩ := dbref_rows_spec rc l1 l1.exon_count.toNat 0 []
  obtain ⟨r5, r6⟩ := r4 hrow
  simp only [Nat.cast_zero, List.nil_append] at r1 r6
  have hg : generate_dbref_database rc l1 = (rest, none) := by
    unfold generate_dbref_database
    exact Prod.ext r1 r6
  refine ⟨l1, rest, hl, hg, ?_, e1, e2, e3, e4, ?_⟩
  · rw [r5, e1]
  · intro i row hi
    have := r3 i row hi
    rw [Nat.zero_add] at this
    exact this

/-! ## Genomic interval and exon number of a row -/

/-- C21: for every line that parses successfully (a token at every column of
the layout, an accepted strand, exonCount ≥ 0 comma-terminated items in the
exonStarts and exonEnds columns), every row that `generate_dbref_database`
prints for exon i of the located record shows as genomic start the i-th
integer of the exonStarts column and as genomic end the i-th integer of the
exonEnds column; and when no exon starts after its end, the record is located
and one such row is printed for each of the exonCount exons. -/
theorem table_interval_is_source (rc : reg_consts) (hwf : rc.wf)
    (type : genepred_format) (str2int : List Char → Int)
    (tokens : List (List Char)) (l0 : genepred_line)
    (starts ends : List (List Char)) (restS restE : List Char)
    (htx : type.txend ≠ 0)
    (hcols : has_all_columns type tokens)
    (hstrand : ∃ c cs, token tokens type.strand = c :: cs ∧ (c = '+' ∨ c = '-'))
    (hS : token tokens type.exonstarts = comma_terminated starts restS)
    (hE : token tokens type.exonends = comma_terminated ends restE)
    (hcount : 0 ≤ str2int (token tokens type.exon_count))
    (hnS : starts.length = (str2int (token tokens type.exon_count)).toNat)
    (hnE : ends.length = (str2int (token tokens type.exon_count)).toNat)
    (hcS : ∀ p ∈ starts, ',' ∉ p) (hcE : ∀ p ∈ ends, ',' ∉ p) :
    ∃ line, parse_line_core type str2int tokens l0 = .ok (0, line) ∧
      (∀ l1, parse_line_locs rc line = .ok l1 →
        ∀ (i : Nat) (row : dbref_row),
          (generate_dbref_database rc l1).1[i]? = some row →
          ∃ ps pe, starts[i]? = some ps ∧ ends[i]? = some pe ∧
            row.start = str2int ps ∧ row.stop = str2int pe) ∧
      ((∀ (i : Nat) ps pe, starts[i]? = some ps → ends[i]? = some pe →
          str2int ps ≤ str2int pe) →
        ∃ l1 rows, parse_line_locs rc line = .ok l1 ∧
          generate_dbref_database rc l1 = (rows, none) ∧
          rows.length = starts.length) := by
  obtain ⟨line, hl, _, _, _, _, hc, hs, he⟩ :=
    parse_line_core_full type str2int tokens l0 starts ends restS restE htx hcols
      hstrand hS hE hnS hnE hcS hcE
  refine ⟨line, hl, ?_, ?_⟩
  · intro l1 hloc i row hrow
    obtain ⟨_, fs, s3, _, _, hl1⟩ := parse_line_locs_inv rc line l1 hloc
    have e3 : l1.exons_START = line.exons_START := by rw [hl1]
    have e4 : l1.exons_END = line.exons_END := by rw [hl1]
    obtain ⟨rest, r1, _, r3, _⟩ := dbref_rows_spec rc l1 l1.exon_count.toNat 0 []
    simp only [Nat.cast_zero, List.nil_append] at r1
    have hg : (generate_dbref_database rc l1).1 = rest := by
      unfold generate_dbref_database
      exact r1
    rw [hg] at hrow
    have hr := r3 i row hrow
    rw [Nat.zero_add] at hr
    obtain ⟨b1, b2, _, _, _, _, b7, b8, _⟩ := dbref_row_of_inv rc l1 i row hr
    rw [e3, hs] at b1 b7
    rw [e4, he] at b2 b8
    simp only [List.length_map] at b1 b2
    refine ⟨starts[i], ends[i], List.getElem?_eq_getElem b1, List.getElem?_eq_getElem b2,
      ?_, ?_⟩
    · rw [b7]
      simp [List.getD_eq_getElem?_getD, List.getElem?_map, List.getElem?_eq_getElem b1]
    · rw [b8]
      simp [List.getD_eq_getElem?_getD, List.getElem?_map, List.getElem?_eq_getElem b2]
  · intro hord
    have hp : line.loc_parsed = false :=
      (parse_line_core_cleared type str2int tokens l0 0 line hl).1
    have hlenS : line.exons_START.length = starts.length := by rw [hs, List.length_map]
    have hlenE : line.exons_END.length = ends.length := by rw [he, List.length_map]
    have ha : arrays_ok line := by
      unfold arrays_ok
      rw [hlenS, hlenE, hnS, hnE, hc]
      omega
    have hn : line.exon_count.toNat = starts.length := by rw [hc, hnS]
    have hnn : ∀ j, j < line.exon_count.toNat → 0 ≤ exon_length line j := by
      intro j hj
      have b1 : j < starts.length := by omega
      have b2 : j < ends.length := by omega
      have := hord j starts[j] ends[j] (List.getElem?_eq_getElem b1)
        (List.getElem?_eq_getElem b2)
      unfold exon_length
      rw [hs, he]
      simp only [List.getD_eq_getElem?_getD, List.getElem?_map,
        List.getElem?_eq_getElem b1, List.getElem?_eq_getElem b2, Option.map_some',
        Option.getD_some]
      omega
    obtain ⟨l1, rows, h1, h2, h3, _⟩ := located_table rc hwf line hp ha hnn
    exact ⟨l1, rows, h1, h2, by rw [h3, hn]⟩

theorem table_interval_is_source_witness :
    ∃ line l1 rows,
      parse_line_core genepred_formats str2int_dec noncoding_tokens {} = .ok (0, line) ∧
      parse_line_locs rc_sample line = .ok l1 ∧
      generate_dbref_database rc_sample l1 = (rows, none) ∧
      rows.length = 2 ∧
      ∀ (i : Nat) (row : dbref_row), rows[i]? = some row →
        ∃ ps pe, ["0".toList, "20".toList][i]? = some ps ∧
          ["10".toList, "30".toList][i]? = some pe ∧
          row.start = str2int_dec ps ∧ row.stop = str2int_dec pe := by
  obtain ⟨line, h1, h2, h3⟩ :=
    table_interval_is_source rc_sample (by decide) genepred_formats str2int_dec
      noncoding_tokens {} ["0".toList, "20".toList] ["10".toList, "30".toList] [] []
      (by decide) (by decide) ⟨'+', [], rfl, Or.inl rfl⟩ rfl rfl (by decide) rfl rfl
      (by decide) (by decide)
  have hord : ∀ (i : Nat) ps pe, ["0".toList, "20".toList][i]? = some ps →
      ["10".toList, "30".toList][i]? = some pe → str2int_dec ps ≤ str2int_dec pe := by
    intro i ps pe e1 e2
    rcases i with _ | _ | i
    · simp only [List.getElem?_cons_zero, Option.some.injEq] at e1 e2
      subst e1 e2
      decide
    · simp only [List.getElem?_cons_succ, List.getElem?_cons_zero, Option.some.injEq] at e1 e2
      subst e1 e2
      decide
    · simp at e1
  obtain ⟨l1, rows, h4, h5, h6⟩ := h3 hord
  exact ⟨line, l1, rows, h1, h4, h5, h6, fun i row hr => h2 l1 h4 i row (by rw [h5]; exact hr)⟩

/-- C23: every row that `generate_dbref_database` prints for the exon at
genomic index i is labelled EX(i+1) when the strand is `+` and
EX(exon_count - i) otherwise; and for a record located by `parse_line_locs`
(not located before, rows of exon_count entries, no exon of negative length)
one row is printed per exon, the labels of the rows are a permutation of
1..exon_count, in ascending order on strand `+` and in descending order
otherwise, where the row of the genomically first exon carries the label
exon_count. -/
theorem exon_labels_transcript_order (rc : reg_consts) (hwf : rc.wf)
    (line : genepred_line) (hp : line.loc_parsed = false) (ha : arrays_ok line)
    (hnn : ∀ j, j < line.exon_count.toNat → 0 ≤ exon_length line j) :
    (∀ (l : genepred_line) (i : Nat) (row : dbref_row),
      (generate_dbref_database rc l).1[i]? = some row →
      row.exon_id = if l.strand = '+' then (i : Int) + 1 else l.exon_count - (i : Int)) ∧
    ∃ l1 rows, parse_line_locs rc line = .ok l1 ∧
      generate_dbref_database rc l1 = (rows, none) ∧
      rows.length = line.exon_count.toNat ∧
      (rows.map (fun r => r.exon_id)).Perm
        ((List.range line.exon_count.toNat).map (fun (i : Nat) => (i : Int) + 1)) ∧
      (line.strand = '+' →
        rows.map (fun r => r.exon_id) =
          (List.range line.exon_count.toNat).map (fun (i : Nat) => (i : Int) + 1)) ∧
      (line.strand ≠ '+' →
        rows.map (fun r => r.exon_id) =
          ((List.range line.exon_count.toNat).map (fun (i : Nat) => (i : Int) + 1)).reverse ∧
        (0 < line.exon_count →
          ∃ row, rows[0]? = some row ∧ row.exon_id = line.exon_count)) := by
  constructor
  · intro l i row hrow
    obtain ⟨rest, r1, _, r3, _⟩ := dbref_rows_spec rc l l.exon_count.toNat 0 []
    simp only [Nat.cast_zero, List.nil_append] at r1
    have hg : (generate_dbref_database rc l).1 = rest := by
      unfold generate_dbref_database
      exact r1
    rw [hg] at hrow
    have hr := r3 i row hrow
    rw [Nat.zero_add] at hr
    obtain ⟨_, _, _, _, _, _, _, _, b9, _⟩ := dbref_row_of_inv rc l i row hr
    rw [b9]
    rfl
  · obtain ⟨l1, rows, h1, h2, h3, e1, e2, _, _, hrow⟩ := located_table rc hwf line hp ha hnn
    obtain ⟨ha1, _⟩ := ha
    have hcnt : ((line.exon_count.toNat : Nat) : Int) = line.exon_count := by omega
    have hid : ∀ (i : Nat) (h : i < rows.length), (rows[i]).exon_id = exon_id l1 (i : Int) := by
      intro i h
      have hr := hrow i rows[i] (List.getElem?_eq_getElem h)
      obtain ⟨_, _, _, _, _, _, _, _, b9, _⟩ := dbref_row_of_inv rc l1 i _ hr
      exact b9
    have hplus : line.strand = '+' →
        rows.map (fun r => r.exon_id) =
          (List.range line.exon_count.toNat).map (fun (i : Nat) => (i : Int) + 1) := by
      intro hs
      apply List.ext_getElem (by simp [h3])
      intro i q1 q2
      simp only [List.getElem_map, List.getElem_range]
      rw [hid i (by simpa using q1)]
      unfold exon_id
      rw [e2, if_pos hs]
    have hminus : line.strand ≠ '+' →
        rows.map (fun r => r.exon_id) =
          ((List.range line.exon_count.toNat).map (fun (i : Nat) => (i : Int) + 1)).reverse := by
      intro hs
      apply List.ext_getElem (by simp [h3])
      intro i q1 q2
      have hi : i < line.exon_count.toNat := by simpa [h3] using q1
      simp only [List.getElem_map, List.getElem_reverse, List.getElem_range,
        List.length_map, List.length_range]
      rw [hid i (by simpa using q1)]
      unfold exon_id
      rw [e2, if_neg hs, e1]
      omega
    refine ⟨l1, rows, h1, h2, h3, ?_, hplus, ?_⟩
    · by_cases hs : line.strand = '+'
      · rw [hplus hs]
      · rw [hminus hs]
        exact List.reverse_perm _
    · intro hs
      refine ⟨hminus hs, ?_⟩
      intro hpos
      have h0 : 0 < rows.length := by omega
      refine ⟨rows[0], List.getElem?_eq_getElem h0, ?_⟩
      rw [hid 0 h0]
      unfold exon_id
      rw [e2, if_neg hs, e1]
      simp

theorem exon_labels_transcript_order_witness :
    minus_three_exon_record.loc_parsed = false ∧ arrays_ok minus_three_exon_record ∧
    minus_three_exon_record.strand ≠ '+' ∧
    ∃ l1 rows, parse_line_locs rc_sample minus_three_exon_record = .ok l1 ∧
      generate_dbref_database rc_sample l1 = (rows, none) ∧
      rows.length = 3 ∧
      rows.map (fun r => r.exon_id) = [3, 2, 1] ∧
      ∃ row, rows[0]? = some row ∧ row.exon_id = 3 := by
  refine ⟨rfl, by decide, by decide, ?_⟩
  obtain ⟨_, l1, rows, h1, h2, h3, _, _, h6⟩ :=
    exon_labels_transcript_order rc_sample (by decide) minus_three_exon_record rfl
      (by decide) (by decide)
  obtain ⟨h7, h8⟩ := h6 (by decide)
  exact ⟨l1, rows, h1, h2, h3, h7, h8 (by decide)⟩

/-! ## Packed offsets in the table -/

theorem rd_error (l : List Int) (i : Int) (e : Error) (h : rd l i = .error e) :
    e = .out_of_bounds := by
  unfold rd at h
  split_ifs at h
  cases h
  rfl

/-- A packed offset whose tag is one of the four codes is rendered. -/
theorem render_offset_known (rc : reg_consts) (v : Int)
    (h : reg_type rc v = rc.REG_UTR5 ∨ reg_type rc v = rc.REG_UTR3 ∨
      reg_type rc v = rc.REG_CODING ∨ reg_type rc v = rc.REG_NONCODING) :
    ∃ s, render_offset rc v = some s := by
  unfold render_offset region_prefix
  simp only []
  split_ifs
  · exact ⟨_, rfl⟩
  · exact ⟨_, rfl⟩
  · exact ⟨_, rfl⟩
  · exact ⟨_, rfl⟩
  · exfalso
    rcases h with h | h | h | h <;> contradiction

/-- When the loop of `generate_dbref_database` ends without the fatal error,
every one of the `k` exons had a row. -/
theorem dbref_rows_none (rc : reg_consts) (line : genepred_line) (k : Nat) :
    ∀ (a : Nat) (out : List dbref_row),
    (dbref_rows rc line k (a : Int) out).2 = none →
    ∀ t, t < k → ∃ row, dbref_row_of rc line ((a + t : Nat) : Int) = .ok row := by
  induction k with
  | zero => intro a out _ t ht; omega
  | succ k ih =>
    intro a out h t ht
    cases hr : dbref_row_of rc line (a : Int) with
    | error e =>
      rw [dbref_rows] at h
      simp [hr] at h
    | ok row =>
      have hcast : ((a : Int) + 1) = ((a + 1 : Nat) : Int) := by push_cast; rfl
      rw [dbref_rows] at h
      simp only [hr, hcast] at h
      cases t with
      | zero => exact ⟨row, by simpa using hr⟩
      | succ t =>
        have := ih (a + 1) (out ++ [row]) h t (by omega)
        have e : a + (t + 1) = a + 1 + t := by omega
        rw [e]; exact this

/-- C22: for each of the four tags and every magnitude N, the mask and the shift
recover the tag and N from `compact_loc(N, tag)`, and `generate_dbref_database`
renders the packed value as `-N`, `*N`, `c.N` and `n.N` respectively; a packed
value whose tag field is none of the four codes is the fatal error "Unknown
type": the row of an exon is that error as soon as its start offset or its end
offset carries such a tag (and the table of a record with such an exon does not
complete), and it is never that error when both tags are among the four
codes. -/
theorem compact_loc_roundtrip (rc : reg_consts) (hwf : rc.wf) (N : Int) :
    (∀ t, (t = rc.REG_UTR5 ∨ t = rc.REG_UTR3 ∨ t = rc.REG_CODING ∨
        t = rc.REG_NONCODING) →
      reg_type rc (compact_loc rc N t) = t ∧ reg_loc rc (compact_loc rc N t) = N) ∧
    render_offset rc (compact_loc rc N rc.REG_UTR5) = some ('-' :: kputw N) ∧
    render_offset rc (compact_loc rc N rc.REG_UTR3) = some ('*' :: kputw N) ∧
    render_offset rc (compact_loc rc N rc.REG_CODING) = some ('c' :: '.' :: kputw N) ∧
    render_offset rc (compact_loc rc N rc.REG_NONCODING) = some ('n' :: '.' :: kputw N) ∧
    (∀ v, (reg_type rc v ≠ rc.REG_UTR5 ∧ reg_type rc v ≠ rc.REG_UTR3 ∧
        reg_type rc v ≠ rc.REG_CODING ∧ reg_type rc v ≠ rc.REG_NONCODING) →
      render_offset rc v = none) ∧
    (∀ (line : genepred_line) (i : Nat),
      i < line.dna_ref_offsets_START.length → i < line.dna_ref_offsets_END.length →
      (∃ v, (v = line.dna_ref_offsets_START.getD i 0 ∨
             v = line.dna_ref_offsets_END.getD i 0) ∧
        reg_type rc v ≠ rc.REG_UTR5 ∧ reg_type rc v ≠ rc.REG_UTR3 ∧
        reg_type rc v ≠ rc.REG_CODING ∧ reg_type rc v ≠ rc.REG_NONCODING) →
      dbref_row_of rc line (i : Int) = .error .unknown_type ∧
      (i < line.exon_count.toNat → (generate_dbref_database rc line).2 ≠ none)) ∧
    (∀ (line : genepred_line) (i : Nat),
      (∀ v, (v = line.dna_ref_offsets_START.getD i 0 ∨
             v = line.dna_ref_offsets_END.getD i 0) →
        (reg_type rc v = rc.REG_UTR5 ∨ reg_type rc v = rc.REG_UTR3 ∨
         reg_type rc v = rc.REG_CODING ∨ reg_type rc v = rc.REG_NONCODING)) →
      dbref_row_of rc line (i : Int) ≠ .error .unknown_type) := by
  obtain ⟨h5, h3, hc, hn, d53, d5c, d5n, d3c, d3n, dcn⟩ := hwf
  have t5 := reg_type_compact_loc rc N rc.REG_UTR5 h5.1 h5.2
  have t3 := reg_type_compact_loc rc N rc.REG_UTR3 h3.1 h3.2
  have tc := reg_type_compact_loc rc N rc.REG_CODING hc.1 hc.2
  have tn := reg_type_compact_loc rc N rc.REG_NONCODING hn.1 hn.2
  have m5 := reg_loc_compact_loc rc N rc.REG_UTR5 h5.1 h5.2
  have m3 := reg_loc_compact_loc rc N rc.REG_UTR3 h3.1 h3.2
  have mc := reg_loc_compact_loc rc N rc.REG_CODING hc.1 hc.2
  have mn := reg_loc_compact_loc rc N rc.REG_NONCODING hn.1 hn.2
  refine ⟨?_, ?_, ?_, ?_, ?_, ?_, ?_, ?_⟩
  · rintro t (h | h | h | h) <;> subst h
    · exact ⟨t5, m5⟩
    · exact ⟨t3, m3⟩
    · exact ⟨tc, mc⟩
    · exact ⟨tn, mn⟩
  · simp [render_offset, region_prefix, t5, m5]
  · simp [render_offset, region_prefix, t3, m3, Ne.symm d53]
  · simp [render_offset, region_prefix, tc, mc, Ne.symm d5c, Ne.symm d3c]
  · simp [render_offset, region_prefix, tn, mn, Ne.symm d5n, Ne.symm d3n, Ne.symm dcn]
  · intro v hv
    exact region_prefix_none rc v hv
  · intro line i hi1 hi2 hbad
    have hrow : dbref_row_of rc line (i : Int) = .error .unknown_type := by
      obtain ⟨v, hv, hu⟩ := hbad
      have bv := region_prefix_none rc v hu
      unfold dbref_row_of
      rw [rd_ok _ _ hi1, rd_ok _ _ hi2]
      simp only [bind, Except.bind]
      cases hs : render_offset rc (line.dna_ref_offsets_START.getD i 0) with
      | none => rfl
      | some s =>
        rcases hv with hv | hv
        · rw [hv, hs] at bv
          cases bv
        · rw [hv] at bv
          simp only [bv]
    refine ⟨hrow, ?_⟩
    intro hi hnone
    unfold generate_dbref_database at hnone
    have hz : ((0 : Nat) : Int) = 0 := rfl
    rw [← hz] at hnone
    obtain ⟨row, hr⟩ := dbref_rows_none rc line line.exon_count.toNat 0 [] hnone i hi
    rw [Nat.zero_add, hrow] at hr
    cases hr
  · intro line i hknown h
    obtain ⟨s1, r1⟩ := render_offset_known rc _ (hknown _ (Or.inl rfl))
    obtain ⟨s2, r2⟩ := render_offset_known rc _ (hknown _ (Or.inr rfl))
    unfold dbref_row_of at h
    cases h1 : rd line.dna_ref_offsets_START (i : Int) with
    | error e =>
      simp only [h1, bind, Except.bind, Except.error.injEq] at h
      have := rd_error _ _ _ h1
      rw [h] at this
      cases this
    | ok v1 =>
    cases h2 : rd line.dna_ref_offsets_END (i : Int) with
    | error e =>
      simp only [h1, h2, bind, Except.bind, Except.error.injEq] at h
      have := rd_error _ _ _ h2
      rw [h] at this
      cases this
    | ok v2 =>
    obtain ⟨_, e1⟩ := rd_inv _ _ _ h1
    obtain ⟨_, e2⟩ := rd_inv _ _ _ h2
    subst e1 e2
    simp only [h1, h2, r1, r2, bind, Except.bind] at h
    cases h5 : rd line.exons_START (i : Int) with
    | error e =>
      simp only [h5, Except.error.injEq] at h
      have := rd_error _ _ _ h5
      rw [h] at this
      cases this
    | ok v5 =>
    cases h6 : rd line.exons_END (i : Int) with
    | error e =>
      simp only [h5, h6, Except.error.injEq] at h
      have := rd_error _ _ _ h6
      rw [h] at this
      cases this
    | ok v6 =>
    cases h7 : rd line.loc_START (i : Int) with
    | error e =>
      simp only [h5, h6, h7, Except.error.injEq] at h
      have := rd_error _ _ _ h7
      rw [h] at this
      cases this
    | ok v7 =>
    cases h8 : rd line.loc_END (i : Int) with
    | error e =>
      simp only [h5, h6, h7, h8, Except.error.injEq] at h
      have := rd_error _ _ _ h8
      rw [h] at this
      cases this
    | ok v8 =>
      simp only [h5, h6, h7, h8] at h
      cases h

theorem compact_loc_roundtrip_witness :
    reg_type rc_sample (compact_loc rc_sample 45 rc_sample.REG_CODING)
      = rc_sample.REG_CODING ∧
    reg_loc rc_sample (compact_loc rc_sample 45 rc_sample.REG_CODING) = 45 ∧
    render_offset rc_sample (compact_loc rc_sample 45 rc_sample.REG_CODING)
      = some "c.45".toList ∧
    render_offset rc_sample 0 = none ∧
    (dbref_row_of rc_sample
      { two_exon_record with dna_ref_offsets_START := [43, 43],
                             dna_ref_offsets_END := [0, 43] } ((0 : Nat) : Int)
      = .error .unknown_type ∧
     (generate_dbref_database rc_sample
      { two_exon_record with dna_ref_offsets_START := [43, 43],
                             dna_ref_offsets_END := [0, 43] }).2 ≠ none) ∧
    (dbref_row_of rc_sample
      { two_exon_record with dna_ref_offsets_START := [0, 43],
                             dna_ref_offsets_END := [43, 43] } ((0 : Nat) : Int)
      = .error .unknown_type ∧
     (generate_dbref_database rc_sample
      { two_exon_record with dna_ref_offsets_START := [0, 43],
                             dna_ref_offsets_END := [43, 43] }).2 ≠ none) ∧
    dbref_row_of rc_sample
      { two_exon_record with dna_ref_offsets_START := [43, 43],
                             dna_ref_offsets_END := [0, 43] } ((1 : Nat) : Int)
      ≠ .error .unknown_type :=
  ⟨((compact_loc_roundtrip rc_sample (by decide) 45).1 _ (Or.inr (Or.inr (Or.inl rfl)))).1,
   ((compact_loc_roundtrip rc_sample (by decide) 45).1 _ (Or.inr (Or.inr (Or.inl rfl)))).2,
   (compact_loc_roundtrip rc_sample (by decide) 45).2.2.2.1,
   (compact_loc_roundtrip rc_sample (by decide) 45).2.2.2.2.2.1 0 (by decide),
   ⟨((compact_loc_roundtrip rc_sample (by decide) 45).2.2.2.2.2.2.1
      { two_exon_record with dna_ref_offsets_START := [43, 43],
                             dna_ref_offsets_END := [0, 43] } 0 (by decide) (by decide)
      ⟨0, Or.inr rfl, by decide⟩).1,
    ((compact_loc_roundtrip rc_sample (by decide) 45).2.2.2.2.2.2.1
      { two_exon_record with dna_ref_offsets_START := [43, 43],
                             dna_ref_offsets_END := [0, 43] } 0 (by decide) (by decide)
      ⟨0, Or.inr rfl, by decide⟩).2 (by decide)⟩,
   ⟨((compact_loc_roundtrip rc_sample (by decide) 45).2.2.2.2.2.2.1
      { two_exon_record with dna_ref_offsets_START := [0, 43],
                             dna_ref_offsets_END := [43, 43] } 0 (by decide) (by decide)
      ⟨0, Or.inl rfl, by decide⟩).1,
    ((compact_loc_roundtrip rc_sample (by decide) 45).2.2.2.2.2.2.1
      { two_exon_record with dna_ref_offsets_START := [0, 43],
                             dna_ref_offsets_END := [43, 43] } 0 (by decide) (by decide)
      ⟨0, Or.inl rfl, by decide⟩).2 (by decide)⟩,
   (compact_loc_roundtrip rc_sample (by decide) 45).2.2.2.2.2.2.2
     { two_exon_record with dna_ref_offsets_START := [43, 43],
                            dna_ref_offsets_END := [0, 43] } 1
     (by
       intro v hv
       have hv0 : v = 43 := by rcases hv with h | h <;> exact h
       subst hv0
       decide)⟩

end GenePred
